import Mathlib

/-!
# Staking ledger of `dl_data` (services/pool_service.go)

A shallow embedding of the launch-pool ledger: the tables of `models/models.go`
as lists of rows, the gorm calls of `services/pool_service.go` as functions on
those lists, and `Stake`, `Unstake`, `ClaimReward`, `calculateReward` and
`distributeReward` transcribed statement by statement. The stake and unstake
handlers of `controllers/pool_controller.go` are embedded with their request
binding in front of the service call.

Conventions of the embedding.

* A `float64` quantity is the rational number it denotes (`ℚ`). `Stake`,
  `Unstake`, `ClaimReward`, `calculateReward` and `distributeReward` compute on
  these numbers exactly. `StakeRounded`, `UnstakeRounded`,
  `calculateRewardRounded` and `distributeRewardRounded` are the same statements
  with every arithmetic result passed through a rounding `fl`; `float64` is the
  rounding of IEEE 754 binary64 (to nearest, ties to even). Infinities and NaN
  are not modelled.
* An instant is an integer number of nanoseconds; `Time.Sub` is the difference
  of two instants, saturated to the range of a `Duration` as in Go.
* Every reading of the clock (`time.Now()`) and the generated transaction id are
  arguments of the operation that reads them.
* The storage layer itself does not fail: the only failing call is a `First`
  that finds no row.
* The columns `Name`, `Email`, `CreatedAt`, `UpdatedAt` are never read by the
  ledger and are left out of the rows.
-/

set_option linter.unusedVariables false

namespace DlData

/-! ## Rows (models/models.go) -/

/-- An instant, in nanoseconds. -/
abbrev Time := Int

/-- Row of `assets`. -/
structure Asset where
  ID : Nat
  Symbol : String
  deriving DecidableEq, Repr

/-- Row of `user_assets`; `Balance` is the available quantity. -/
structure UserAsset where
  ID : Nat
  UserID : Nat
  AssetID : Nat
  Balance : ℚ
  Locked : ℚ
  deriving DecidableEq, Repr

/-- Row of `launch_pools`. -/
structure LaunchPool where
  ID : Nat
  StakeAsset : String
  RewardAsset : String
  StartTime : Time
  EndTime : Time
  APY : ℚ
  TotalStaked : ℚ
  deriving DecidableEq, Repr

/-- Row of `user_stakes`. -/
structure UserStake where
  ID : Nat
  UserID : Nat
  PoolID : Nat
  Amount : ℚ
  Reward : ℚ
  StakedAt : Time
  LastClaimAt : Time
  deriving DecidableEq, Repr

/-- Row of `asset_transactions`; `Kind` is the column `Type`. -/
structure AssetTransaction where
  ID : Nat
  UserID : Nat
  AssetSymbol : String
  Amount : ℚ
  Kind : String
  Status : String
  TxID : String
  deriving DecidableEq, Repr

/-- The database: one list of rows per table. -/
structure DB where
  assets : List Asset
  userAssets : List UserAsset
  pools : List LaunchPool
  stakes : List UserStake
  transactions : List AssetTransaction
  deriving DecidableEq, Repr

/-- The errors the service creates with `errors.New`. -/
inductive Err where
  | PoolNotFound
  | PoolNotActive
  | AssetNotFound
  | InsufficientBalance
  | StakeNotFound
  | UnstakeExceedsPosition
  | NoRewardToClaim
  deriving DecidableEq, Repr

/-- The message of each error, as written in the service. -/
def Err.message : Err → String
  | .PoolNotFound => "pool not found"
  | .PoolNotActive => "pool not active"
  | .AssetNotFound => "asset not found"
  | .InsufficientBalance => "insufficient balance"
  | .StakeNotFound => "stake record not found"
  | .UnstakeExceedsPosition => "unstake amount exceeds staked amount"
  | .NoRewardToClaim => "no reward to claim"

/-! ## Storage primitives (the gorm calls the service makes) -/

/-- The row of least key in a list, `none` on the empty list. -/
def leastByKey {α : Type} (key : α → Nat) : List α → Option α
  | [] => none
  | x :: xs =>
    match leastByKey key xs with
    | none => some x
    | some y => if key y < key x then some y else some x

/-- `Where(p).First(&row)`: among the rows matching `p`, the one of least
primary key; `none` is gorm's record-not-found. -/
def first {α : Type} (key : α → Nat) (p : α → Bool) (rows : List α) : Option α :=
  leastByKey key (rows.filter p)

/-- `Model(&row).Updates(...)`: rewrite every row whose primary key is `k`. -/
def updateWhereID {α : Type} (key : α → Nat) (k : Nat) (f : α → α) (rows : List α) : List α :=
  rows.map (fun r => if key r = k then f r else r)

/-- `Delete(&row)`: remove every row whose primary key is `k`. -/
def deleteWhereID {α : Type} (key : α → Nat) (k : Nat) (rows : List α) : List α :=
  rows.filter (fun r => !(key r == k))

/-- The key an auto-increment column gives to the next inserted row: one more
than the largest key of the table. -/
def nextID {α : Type} (key : α → Nat) (rows : List α) : Nat :=
  (rows.map key).foldr max 0 + 1

/-- `SELECT id FROM assets WHERE symbol = ?`. -/
def assetIDsBySymbol (db : DB) (symbol : String) : List Nat :=
  (db.assets.filter (fun a => a.Symbol == symbol)).map Asset.ID

/-- `Where("user_id = ? AND asset_id IN (SELECT id FROM assets WHERE symbol = ?)").First`. -/
def findUserAsset (db : DB) (userID : Nat) (symbol : String) : Option UserAsset :=
  first UserAsset.ID
    (fun ua => ua.UserID == userID && (assetIDsBySymbol db symbol).contains ua.AssetID)
    db.userAssets

/-- `First(&pool, poolID)`. -/
def findPool (db : DB) (poolID : Nat) : Option LaunchPool :=
  first LaunchPool.ID (fun p => p.ID == poolID) db.pools

/-- `Where("user_id = ? AND pool_id = ?").First(&stake)`. -/
def findStake (db : DB) (userID poolID : Nat) : Option UserStake :=
  first UserStake.ID (fun s => s.UserID == userID && s.PoolID == poolID) db.stakes

/-- `Where("symbol = ?").First(&asset)`. -/
def findAsset (db : DB) (symbol : String) : Option Asset :=
  first Asset.ID (fun a => a.Symbol == symbol) db.assets

/-- A unit of work: the database as it was at `Begin` and as the statements
run so far have left it. -/
structure Tx where
  base : DB
  cur : DB
  deriving DecidableEq, Repr

/-- `db.Begin()`. -/
def Begin (db : DB) : Tx := ⟨db, db⟩

/-- `tx.Rollback()`: the database is what it was at `Begin`. -/
def Tx.Rollback (tx : Tx) : DB := tx.base

/-- `tx.Commit()`: the database is what the statements made of it. -/
def Tx.Commit (tx : Tx) : DB := tx.cur

/-- Update of one `user_assets` row inside the unit of work. -/
def Tx.updateUserAsset (tx : Tx) (id : Nat) (f : UserAsset → UserAsset) : Tx :=
  { tx with cur := { tx.cur with userAssets := updateWhereID UserAsset.ID id f tx.cur.userAssets } }

/-- Update of one `launch_pools` row inside the unit of work. -/
def Tx.updatePool (tx : Tx) (id : Nat) (f : LaunchPool → LaunchPool) : Tx :=
  { tx with cur := { tx.cur with pools := updateWhereID LaunchPool.ID id f tx.cur.pools } }

/-- Update of one `user_stakes` row inside the unit of work. -/
def Tx.updateStake (tx : Tx) (id : Nat) (f : UserStake → UserStake) : Tx :=
  { tx with cur := { tx.cur with stakes := updateWhereID UserStake.ID id f tx.cur.stakes } }

/-- Removal of one `user_stakes` row inside the unit of work. -/
def Tx.deleteStake (tx : Tx) (id : Nat) : Tx :=
  { tx with cur := { tx.cur with stakes := deleteWhereID UserStake.ID id tx.cur.stakes } }

/-- `Create(&userAsset)`: the row gets the next key of its table. -/
def Tx.createUserAsset (tx : Tx) (row : UserAsset) : Tx :=
  { tx with cur := { tx.cur with
      userAssets := tx.cur.userAssets ++ [{ row with ID := nextID UserAsset.ID tx.cur.userAssets }] } }

/-- `Create(&stake)`: the row gets the next key of its table. -/
def Tx.createStake (tx : Tx) (row : UserStake) : Tx :=
  { tx with cur := { tx.cur with
      stakes := tx.cur.stakes ++ [{ row with ID := nextID UserStake.ID tx.cur.stakes }] } }

/-- `Create(&txRecord)`: the row gets the next key of its table. -/
def Tx.createTransaction (tx : Tx) (row : AssetTransaction) : Tx :=
  { tx with cur := { tx.cur with
      transactions :=
        tx.cur.transactions ++ [{ row with ID := nextID AssetTransaction.ID tx.cur.transactions }] } }

/-! ## The service (services/pool_service.go) -/

/-- Nanoseconds in an hour (`time.Hour`). -/
def Hour : Int := 60 * 60 * 1000000000

/-- `Duration.Hours`: whole hours plus the remaining nanoseconds as a fraction
of an hour. -/
def Hours (d : Int) : ℚ :=
  ((Int.tdiv d Hour : Int) : ℚ) + ((Int.tmod d Hour : Int) : ℚ) / (60 * 60 * 1000000000)

/-- The largest `Duration`: `1<<63 - 1` nanoseconds, about 292.47 years. -/
def maxDuration : Int := 9223372036854775807

/-- The smallest `Duration`: `-1 << 63` nanoseconds. -/
def minDuration : Int := -9223372036854775808

/-- `Time.Sub`: the duration `t - u`; when the difference does not fit a
`Duration` the result is `minDuration` or `maxDuration`. -/
def Time.Sub (t u : Time) : Int :=
  let d := t - u
  if d < minDuration then minDuration
  else if maxDuration < d then maxDuration
  else d

/-- `calculateReward`, with the clock reading `now` as an argument. -/
def calculateReward (now : Time) (stake : UserStake) (pool : LaunchPool) : ℚ :=
  let now := if pool.EndTime < now then pool.EndTime else now
  let hours := Hours (Time.Sub now stake.LastClaimAt)
  let days := hours / 24
  let years := days / 365
  let reward := stake.Amount * pool.APY * years
  reward

/-- `distributeReward`: credit the user's row for `assetSymbol`, creating the
row when the user has none. -/
def distributeReward (tx : Tx) (userID : Nat) (assetSymbol : String) (amount : ℚ) :
    Except Err Tx :=
  match findUserAsset tx.cur userID assetSymbol with
  | none =>
    match findAsset tx.cur assetSymbol with
    | none => .error .AssetNotFound
    | some asset =>
      .ok (tx.createUserAsset
        { ID := 0, UserID := userID, AssetID := asset.ID, Balance := amount, Locked := 0 })
  | some userAsset =>
    .ok (tx.updateUserAsset userAsset.ID (fun r => { r with Balance := r.Balance + amount }))

/-- `Stake`. `now` is the clock reading, `txID` the generated transaction id.
The result is the returned error (`none` for `nil`) and the database after the
call. -/
def Stake (db : DB) (now : Time) (txID : String) (userID poolID AssetID : Nat) (amount : ℚ) :
    Option Err × DB :=
  let tx := Begin db
  match findPool tx.cur poolID with
  | none => (some .PoolNotFound, tx.Rollback)
  | some pool =>
    if now < pool.StartTime ∨ pool.EndTime < now then (some .PoolNotActive, tx.Rollback)
    else
      match findUserAsset tx.cur userID pool.StakeAsset with
      | none => (some .AssetNotFound, tx.Rollback)
      | some userAsset =>
        if userAsset.Balance < amount then (some .InsufficientBalance, tx.Rollback)
        else
          let tx := tx.updateUserAsset userAsset.ID
            (fun r => { r with Balance := r.Balance - amount, Locked := r.Locked + amount })
          let tx := tx.createStake
            { ID := 0, UserID := userID, PoolID := poolID, Amount := amount, Reward := 0,
              StakedAt := now, LastClaimAt := now }
          let tx := tx.updatePool pool.ID
            (fun p => { p with TotalStaked := p.TotalStaked + amount })
          let tx := tx.createTransaction
            { ID := 0, UserID := userID, AssetSymbol := pool.StakeAsset, Amount := amount,
              Kind := "stake", Status := "completed", TxID := txID }
          (none, tx.Commit)

/-- `Unstake`. `now` is the clock reading inside `calculateReward`, `now2` the
later reading written to `last_claim_at`. -/
def Unstake (db : DB) (now now2 : Time) (txID : String) (userID poolID : Nat) (amount : ℚ) :
    Option Err × DB :=
  let tx := Begin db
  match findStake tx.cur userID poolID with
  | none => (some .StakeNotFound, tx.Rollback)
  | some stake =>
    if stake.Amount < amount then (some .UnstakeExceedsPosition, tx.Rollback)
    else
      match findPool tx.cur poolID with
      | none => (some .PoolNotFound, tx.Rollback)
      | some pool =>
        let reward := calculateReward now stake pool
        match (if reward > 0 then distributeReward tx userID pool.RewardAsset reward
               else .ok tx) with
        | .error err => (some err, tx.Rollback)
        | .ok tx =>
          match findUserAsset tx.cur userID pool.StakeAsset with
          | none => (some .AssetNotFound, tx.Rollback)
          | some userAsset =>
            let tx := tx.updateUserAsset userAsset.ID
              (fun r => { r with Balance := r.Balance + amount, Locked := r.Locked - amount })
            let tx :=
              if stake.Amount = amount then tx.deleteStake stake.ID
              else tx.updateStake stake.ID
                (fun r => { r with Amount := r.Amount - amount, Reward := 0, LastClaimAt := now2 })
            let tx := tx.updatePool pool.ID
              (fun p => { p with TotalStaked := p.TotalStaked - amount })
            let tx := tx.createTransaction
              { ID := 0, UserID := userID, AssetSymbol := pool.StakeAsset, Amount := amount,
                Kind := "unstake", Status := "completed", TxID := txID }
            (none, tx.Commit)

/-- `ClaimReward`. `now` is the clock reading inside `calculateReward`, `now2`
the later reading written to `last_claim_at`. -/
def ClaimReward (db : DB) (now now2 : Time) (txID : String) (userID poolID : Nat) :
    Option Err × DB :=
  let tx := Begin db
  match findStake tx.cur userID poolID with
  | none => (some .StakeNotFound, tx.Rollback)
  | some stake =>
    match findPool tx.cur poolID with
    | none => (some .PoolNotFound, tx.Rollback)
    | some pool =>
      let reward := calculateReward now stake pool
      if reward ≤ 0 then (some .NoRewardToClaim, tx.Rollback)
      else
        match distributeReward tx userID pool.RewardAsset reward with
        | .error err => (some err, tx.Rollback)
        | .ok tx =>
          let tx := tx.updateStake stake.ID
            (fun r => { r with Reward := 0, LastClaimAt := now2 })
          let tx := tx.createTransaction
            { ID := 0, UserID := userID, AssetSymbol := pool.RewardAsset, Amount := reward,
              Kind := "reward", Status := "completed", TxID := txID }
          (none, tx.Commit)

/-! ## The committed states, written out -/

/-- The database `Stake` commits when every check has passed. -/
def stakeCommitted (db : DB) (now : Time) (txID : String) (userID poolID : Nat) (amount : ℚ)
    (pool : LaunchPool) (userAsset : UserAsset) : DB :=
  { assets := db.assets
    userAssets := updateWhereID UserAsset.ID userAsset.ID
      (fun r => { r with Balance := r.Balance - amount, Locked := r.Locked + amount })
      db.userAssets
    pools := updateWhereID LaunchPool.ID pool.ID
      (fun p => { p with TotalStaked := p.TotalStaked + amount }) db.pools
    stakes := db.stakes ++
      [{ ID := nextID UserStake.ID db.stakes, UserID := userID, PoolID := poolID,
         Amount := amount, Reward := 0, StakedAt := now, LastClaimAt := now }]
    transactions := db.transactions ++
      [{ ID := nextID AssetTransaction.ID db.transactions, UserID := userID,
         AssetSymbol := pool.StakeAsset, Amount := amount, Kind := "stake",
         Status := "completed", TxID := txID }] }

/-- The database `Unstake` commits when every check has passed; `cur` is the
database after the reward step. -/
def unstakeCommitted (cur : DB) (now2 : Time) (txID : String) (userID : Nat) (amount : ℚ)
    (stake : UserStake) (pool : LaunchPool) (userAsset : UserAsset) : DB :=
  { assets := cur.assets
    userAssets := updateWhereID UserAsset.ID userAsset.ID
      (fun r => { r with Balance := r.Balance + amount, Locked := r.Locked - amount })
      cur.userAssets
    pools := updateWhereID LaunchPool.ID pool.ID
      (fun p => { p with TotalStaked := p.TotalStaked - amount }) cur.pools
    stakes :=
      if stake.Amount = amount then deleteWhereID UserStake.ID stake.ID cur.stakes
      else updateWhereID UserStake.ID stake.ID
        (fun r => { r with Amount := r.Amount - amount, Reward := 0, LastClaimAt := now2 })
        cur.stakes
    transactions := cur.transactions ++
      [{ ID := nextID AssetTransaction.ID cur.transactions, UserID := userID,
         AssetSymbol := pool.StakeAsset, Amount := amount, Kind := "unstake",
         Status := "completed", TxID := txID }] }

/-- The database `ClaimReward` commits; `cur` is the database after the
distribution. -/
def claimCommitted (cur : DB) (now2 : Time) (txID : String) (userID : Nat) (reward : ℚ)
    (stake : UserStake) (pool : LaunchPool) : DB :=
  { assets := cur.assets
    userAssets := cur.userAssets
    pools := cur.pools
    stakes := updateWhereID UserStake.ID stake.ID
      (fun r => { r with Reward := 0, LastClaimAt := now2 }) cur.stakes
    transactions := cur.transactions ++
      [{ ID := nextID AssetTransaction.ID cur.transactions, UserID := userID,
         AssetSymbol := pool.RewardAsset, Amount := reward, Kind := "reward",
         Status := "completed", TxID := txID }] }

/-! ## Rounding to binary64 -/

/-- `2 ^ e` for an integer exponent. -/
def pow2 (e : Int) : ℚ :=
  if 0 ≤ e then ((2 ^ e.toNat : Nat) : ℚ) else 1 / ((2 ^ (-e).toNat : Nat) : ℚ)

/-- The number of halvings that bring `n` below 2, at most `fuel` of them. -/
def halvings : Nat → Nat → Nat
  | 0, _ => 0
  | fuel + 1, n => if 2 ≤ n then halvings fuel (n / 2) + 1 else 0

/-- The exponent `e` with `2 ^ e <= q < 2 ^ (e + 1)`, for `q > 0`. -/
def floorLog2 (q : ℚ) : Int :=
  let e : Int := (halvings q.num.natAbs q.num.natAbs : Int) - (halvings q.den q.den : Int)
  if q < pow2 e then e - 1 else e

/-- Rounding of a rational to the nearest integer, ties to the even one. -/
def roundHalfEven (r : ℚ) : Int :=
  let f := r.floor
  let frac := r - f
  if frac < 1 / 2 then f
  else if 1 / 2 < frac then f + 1
  else if f % 2 = 0 then f else f + 1

/-- The binary64 value nearest to `q` (round to nearest, ties to even): 53
significant bits, least exponent -1022; magnitudes of `2 ^ 1024` and more,
which a `float64` holds as an infinity, are outside this function. -/
def float64 (q : ℚ) : ℚ :=
  if q = 0 then 0
  else
    let e := max (floorLog2 |q|) (-1022)
    let ulp := pow2 (e - 52)
    (roundHalfEven (q / ulp) : ℚ) * ulp

/-! ## The service with its float64 arithmetic rounded

Each definition below is the one of the same name above with every float64
arithmetic result passed through `fl`: `fl = float64` is the arithmetic of the
program, `fl = id` the exact arithmetic of the definitions above. -/

/-- `Duration.Hours`, rounded: both conversions, the division and the sum. -/
def HoursRounded (fl : ℚ → ℚ) (d : Int) : ℚ :=
  fl (fl ((Int.tdiv d Hour : Int) : ℚ) +
    fl (fl ((Int.tmod d Hour : Int) : ℚ) / (60 * 60 * 1000000000)))

/-- `calculateReward`, rounded. -/
def calculateRewardRounded (fl : ℚ → ℚ) (now : Time) (stake : UserStake) (pool : LaunchPool) :
    ℚ :=
  let now := if pool.EndTime < now then pool.EndTime else now
  let hours := HoursRounded fl (Time.Sub now stake.LastClaimAt)
  let days := fl (hours / 24)
  let years := fl (days / 365)
  let reward := fl (fl (stake.Amount * pool.APY) * years)
  reward

/-- `distributeReward`, rounded: `balance + ?`. -/
def distributeRewardRounded (fl : ℚ → ℚ) (tx : Tx) (userID : Nat) (assetSymbol : String)
    (amount : ℚ) : Except Err Tx :=
  match findUserAsset tx.cur userID assetSymbol with
  | none =>
    match findAsset tx.cur assetSymbol with
    | none => .error .AssetNotFound
    | some asset =>
      .ok (tx.createUserAsset
        { ID := 0, UserID := userID, AssetID := asset.ID, Balance := amount, Locked := 0 })
  | some userAsset =>
    .ok (tx.updateUserAsset userAsset.ID (fun r => { r with Balance := fl (r.Balance + amount) }))

/-- `Stake`, rounded: `balance - ?`, `locked + ?` and `total_staked + ?`. -/
def StakeRounded (fl : ℚ → ℚ) (db : DB) (now : Time) (txID : String)
    (userID poolID AssetID : Nat) (amount : ℚ) : Option Err × DB :=
  let tx := Begin db
  match findPool tx.cur poolID with
  | none => (some .PoolNotFound, tx.Rollback)
  | some pool =>
    if now < pool.StartTime ∨ pool.EndTime < now then (some .PoolNotActive, tx.Rollback)
    else
      match findUserAsset tx.cur userID pool.StakeAsset with
      | none => (some .AssetNotFound, tx.Rollback)
      | some userAsset =>
        if userAsset.Balance < amount then (some .InsufficientBalance, tx.Rollback)
        else
          let tx := tx.updateUserAsset userAsset.ID
            (fun r => { r with Balance := fl (r.Balance - amount),
                               Locked := fl (r.Locked + amount) })
          let tx := tx.createStake
            { ID := 0, UserID := userID, PoolID := poolID, Amount := amount, Reward := 0,
              StakedAt := now, LastClaimAt := now }
          let tx := tx.updatePool pool.ID
            (fun p => { p with TotalStaked := fl (p.TotalStaked + amount) })
          let tx := tx.createTransaction
            { ID := 0, UserID := userID, AssetSymbol := pool.StakeAsset, Amount := amount,
              Kind := "stake", Status := "completed", TxID := txID }
          (none, tx.Commit)

/-- `Unstake`, rounded: the reward, `balance + ?`, `locked - ?`, `amount - ?`
and `total_staked - ?`. -/
def UnstakeRounded (fl : ℚ → ℚ) (db : DB) (now now2 : Time) (txID : String)
    (userID poolID : Nat) (amount : ℚ) : Option Err × DB :=
  let tx := Begin db
  match findStake tx.cur userID poolID with
  | none => (some .StakeNotFound, tx.Rollback)
  | some stake =>
    if stake.Amount < amount then (some .UnstakeExceedsPosition, tx.Rollback)
    else
      match findPool tx.cur poolID with
      | none => (some .PoolNotFound, tx.Rollback)
      | some pool =>
        let reward := calculateRewardRounded fl now stake pool
        match (if reward > 0 then distributeRewardRounded fl tx userID pool.RewardAsset reward
               else .ok tx) with
        | .error err => (some err, tx.Rollback)
        | .ok tx =>
          match findUserAsset tx.cur userID pool.StakeAsset with
          | none => (some .AssetNotFound, tx.Rollback)
          | some userAsset =>
            let tx := tx.updateUserAsset userAsset.ID
              (fun r => { r with Balance := fl (r.Balance + amount),
                                 Locked := fl (r.Locked - amount) })
            let tx :=
              if stake.Amount = amount then tx.deleteStake stake.ID
              else tx.updateStake stake.ID
                (fun r => { r with Amount := fl (r.Amount - amount), Reward := 0,
                                   LastClaimAt := now2 })
            let tx := tx.updatePool pool.ID
              (fun p => { p with TotalStaked := fl (p.TotalStaked - amount) })
            let tx := tx.createTransaction
              { ID := 0, UserID := userID, AssetSymbol := pool.StakeAsset, Amount := amount,
                Kind := "unstake", Status := "completed", TxID := txID }
            (none, tx.Commit)

/-! ## The controller (controllers/pool_controller.go) -/

/-- The JSON body bound by `PoolController.Stake`. -/
structure StakeRequest where
  UserID : Nat
  PoolID : Nat
  AssetID : Nat
  Amount : ℚ
  deriving DecidableEq, Repr

/-- The JSON body bound by `PoolController.Unstake`. -/
structure UnstakeRequest where
  UserID : Nat
  PoolID : Nat
  Amount : ℚ
  deriving DecidableEq, Repr

/-- What a handler answers: 400 when the body does not bind, 500 with the
service's message, or 200 with the handler's message. -/
inductive Response where
  | BadRequest
  | InternalServerError (message : String)
  | Success (message : String)
  deriving DecidableEq, Repr

/-- The `binding` tags of the stake body: `required` on every field (the field
is not its zero value) and `gt=0` on `amount`. -/
def StakeRequest.binds (req : StakeRequest) : Bool :=
  req.UserID != 0 && req.PoolID != 0 && req.AssetID != 0 &&
    (req.Amount != 0 && decide (req.Amount > 0))

/-- The `binding` tags of the unstake body. -/
def UnstakeRequest.binds (req : UnstakeRequest) : Bool :=
  req.UserID != 0 && req.PoolID != 0 && (req.Amount != 0 && decide (req.Amount > 0))

/-- `PoolController.Stake`: bind the body, then call the service. -/
def PoolController.Stake (db : DB) (now : Time) (txID : String) (req : StakeRequest) :
    Response × DB :=
  if req.binds = false then (.BadRequest, db)
  else
    match DlData.Stake db now txID req.UserID req.PoolID req.AssetID req.Amount with
    | (some err, db') => (.InternalServerError err.message, db')
    | (none, db') => (.Success "stake successful", db')

/-- `PoolController.Unstake`: bind the body, then call the service. -/
def PoolController.Unstake (db : DB) (now now2 : Time) (txID : String) (req : UnstakeRequest) :
    Response × DB :=
  if req.binds = false then (.BadRequest, db)
  else
    match DlData.Unstake db now now2 txID req.UserID req.PoolID req.Amount with
    | (some err, db') => (.InternalServerError err.message, db')
    | (none, db') => (.Success "unstake successful", db')

/-! ## Predicates of the specification -/

/-- Keys of a table: pairwise distinct and never zero (auto-increment). -/
def keysOK (ids : List Nat) : Prop := ids.Nodup ∧ 0 ∉ ids

instance (ids : List Nat) : Decidable (keysOK ids) := by
  unfold keysOK; infer_instance

/-- The constraints the schema of models/models.go puts on the tables: every
`ID` is a primary key, `assets.symbol` has a unique index, and so has the pair
`(user_id, asset_id)` of `user_assets`. -/
def DB.WF (db : DB) : Prop :=
  keysOK (db.assets.map Asset.ID) ∧ keysOK (db.userAssets.map UserAsset.ID) ∧
  keysOK (db.pools.map LaunchPool.ID) ∧ keysOK (db.stakes.map UserStake.ID) ∧
  keysOK (db.transactions.map AssetTransaction.ID) ∧
  (db.assets.map Asset.Symbol).Nodup ∧
  (db.userAssets.map (fun r => (r.UserID, r.AssetID))).Nodup

instance (db : DB) : Decidable db.WF := by
  unfold DB.WF; infer_instance

/-- Sum of `amount` over the positions of pool `poolID`. -/
def positionSum (stakes : List UserStake) (poolID : Nat) : ℚ :=
  ((stakes.filter (fun s => s.PoolID == poolID)).map UserStake.Amount).sum

/-- Aggregate consistency: every pool's `totalStaked` is the sum of the amounts
of its positions. -/
def DB.AggregateConsistent (db : DB) : Prop :=
  ∀ p ∈ db.pools, p.TotalStaked = positionSum db.stakes p.ID

instance (db : DB) : Decidable db.AggregateConsistent := by
  unfold DB.AggregateConsistent; infer_instance

/-- Non-negativity: every balance row has `available >= 0` and `locked >= 0`. -/
def DB.NonNegative (db : DB) : Prop :=
  ∀ r ∈ db.userAssets, 0 ≤ r.Balance ∧ 0 ≤ r.Locked

instance (db : DB) : Decidable db.NonNegative := by
  unfold DB.NonNegative; infer_instance

/-! ## Holdings -/

/-- The symbols of the asset a balance row is held in. -/
def symbolsOf (db : DB) (row : UserAsset) : List String :=
  (db.assets.filter (fun a => a.ID == row.AssetID)).map Asset.Symbol

/-- The user's available balance of an asset, 0 without a balance row. -/
def availableOf (db : DB) (userID : Nat) (symbol : String) : ℚ :=
  ((findUserAsset db userID symbol).map UserAsset.Balance).getD 0

/-- The user's locked balance of an asset, 0 without a balance row. -/
def lockedOf (db : DB) (userID : Nat) (symbol : String) : ℚ :=
  ((findUserAsset db userID symbol).map UserAsset.Locked).getD 0

/-- The stake asset of the pool a position belongs to, if the pool exists. -/
def stakeAssetOf (db : DB) (poolID : Nat) : Option String :=
  (findPool db poolID).map LaunchPool.StakeAsset

/-- Sum of the amounts of the user's positions in pools whose stake asset is
`symbol`. -/
def stakedBy (db : DB) (userID : Nat) (symbol : String) : ℚ :=
  ((db.stakes.filter
      (fun s => s.UserID == userID && stakeAssetOf db s.PoolID == some symbol)).map
    UserStake.Amount).sum

/-- Locked funds cover live positions. -/
def DB.LockedCovers (db : DB) : Prop :=
  ∀ (userID : Nat) (symbol : String), stakedBy db userID symbol ≤ lockedOf db userID symbol

/-- A finite test that implies `LockedCovers`: no locked balance is negative and
the cover holds for every user with a position and every stake asset of a pool. -/
def DB.lockedCoversCheck (db : DB) : Prop :=
  (∀ r ∈ db.userAssets, 0 ≤ r.Locked) ∧
  ∀ s ∈ db.stakes, ∀ p ∈ db.pools,
    stakedBy db s.UserID p.StakeAsset ≤ lockedOf db s.UserID p.StakeAsset

instance (db : DB) : Decidable db.lockedCoversCheck := by
  unfold DB.lockedCoversCheck; infer_instance

/-! ## Reference formula of the specification -/

/-- The reward of the specification: the instant clamped to the pool's end, the
time since the last claim in hours / 24 / 365 as elapsed years, and
`amount * apy * elapsedYears`. -/
def rewardSpec (now : Time) (position : UserStake) (pool : LaunchPool) : ℚ :=
  let clampedNow := min now pool.EndTime
  let elapsedHours : ℚ := ((clampedNow - position.LastClaimAt : Int) : ℚ) / 3600000000000
  let elapsedYears := elapsedHours / 24 / 365
  position.Amount * pool.APY * elapsedYears

/-! ## Example ledgers -/

/-- Nanoseconds in 365 days. -/
def Year : Int := 365 * 24 * Hour

/-- A position of 1000 held by user 7 in pool 1, staked and last claimed at
instant 0. -/
def position1000 : UserStake := ⟨1, 7, 1, 1000, 0, 0, 0⟩

/-- Pool 1 of scenario A: stake BTC, earn GOAT, APY 0.10, open from instant 0 for
two years. -/
def poolA : LaunchPool := ⟨1, "BTC", "GOAT", 0, 2 * Year, 1 / 10, 1000⟩

/-- Pool 1 of scenario B: as `poolA`, but opening at instant `Year` and empty. -/
def poolB : LaunchPool := ⟨1, "BTC", "GOAT", Year, 2 * Year, 1 / 10, 0⟩

/-- A pool of negative yield: APY -0.10, open from instant 0 for two years. -/
def negativeYieldPool : LaunchPool := ⟨1, "BTC", "GOAT", 0, 2 * Year, -1 / 10, 1000⟩

/-- Pool 1 open for four hundred years, APY 0.10. -/
def centuryPool : LaunchPool := ⟨1, "BTC", "GOAT", 0, 400 * Year, 1 / 10, 1000⟩

/-- Scenario A in `centuryPool`. -/
def centuryLedger : DB :=
  { assets := [⟨1, "BTC"⟩, ⟨2, "GOAT"⟩]
    userAssets := [⟨1, 7, 1, 0, 1000⟩, ⟨2, 7, 2, 0, 0⟩]
    pools := [centuryPool]
    stakes := [⟨1, 7, 1, 1000, 0, 0, 0⟩]
    transactions := [⟨1, 7, "BTC", 1000, "stake", "completed", "tx_0"⟩] }

/-- A pool that pays its reward in the staked asset. -/
def poolSameAsset : LaunchPool := ⟨1, "BTC", "BTC", 0, 2 * Year, 1 / 10, 1000⟩

/-- Scenario A before the unstake: user 7 holds `position1000` in `poolA`, with
1000 BTC locked and an empty GOAT row. -/
def scenarioA : DB :=
  { assets := [⟨1, "BTC"⟩, ⟨2, "GOAT"⟩]
    userAssets := [⟨1, 7, 1, 0, 1000⟩, ⟨2, 7, 2, 0, 0⟩]
    pools := [poolA]
    stakes := [position1000]
    transactions := [⟨1, 7, "BTC", 1000, "stake", "completed", "tx_0"⟩] }

/-- Scenario B: `poolB` has not opened yet; user 7 has 2000 BTC available. -/
def scenarioB : DB :=
  { assets := [⟨1, "BTC"⟩, ⟨2, "GOAT"⟩]
    userAssets := [⟨1, 7, 1, 2000, 0⟩]
    pools := [poolB]
    stakes := []
    transactions := [] }

/-- Pool 1 is open from instant 0; user 7 has 2000 BTC available and no position. -/
def freshLedger : DB :=
  { assets := [⟨1, "BTC"⟩, ⟨2, "GOAT"⟩]
    userAssets := [⟨1, 7, 1, 2000, 0⟩]
    pools := [⟨1, "BTC", "GOAT", 0, 2 * Year, 1 / 10, 0⟩]
    stakes := []
    transactions := [] }

/-- The ledger after user 7 has staked 1000 BTC into pool 1 twice at instant 0. -/
def stakedTwice : DB :=
  (Stake (Stake freshLedger 0 "tx_1" 7 1 1 1000).2 0 "tx_2" 7 1 1 1000).2

/-- Scenario A with the pool that pays its reward in the staked asset. -/
def sameAssetLedger : DB :=
  { assets := [⟨1, "BTC"⟩]
    userAssets := [⟨1, 7, 1, 0, 1000⟩]
    pools := [poolSameAsset]
    stakes := [position1000]
    transactions := [⟨1, 7, "BTC", 1000, "stake", "completed", "tx_0"⟩] }

/-- A ledger whose position is not backed by locked funds: user 7 holds a
position of 100 BTC in pool 1 while the BTC row has nothing locked. -/
def uncoveredPosition : DB :=
  { assets := [⟨1, "BTC"⟩, ⟨2, "GOAT"⟩]
    userAssets := [⟨1, 7, 1, 0, 0⟩]
    pools := [⟨1, "BTC", "GOAT", 0, 2 * Year, 1 / 10, 100⟩]
    stakes := [⟨1, 7, 1, 100, 0, 0, 0⟩]
    transactions := [] }

/-- A ledger in which user 7 holds `position1000` in `poolA` and a GOAT row with 5
available, but no BTC row. -/
def noStakeRow : DB :=
  { assets := [⟨1, "BTC"⟩, ⟨2, "GOAT"⟩]
    userAssets := [⟨1, 7, 2, 5, 0⟩]
    pools := [poolA]
    stakes := [position1000]
    transactions := [] }

/-- A ledger with a position of negative amount: user 7 holds positions of 100
and of -100 BTC in pool 1, with nothing locked. -/
def offsettingPositions : DB :=
  { assets := [⟨1, "BTC"⟩, ⟨2, "GOAT"⟩]
    userAssets := [⟨1, 7, 1, 0, 0⟩]
    pools := [⟨1, "BTC", "GOAT", 0, 2 * Year, 1 / 10, 0⟩]
    stakes := [⟨1, 7, 1, 100, 0, 0, 0⟩, ⟨2, 7, 1, -100, 0, 0, 0⟩]
    transactions := [] }

/-- User 7 has 10 BTC available and 0.5 locked; pool 1 is open from instant 0. -/
def halfLockedLedger : DB :=
  { assets := [⟨1, "BTC"⟩, ⟨2, "GOAT"⟩]
    userAssets := [⟨1, 7, 1, 10, 1 / 2⟩]
    pools := [⟨1, "BTC", "GOAT", 0, 2 * Year, 1 / 10, 0⟩]
    stakes := []
    transactions := [] }

/-- User 7 has the binary64 number nearest to 0.1 GOAT available. -/
def tenthLedger : DB :=
  { assets := [⟨1, "BTC"⟩, ⟨2, "GOAT"⟩]
    userAssets := [⟨1, 7, 2, float64 (1 / 10), 0⟩]
    pools := []
    stakes := []
    transactions := [] }

/-- The ledger after user 7 has staked 0.3 BTC at instant 0 in `freshLedger`, in
binary64. -/
def roundedFirstStake : DB :=
  (StakeRounded float64 freshLedger 0 "tx_1" 7 1 1 (float64 (3 / 10))).2

/-- The ledger after a further stake of 0.4 BTC at instant 0. -/
def roundedStakes : DB :=
  (StakeRounded float64 roundedFirstStake 0 "tx_2" 7 1 1 (float64 (4 / 10))).2

/-- The ledger after 0.3 BTC have then been unstaked at instant 0. -/
def roundedFirstUnstake : DB :=
  (UnstakeRounded float64 roundedStakes 0 0 "tx_3" 7 1 (float64 (3 / 10))).2

/-- The ledger after 0.4 BTC have then been unstaked at instant 0. -/
def roundedSecondUnstake : DB :=
  (UnstakeRounded float64 roundedFirstUnstake 0 0 "tx_4" 7 1 (float64 (4 / 10))).2

/-! ## Storage lemmas -/

theorem leastByKey_eq_none {α : Type} (key : α → Nat) (l : List α) :
    leastByKey key l = none ↔ l = [] := by
  cases l with
  | nil => simp [leastByKey]
  | cons x xs =>
    simp only [leastByKey]
    cases leastByKey key xs with
    | none => simp
    | some y => by_cases h : key y < key x <;> simp [h]

theorem leastByKey_mem {α : Type} (key : α → Nat) :
    ∀ (l : List α) (x : α), leastByKey key l = some x → x ∈ l
  | [], x, h => by simp [leastByKey] at h
  | a :: as, x, h => by
    simp only [leastByKey] at h
    cases hk : leastByKey key as with
    | none =>
      rw [hk] at h
      simp only [Option.some.injEq] at h
      simp [h]
    | some y =>
      rw [hk] at h
      have hy := leastByKey_mem key as y hk
      by_cases hlt : key y < key a
      · simp only [hlt, if_true, Option.some.injEq] at h
        subst h
        exact List.mem_cons_of_mem _ hy
      · simp only [hlt, if_false, Option.some.injEq] at h
        simp [h]

theorem leastByKey_le {α : Type} (key : α → Nat) :
    ∀ (l : List α) (x : α), leastByKey key l = some x → ∀ y ∈ l, key x ≤ key y
  | [], x, h => by simp [leastByKey] at h
  | a :: as, x, h => by
    intro y hy
    simp only [leastByKey] at h
    cases hk : leastByKey key as with
    | none =>
      rw [hk] at h
      simp only [Option.some.injEq] at h
      have : as = [] := (leastByKey_eq_none key as).1 hk
      subst this
      simp only [List.mem_singleton] at hy
      subst hy; subst h; exact le_refl _
    | some z =>
      rw [hk] at h
      have hz := leastByKey_le key as z hk
      rcases List.mem_cons.1 hy with rfl | hy'
      · by_cases hlt : key z < key y
        · simp only [hlt, if_true, Option.some.injEq] at h
          subst h; exact le_of_lt hlt
        · simp only [hlt, if_false, Option.some.injEq] at h
          subst h; exact le_refl _
      · by_cases hlt : key z < key a
        · simp only [hlt, if_true, Option.some.injEq] at h
          subst h; exact hz y hy'
        · simp only [hlt, if_false, Option.some.injEq] at h
          subst h; exact le_trans (not_lt.1 hlt) (hz y hy')

theorem first_eq_none {α : Type} (key : α → Nat) (p : α → Bool) (rows : List α) :
    first key p rows = none ↔ ∀ x ∈ rows, p x = false := by
  unfold first
  rw [leastByKey_eq_none, List.filter_eq_nil_iff]
  simp

theorem first_some {α : Type} {key : α → Nat} {p : α → Bool} {rows : List α} {x : α}
    (h : first key p rows = some x) : x ∈ rows ∧ p x = true := by
  have := leastByKey_mem key _ x h
  simpa [List.mem_filter] using this

/-- Rows with pairwise distinct keys split around any of their rows. -/
theorem split_at_key {α : Type} (key : α → Nat) (rows : List α) (x : α)
    (hnd : (rows.map key).Nodup) (hx : x ∈ rows) :
    ∃ l₁ l₂, rows = l₁ ++ x :: l₂ ∧ (∀ y ∈ l₁, key y ≠ key x) ∧ (∀ y ∈ l₂, key y ≠ key x) := by
  obtain ⟨l₁, l₂, rfl⟩ := List.append_of_mem hx
  refine ⟨l₁, l₂, rfl, ?_, ?_⟩
  · intro y hy heq
    simp only [List.map_append, List.map_cons] at hnd
    have := (List.nodup_append.1 hnd).2.2
    exact this (List.mem_map_of_mem key hy) (by simp [heq])
  · intro y hy heq
    simp only [List.map_append, List.map_cons] at hnd
    have := (List.nodup_append.1 hnd).2.1
    have h2 := (List.nodup_cons.1 this).1
    exact h2 (by rw [← heq]; exact List.mem_map_of_mem key hy)

theorem updateWhereID_of_ne {α : Type} (key : α → Nat) (k : Nat) (f : α → α) (l : List α)
    (h : ∀ y ∈ l, key y ≠ k) : updateWhereID key k f l = l := by
  unfold updateWhereID
  induction l with
  | nil => rfl
  | cons a as ih =>
    simp only [List.map_cons]
    rw [ih (fun y hy => h y (List.mem_cons_of_mem _ hy))]
    simp [h a (List.mem_cons_self _ _)]

theorem updateWhereID_split {α : Type} (key : α → Nat) (f : α → α) (l₁ l₂ : List α) (x : α)
    (h₁ : ∀ y ∈ l₁, key y ≠ key x) (h₂ : ∀ y ∈ l₂, key y ≠ key x) :
    updateWhereID key (key x) f (l₁ ++ x :: l₂) = l₁ ++ f x :: l₂ := by
  have e₁ := updateWhereID_of_ne key (key x) f l₁ h₁
  have e₂ := updateWhereID_of_ne key (key x) f l₂ h₂
  unfold updateWhereID at *
  simp [e₁, e₂]

theorem deleteWhereID_of_ne {α : Type} (key : α → Nat) (k : Nat) (l : List α)
    (h : ∀ y ∈ l, key y ≠ k) : deleteWhereID key k l = l := by
  unfold deleteWhereID
  rw [List.filter_eq_self]
  intro y hy
  simp [h y hy]

theorem deleteWhereID_split {α : Type} (key : α → Nat) (l₁ l₂ : List α) (x : α)
    (h₁ : ∀ y ∈ l₁, key y ≠ key x) (h₂ : ∀ y ∈ l₂, key y ≠ key x) :
    deleteWhereID key (key x) (l₁ ++ x :: l₂) = l₁ ++ l₂ := by
  have e₁ := deleteWhereID_of_ne key (key x) l₁ h₁
  have e₂ := deleteWhereID_of_ne key (key x) l₂ h₂
  unfold deleteWhereID at *
  simp [List.filter_append, e₁, e₂]

theorem leastByKey_map {α : Type} (key : α → Nat) (g : α → α) (hk : ∀ r, key (g r) = key r) :
    ∀ l : List α, leastByKey key (l.map g) = (leastByKey key l).map g
  | [] => rfl
  | a :: as => by
    simp only [List.map_cons, leastByKey, leastByKey_map key g hk as]
    cases leastByKey key as with
    | none => rfl
    | some y =>
      simp only [Option.map_some', hk]
      by_cases h : key y < key a <;> simp [h]

/-- A rewrite of the rows that keeps keys and the filter's verdict commutes with
`first`. -/
theorem first_map {α : Type} (key : α → Nat) (p : α → Bool) (g : α → α)
    (hk : ∀ r, key (g r) = key r) (hp : ∀ r, p (g r) = p r) (rows : List α) :
    first key p (rows.map g) = (first key p rows).map g := by
  unfold first
  have : (rows.map g).filter p = (rows.filter p).map g := by
    rw [List.filter_map]
    congr 1
    apply List.filter_congr
    intro x _
    simp [hp]
  rw [this, leastByKey_map key g hk]

theorem le_foldr_max (ids : List Nat) : ∀ i ∈ ids, i ≤ ids.foldr max 0 := by
  induction ids with
  | nil => intro i hi; cases hi
  | cons a as ih =>
    intro i hi
    simp only [List.foldr_cons]
    rcases List.mem_cons.1 hi with rfl | h
    · exact le_max_left _ _
    · exact le_trans (ih i h) (le_max_right _ _)

theorem lt_nextID {α : Type} (key : α → Nat) (rows : List α) : ∀ r ∈ rows, key r < nextID key rows := by
  intro r hr
  unfold nextID
  exact Nat.lt_succ_of_le (le_foldr_max _ _ (List.mem_map_of_mem key hr))

/-- The least row is determined by membership and minimality when keys are
pairwise distinct. -/
theorem leastByKey_eq_of_min {α : Type} (key : α → Nat) (l : List α) (x : α)
    (hx : x ∈ l) (hmin : ∀ y ∈ l, y ≠ x → key x < key y) : leastByKey key l = some x := by
  cases h : leastByKey key l with
  | none =>
    have := (leastByKey_eq_none key l).1 h
    subst this; cases hx
  | some z =>
    have hz := leastByKey_mem key l z h
    have hle := leastByKey_le key l z h x hx
    by_cases e : z = x
    · rw [e]
    · exact absurd (hmin z hz e) (not_lt.2 hle)

/-- Appending a row whose key is larger than every key present does not change
what `first` finds, when it finds a row. -/
theorem first_append_fresh {α : Type} (key : α → Nat) (p : α → Bool) (rows : List α) (x n : α)
    (hnd : (rows.map key).Nodup) (hn : ∀ r ∈ rows, key r < key n)
    (h : first key p rows = some x) : first key p (rows ++ [n]) = some x := by
  have hx := first_some h
  unfold first at h ⊢
  apply leastByKey_eq_of_min
  · simp [List.mem_filter, hx.1, hx.2]
  · intro y hy hne
    rw [List.mem_filter, List.mem_append] at hy
    rcases hy.1 with hyr | hyn
    · have hle := leastByKey_le key _ x h y (List.mem_filter.2 ⟨hyr, hy.2⟩)
      rcases Nat.lt_or_ge (key x) (key y) with hlt | hge
      · exact hlt
      · exfalso
        have hkeq : key y = key x := le_antisymm hge hle
        exact hne (List.inj_on_of_nodup_map hnd hyr hx.1 hkeq)
    · simp only [List.mem_singleton] at hyn
      subst hyn
      exact hn x hx.1

/-! ## The branches of each operation -/

theorem Stake_cases (db : DB) (now : Time) (txID : String) (userID poolID AssetID : Nat)
    (amount : ℚ) :
    (findPool db poolID = none ∧
      Stake db now txID userID poolID AssetID amount = (some .PoolNotFound, db)) ∨
    (∃ pool, findPool db poolID = some pool ∧ (now < pool.StartTime ∨ pool.EndTime < now) ∧
      Stake db now txID userID poolID AssetID amount = (some .PoolNotActive, db)) ∨
    (∃ pool, findPool db poolID = some pool ∧ ¬(now < pool.StartTime ∨ pool.EndTime < now) ∧
      findUserAsset db userID pool.StakeAsset = none ∧
      Stake db now txID userID poolID AssetID amount = (some .AssetNotFound, db)) ∨
    (∃ pool userAsset, findPool db poolID = some pool ∧
      ¬(now < pool.StartTime ∨ pool.EndTime < now) ∧
      findUserAsset db userID pool.StakeAsset = some userAsset ∧ userAsset.Balance < amount ∧
      Stake db now txID userID poolID AssetID amount = (some .InsufficientBalance, db)) ∨
    (∃ pool userAsset, findPool db poolID = some pool ∧
      ¬(now < pool.StartTime ∨ pool.EndTime < now) ∧
      findUserAsset db userID pool.StakeAsset = some userAsset ∧ ¬userAsset.Balance < amount ∧
      Stake db now txID userID poolID AssetID amount =
        (none, stakeCommitted db now txID userID poolID amount pool userAsset)) := by
  unfold Stake
  simp only [Begin, Tx.Rollback]
  cases hp : findPool db poolID with
  | none => left; simp
  | some pool =>
    right
    by_cases hw : now < pool.StartTime ∨ pool.EndTime < now
    · left; exact ⟨pool, rfl, hw, by simp [hw]⟩
    · right
      cases hu : findUserAsset db userID pool.StakeAsset with
      | none => left; exact ⟨pool, rfl, hw, hu, by simp [hw, hu]⟩
      | some ua =>
        right
        by_cases hb : ua.Balance < amount
        · left; exact ⟨pool, ua, rfl, hw, hu, hb, by simp [hw, hu, hb]⟩
        · right
          refine ⟨pool, ua, rfl, hw, hu, hb, ?_⟩
          simp [hw, hu, hb, stakeCommitted, Tx.Commit, Tx.updateUserAsset, Tx.createStake,
            Tx.updatePool, Tx.createTransaction]

theorem distributeReward_cases (tx : Tx) (userID : Nat) (assetSymbol : String) (amount : ℚ) :
    (∃ userAsset, findUserAsset tx.cur userID assetSymbol = some userAsset ∧
      distributeReward tx userID assetSymbol amount =
        .ok (tx.updateUserAsset userAsset.ID (fun r => { r with Balance := r.Balance + amount }))) ∨
    (∃ asset, findUserAsset tx.cur userID assetSymbol = none ∧
      findAsset tx.cur assetSymbol = some asset ∧
      distributeReward tx userID assetSymbol amount =
        .ok (tx.createUserAsset
          { ID := 0, UserID := userID, AssetID := asset.ID, Balance := amount, Locked := 0 })) ∨
    (findUserAsset tx.cur userID assetSymbol = none ∧ findAsset tx.cur assetSymbol = none ∧
      distributeReward tx userID assetSymbol amount = .error .AssetNotFound) := by
  unfold distributeReward
  cases hu : findUserAsset tx.cur userID assetSymbol with
  | some ua => left; exact ⟨ua, rfl, rfl⟩
  | none =>
    right
    cases ha : findAsset tx.cur assetSymbol with
    | some asset => left; exact ⟨asset, rfl, rfl, rfl⟩
    | none => right; exact ⟨rfl, rfl, rfl⟩

/-- What `distributeReward` leaves alone: the snapshot taken at `Begin` and every
table but `user_assets`. -/
theorem distributeReward_frame {tx tx' : Tx} {userID : Nat} {assetSymbol : String} {amount : ℚ}
    (h : distributeReward tx userID assetSymbol amount = .ok tx') :
    tx'.base = tx.base ∧ tx'.cur.assets = tx.cur.assets ∧ tx'.cur.pools = tx.cur.pools ∧
      tx'.cur.stakes = tx.cur.stakes ∧ tx'.cur.transactions = tx.cur.transactions := by
  rcases distributeReward_cases tx userID assetSymbol amount with
    ⟨ua, _, e⟩ | ⟨asset, _, _, e⟩ | ⟨_, _, e⟩
  · rw [e] at h; cases h; simp [Tx.updateUserAsset]
  · rw [e] at h; cases h; simp [Tx.createUserAsset]
  · rw [e] at h; cases h

/-- The reward step of `Unstake`: distribute when the reward is positive. -/
theorem rewardStep_frame {tx tx' : Tx} {userID : Nat} {assetSymbol : String} {reward : ℚ}
    (h : (if reward > 0 then distributeReward tx userID assetSymbol reward else .ok tx) = .ok tx') :
    tx'.base = tx.base ∧ tx'.cur.assets = tx.cur.assets ∧ tx'.cur.pools = tx.cur.pools ∧
      tx'.cur.stakes = tx.cur.stakes ∧ tx'.cur.transactions = tx.cur.transactions := by
  by_cases hr : reward > 0
  · rw [if_pos hr] at h; exact distributeReward_frame h
  · rw [if_neg hr] at h; cases h; simp

theorem Unstake_cases (db : DB) (now now2 : Time) (txID : String) (userID poolID : Nat)
    (amount : ℚ) :
    (findStake db userID poolID = none ∧
      Unstake db now now2 txID userID poolID amount = (some .StakeNotFound, db)) ∨
    (∃ stake, findStake db userID poolID = some stake ∧ stake.Amount < amount ∧
      Unstake db now now2 txID userID poolID amount = (some .UnstakeExceedsPosition, db)) ∨
    (∃ stake, findStake db userID poolID = some stake ∧ ¬stake.Amount < amount ∧
      findPool db poolID = none ∧
      Unstake db now now2 txID userID poolID amount = (some .PoolNotFound, db)) ∨
    (∃ stake pool err, findStake db userID poolID = some stake ∧ ¬stake.Amount < amount ∧
      findPool db poolID = some pool ∧ calculateReward now stake pool > 0 ∧
      distributeReward (Begin db) userID pool.RewardAsset (calculateReward now stake pool)
        = .error err ∧
      Unstake db now now2 txID userID poolID amount = (some err, db)) ∨
    (∃ stake pool tx, findStake db userID poolID = some stake ∧ ¬stake.Amount < amount ∧
      findPool db poolID = some pool ∧
      (if calculateReward now stake pool > 0 then
          distributeReward (Begin db) userID pool.RewardAsset (calculateReward now stake pool)
        else .ok (Begin db)) = .ok tx ∧
      findUserAsset tx.cur userID pool.StakeAsset = none ∧
      Unstake db now now2 txID userID poolID amount = (some .AssetNotFound, db)) ∨
    (∃ stake pool tx userAsset, findStake db userID poolID = some stake ∧
      ¬stake.Amount < amount ∧ findPool db poolID = some pool ∧
      (if calculateReward now stake pool > 0 then
          distributeReward (Begin db) userID pool.RewardAsset (calculateReward now stake pool)
        else .ok (Begin db)) = .ok tx ∧
      findUserAsset tx.cur userID pool.StakeAsset = some userAsset ∧
      Unstake db now now2 txID userID poolID amount =
        (none, unstakeCommitted tx.cur now2 txID userID amount stake pool userAsset)) := by
  unfold Unstake
  simp only [Begin, Tx.Rollback]
  cases hs : findStake db userID poolID with
  | none => left; simp
  | some stake =>
    right
    by_cases hx : stake.Amount < amount
    · left; exact ⟨stake, rfl, hx, by simp [hx]⟩
    · right
      cases hp : findPool db poolID with
      | none => left; exact ⟨stake, rfl, hx, rfl, by simp [hx]⟩
      | some pool =>
        right
        cases hd : (if calculateReward now stake pool > 0 then
            distributeReward ⟨db, db⟩ userID pool.RewardAsset (calculateReward now stake pool)
            else .ok ⟨db, db⟩) with
        | error err =>
          left
          by_cases hr : calculateReward now stake pool > 0
          · rw [if_pos hr] at hd
            exact ⟨stake, pool, err, rfl, hx, rfl, hr, hd, by simp [hx, hr, hd]⟩
          · rw [if_neg hr] at hd; cases hd
        | ok tx =>
          right
          have hb : tx.base = db := (rewardStep_frame hd).1
          cases hu : findUserAsset tx.cur userID pool.StakeAsset with
          | none =>
            left
            refine ⟨stake, pool, tx, rfl, hx, rfl, hd, hu, ?_⟩
            simp only [hx, if_false]
            rw [hd]
            simp [hu, hb]
          | some ua =>
            right
            refine ⟨stake, pool, tx, ua, rfl, hx, rfl, hd, hu, ?_⟩
            simp only [hx, if_false]
            rw [hd]
            simp only [hu]
            by_cases he : stake.Amount = amount <;>
              simp [he, unstakeCommitted, Tx.Commit, Tx.updateUserAsset, Tx.deleteStake,
                Tx.updateStake, Tx.updatePool, Tx.createTransaction]

theorem ClaimReward_cases (db : DB) (now now2 : Time) (txID : String) (userID poolID : Nat) :
    (findStake db userID poolID = none ∧
      ClaimReward db now now2 txID userID poolID = (some .StakeNotFound, db)) ∨
    (∃ stake, findStake db userID poolID = some stake ∧ findPool db poolID = none ∧
      ClaimReward db now now2 txID userID poolID = (some .PoolNotFound, db)) ∨
    (∃ stake pool, findStake db userID poolID = some stake ∧ findPool db poolID = some pool ∧
      calculateReward now stake pool ≤ 0 ∧
      ClaimReward db now now2 txID userID poolID = (some .NoRewardToClaim, db)) ∨
    (∃ stake pool err, findStake db userID poolID = some stake ∧
      findPool db poolID = some pool ∧ ¬calculateReward now stake pool ≤ 0 ∧
      distributeReward (Begin db) userID pool.RewardAsset (calculateReward now stake pool)
        = .error err ∧
      ClaimReward db now now2 txID userID poolID = (some err, db)) ∨
    (∃ stake pool tx, findStake db userID poolID = some stake ∧
      findPool db poolID = some pool ∧ ¬calculateReward now stake pool ≤ 0 ∧
      distributeReward (Begin db) userID pool.RewardAsset (calculateReward now stake pool)
        = .ok tx ∧
      ClaimReward db now now2 txID userID poolID =
        (none, claimCommitted tx.cur now2 txID userID (calculateReward now stake pool)
          stake pool)) := by
  unfold ClaimReward
  simp only [Begin, Tx.Rollback]
  cases hs : findStake db userID poolID with
  | none => left; simp
  | some stake =>
    right
    cases hp : findPool db poolID with
    | none => left; exact ⟨stake, rfl, rfl, by simp⟩
    | some pool =>
      right
      by_cases hr : calculateReward now stake pool ≤ 0
      · left; exact ⟨stake, pool, rfl, rfl, hr, by simp [hr]⟩
      · right
        cases hd : distributeReward ⟨db, db⟩ userID pool.RewardAsset
            (calculateReward now stake pool) with
        | error err => left; exact ⟨stake, pool, err, rfl, rfl, hr, hd, by simp [hr, hd]⟩
        | ok tx =>
          right
          refine ⟨stake, pool, tx, rfl, rfl, hr, hd, ?_⟩
          simp [hr, hd, claimCommitted, Tx.Commit, Tx.updateStake, Tx.createTransaction]

/-! ## Aggregate consistency -/

theorem positionSum_append (l₁ l₂ : List UserStake) (q : Nat) :
    positionSum (l₁ ++ l₂) q = positionSum l₁ q + positionSum l₂ q := by
  simp [positionSum, List.filter_append]

theorem positionSum_cons (s : UserStake) (l : List UserStake) (q : Nat) :
    positionSum (s :: l) q = (if s.PoolID = q then s.Amount else 0) + positionSum l q := by
  by_cases h : s.PoolID = q <;> simp [positionSum, List.filter_cons, h]

theorem positionSum_nil (q : Nat) : positionSum [] q = 0 := by
  simp [positionSum]

theorem mem_updateWhereID {α : Type} {key : α → Nat} {k : Nat} {f : α → α} {rows : List α}
    {y : α} (h : y ∈ updateWhereID key k f rows) :
    ∃ x ∈ rows, y = if key x = k then f x else x := by
  unfold updateWhereID at h
  obtain ⟨x, hx, rfl⟩ := List.mem_map.1 h
  exact ⟨x, hx, rfl⟩

/-- An update that keeps pool and amount of every row keeps every pool's sum. -/
theorem positionSum_update_same (k : Nat) (f : UserStake → UserStake)
    (hf : ∀ r, (f r).PoolID = r.PoolID ∧ (f r).Amount = r.Amount) (l : List UserStake) (q : Nat) :
    positionSum (updateWhereID UserStake.ID k f l) q = positionSum l q := by
  induction l with
  | nil => rfl
  | cons a as ih =>
    have e : updateWhereID UserStake.ID k f (a :: as) =
        (if a.ID = k then f a else a) :: updateWhereID UserStake.ID k f as := by
      simp [updateWhereID]
    rw [e, positionSum_cons, positionSum_cons, ih]
    by_cases h : a.ID = k
    · simp [h, (hf a).1, (hf a).2]
    · simp [h]

/-- The position step of `Unstake` lowers the sum of the position's pool by the
withdrawn amount and no other. -/
theorem positionSum_unstake (stakes : List UserStake) (stake : UserStake) (amount : ℚ)
    (now2 : Time) (q : Nat) (hnd : (stakes.map UserStake.ID).Nodup) (hm : stake ∈ stakes) :
    positionSum
      (if stake.Amount = amount then deleteWhereID UserStake.ID stake.ID stakes
        else updateWhereID UserStake.ID stake.ID
          (fun r => { r with Amount := r.Amount - amount, Reward := 0, LastClaimAt := now2 })
          stakes) q
      = positionSum stakes q - (if stake.PoolID = q then amount else 0) := by
  obtain ⟨l₁, l₂, rfl, h₁, h₂⟩ := split_at_key UserStake.ID stakes stake hnd hm
  by_cases he : stake.Amount = amount
  · rw [if_pos he, deleteWhereID_split UserStake.ID l₁ l₂ stake h₁ h₂]
    rw [positionSum_append, positionSum_append, positionSum_cons, he]
    ring
  · rw [if_neg he, updateWhereID_split UserStake.ID _ l₁ l₂ stake h₁ h₂]
    rw [positionSum_append, positionSum_append, positionSum_cons, positionSum_cons]
    by_cases hq : stake.PoolID = q
    · simp only [hq, if_true]; ring
    · simp only [hq, if_false]; ring

theorem findPool_some {db : DB} {poolID : Nat} {pool : LaunchPool}
    (h : findPool db poolID = some pool) : pool ∈ db.pools ∧ pool.ID = poolID := by
  have := first_some h
  simpa using this

theorem findStake_some {db : DB} {userID poolID : Nat} {stake : UserStake}
    (h : findStake db userID poolID = some stake) :
    stake ∈ db.stakes ∧ stake.UserID = userID ∧ stake.PoolID = poolID := by
  have := first_some h
  simpa using this

theorem consistent_stakeCommitted (db : DB) (now : Time) (txID : String)
    (userID poolID : Nat) (amount : ℚ) (pool : LaunchPool) (ua : UserAsset)
    (hc : db.AggregateConsistent) (hp : pool.ID = poolID) :
    (stakeCommitted db now txID userID poolID amount pool ua).AggregateConsistent := by
  intro p' hp'
  simp only [stakeCommitted] at hp' ⊢
  obtain ⟨p, hpm, rfl⟩ := mem_updateWhereID hp'
  rw [positionSum_append, positionSum_cons, positionSum_nil]
  by_cases h : p.ID = pool.ID
  · have hq : poolID = p.ID := by rw [h, hp]
    rw [if_pos h]
    show p.TotalStaked + amount = positionSum db.stakes p.ID + ((if poolID = p.ID then amount else 0) + 0)
    rw [if_pos hq, hc p hpm]; ring
  · have hq : ¬ poolID = p.ID := by rw [← hp]; exact fun e => h e.symm
    rw [if_neg h, if_neg hq, hc p hpm]; ring

theorem consistent_unstakeCommitted (db cur : DB) (now2 : Time) (txID : String)
    (userID poolID : Nat) (amount : ℚ) (stake : UserStake) (pool : LaunchPool) (ua : UserAsset)
    (hnd : (db.stakes.map UserStake.ID).Nodup)
    (hc : db.AggregateConsistent) (hs : stake ∈ db.stakes) (hsp : stake.PoolID = poolID)
    (hp : pool.ID = poolID) (hcs : cur.stakes = db.stakes) (hcp : cur.pools = db.pools) :
    (unstakeCommitted cur now2 txID userID amount stake pool ua).AggregateConsistent := by
  intro p' hp'
  simp only [unstakeCommitted, hcs, hcp] at hp' ⊢
  obtain ⟨p, hpm, rfl⟩ := mem_updateWhereID hp'
  by_cases h : p.ID = pool.ID
  · have hq : stake.PoolID = p.ID := by rw [h, hp, hsp]
    rw [if_pos h]
    show p.TotalStaked - amount = positionSum _ p.ID
    rw [positionSum_unstake db.stakes stake amount now2 p.ID hnd hs, hc p hpm, if_pos hq]
  · have hq : ¬ stake.PoolID = p.ID := by rw [hsp, ← hp]; exact fun e => h e.symm
    rw [if_neg h]
    rw [positionSum_unstake db.stakes stake amount now2 p.ID hnd hs, hc p hpm, if_neg hq]
    ring

theorem consistent_claimCommitted (db cur : DB) (now2 : Time) (txID : String)
    (userID : Nat) (reward : ℚ) (stake : UserStake) (pool : LaunchPool)
    (hc : db.AggregateConsistent) (hcs : cur.stakes = db.stakes) (hcp : cur.pools = db.pools) :
    (claimCommitted cur now2 txID userID reward stake pool).AggregateConsistent := by
  intro p hp
  simp only [claimCommitted, hcs, hcp] at hp ⊢
  rw [positionSum_update_same stake.ID
    (fun r => { r with Reward := 0, LastClaimAt := now2 }) (fun r => ⟨rfl, rfl⟩)]
  exact hc p hp

/-! ## Balances -/

theorem eq_of_mem_of_ID_eq {rows : List UserAsset} (hnd : (rows.map UserAsset.ID).Nodup)
    {r x : UserAsset} (hr : r ∈ rows) (hx : x ∈ rows) (h : r.ID = x.ID) : r = x :=
  List.inj_on_of_nodup_map hnd hr hx h

theorem findUserAsset_some {db : DB} {userID : Nat} {symbol : String} {ua : UserAsset}
    (h : findUserAsset db userID symbol = some ua) : ua ∈ db.userAssets :=
  (first_some h).1

/-- Crediting one row keeps what `findUserAsset` finds, up to the credit. -/
theorem findUserAsset_update (db : DB) (k : Nat) (f : UserAsset → UserAsset)
    (hf : ∀ r, (f r).ID = r.ID ∧ (f r).UserID = r.UserID ∧ (f r).AssetID = r.AssetID)
    (userID : Nat) (symbol : String) :
    findUserAsset { db with userAssets := updateWhereID UserAsset.ID k f db.userAssets }
        userID symbol
      = (findUserAsset db userID symbol).map (fun r => if r.ID = k then f r else r) := by
  unfold findUserAsset assetIDsBySymbol updateWhereID
  apply first_map
  · intro r; by_cases h : r.ID = k <;> simp [h, (hf r).1]
  · intro r; by_cases h : r.ID = k <;> simp [h, (hf r).2.1, (hf r).2.2]

/-- A created row, whose key is fresh, is never preferred to a row found before. -/
theorem findUserAsset_create (db : DB) (row : UserAsset) (userID : Nat) (symbol : String)
    (ua : UserAsset) (hnd : (db.userAssets.map UserAsset.ID).Nodup)
    (h : findUserAsset db userID symbol = some ua) :
    findUserAsset
        { db with userAssets :=
            db.userAssets ++ [{ row with ID := nextID UserAsset.ID db.userAssets }] }
        userID symbol = some ua := by
  unfold findUserAsset assetIDsBySymbol at h ⊢
  exact first_append_fresh UserAsset.ID _ db.userAssets ua _ hnd
    (fun r hr => lt_nextID UserAsset.ID db.userAssets r hr) h

theorem nonneg_update (rows : List UserAsset) (k : Nat) (f : UserAsset → UserAsset)
    (h : ∀ r ∈ rows, 0 ≤ r.Balance ∧ 0 ≤ r.Locked)
    (hf : ∀ r ∈ rows, r.ID = k → 0 ≤ (f r).Balance ∧ 0 ≤ (f r).Locked) :
    ∀ r ∈ updateWhereID UserAsset.ID k f rows, 0 ≤ r.Balance ∧ 0 ≤ r.Locked := by
  intro r' hr'
  obtain ⟨r, hr, rfl⟩ := mem_updateWhereID hr'
  by_cases e : r.ID = k
  · rw [if_pos e]; exact hf r hr e
  · rw [if_neg e]; exact h r hr

theorem distributeReward_nonneg {tx tx' : Tx} {userID : Nat} {assetSymbol : String} {amount : ℚ}
    (hnn : tx.cur.NonNegative) (ha : 0 ≤ amount)
    (h : distributeReward tx userID assetSymbol amount = .ok tx') : tx'.cur.NonNegative := by
  rcases distributeReward_cases tx userID assetSymbol amount with
    ⟨ua, _, e⟩ | ⟨asset, _, _, e⟩ | ⟨_, _, e⟩
  · rw [e] at h; cases h
    simp only [Tx.updateUserAsset]
    apply nonneg_update _ _ _ hnn
    intro r hr _
    exact ⟨add_nonneg (hnn r hr).1 ha, (hnn r hr).2⟩
  · rw [e] at h; cases h
    simp only [Tx.createUserAsset]
    intro r hr
    rcases List.mem_append.1 hr with h1 | h1
    · exact hnn r h1
    · simp only [List.mem_singleton] at h1
      subst h1
      exact ⟨ha, le_refl _⟩
  · rw [e] at h; cases h

/-- After the reward step of `Unstake` the stake-asset row found has the key it
had before, and every row of that key is as locked as before. -/
theorem rewardStep_keeps {db : DB} {tx : Tx} {userID : Nat} {rewardSymbol symbol : String}
    {reward amount : ℚ} {ua : UserAsset}
    (hnd : (db.userAssets.map UserAsset.ID).Nodup) (hnn : db.NonNegative)
    (hu : findUserAsset db userID symbol = some ua) (hl : amount ≤ ua.Locked)
    (h : (if reward > 0 then distributeReward (Begin db) userID rewardSymbol reward
          else .ok (Begin db)) = .ok tx) :
    tx.cur.NonNegative ∧ ∃ ua', findUserAsset tx.cur userID symbol = some ua' ∧
      ∀ r ∈ tx.cur.userAssets, r.ID = ua'.ID → amount ≤ r.Locked := by
  have hmem := findUserAsset_some hu
  by_cases hr : reward > 0
  · rw [if_pos hr] at h
    refine ⟨@distributeReward_nonneg (Begin db) _ _ _ _ hnn (le_of_lt hr) h, ?_⟩
    rcases distributeReward_cases (Begin db) userID rewardSymbol reward with
      ⟨uaR, _, e⟩ | ⟨asset, _, _, e⟩ | ⟨_, _, e⟩
    · rw [e] at h; cases h
      simp only [Tx.updateUserAsset, Begin]
      rw [findUserAsset_update db uaR.ID (fun r => { r with Balance := r.Balance + reward })
        (fun r => ⟨rfl, rfl, rfl⟩), hu]
      refine ⟨_, rfl, ?_⟩
      intro r' hr' hid
      obtain ⟨r, hrm, rfl⟩ := mem_updateWhereID hr'
      have h1 : ∀ x : UserAsset, (if x.ID = uaR.ID then
          ({ x with Balance := x.Balance + reward } : UserAsset) else x).ID = x.ID := by
        intro x; split <;> rfl
      have hid' : r.ID = ua.ID := (h1 r).symm.trans (hid.trans (h1 ua))
      have := eq_of_mem_of_ID_eq hnd hrm hmem hid'
      subst this
      by_cases e1 : r.ID = uaR.ID <;> simpa [e1] using hl
    · rw [e] at h; cases h
      simp only [Tx.createUserAsset, Begin]
      rw [findUserAsset_create db
        { ID := 0, UserID := userID, AssetID := asset.ID, Balance := reward, Locked := 0 }
        userID symbol ua hnd hu]
      refine ⟨ua, rfl, ?_⟩
      intro r hr' hid
      rcases List.mem_append.1 hr' with h1 | h1
      · rw [eq_of_mem_of_ID_eq hnd h1 hmem hid]; exact hl
      · simp only [List.mem_singleton] at h1
        subst h1
        exact absurd hid (Nat.ne_of_gt (lt_nextID UserAsset.ID db.userAssets ua hmem))
    · rw [e] at h; cases h
  · rw [if_neg hr] at h; cases h
    refine ⟨hnn, ua, hu, ?_⟩
    intro r hr' hid
    rw [eq_of_mem_of_ID_eq hnd hr' hmem hid]; exact hl


/-! ## Lookups after an unstake -/

theorem findUserAsset_unstakeCommitted (cur : DB) (now2 : Time) (txID : String)
    (userID : Nat) (amount : ℚ) (stake : UserStake) (pool : LaunchPool) (ua : UserAsset)
    (u : Nat) (symbol : String) :
    findUserAsset (unstakeCommitted cur now2 txID userID amount stake pool ua) u symbol =
      (findUserAsset cur u symbol).map (fun r => if r.ID = ua.ID then
        { r with Balance := r.Balance + amount, Locked := r.Locked - amount } else r) := by
  unfold findUserAsset assetIDsBySymbol unstakeCommitted updateWhereID
  apply first_map
  · intro r; by_cases h : r.ID = ua.ID <;> simp [h]
  · intro r; by_cases h : r.ID = ua.ID <;> simp [h]

theorem findStake_unstakeCommitted (cur : DB) (now2 : Time) (txID : String)
    (userID : Nat) (amount : ℚ) (stake : UserStake) (pool : LaunchPool) (ua : UserAsset)
    (u q : Nat) (hne : ¬stake.Amount = amount) :
    findStake (unstakeCommitted cur now2 txID userID amount stake pool ua) u q =
      (findStake cur u q).map (fun r => if r.ID = stake.ID then
        { r with Amount := r.Amount - amount, Reward := 0, LastClaimAt := now2 } else r) := by
  unfold findStake unstakeCommitted updateWhereID
  simp only [if_neg hne]
  apply first_map
  · intro r; by_cases h : r.ID = stake.ID <;> simp [h]
  · intro r; by_cases h : r.ID = stake.ID <;> simp [h]

theorem findPool_unstakeCommitted (cur : DB) (now2 : Time) (txID : String)
    (userID : Nat) (amount : ℚ) (stake : UserStake) (pool : LaunchPool) (ua : UserAsset)
    (q : Nat) :
    findPool (unstakeCommitted cur now2 txID userID amount stake pool ua) q =
      (findPool cur q).map (fun r => if r.ID = pool.ID then
        { r with TotalStaked := r.TotalStaked - amount } else r) := by
  unfold findPool unstakeCommitted updateWhereID
  apply first_map
  · intro r; by_cases h : r.ID = pool.ID <;> simp [h]
  · intro r; by_cases h : r.ID = pool.ID <;> simp [h]

/-- The success branch of `Unstake`, from the facts that select it. -/
theorem Unstake_success {db : DB} {now : Time} (now2 : Time) (txID : String)
    {userID poolID : Nat}
    {amount : ℚ} {stake : UserStake} {pool : LaunchPool} {tx : Tx} {ua : UserAsset}
    (hs : findStake db userID poolID = some stake) (hx : ¬stake.Amount < amount)
    (hp : findPool db poolID = some pool)
    (hd : (if calculateReward now stake pool > 0 then
          distributeReward (Begin db) userID pool.RewardAsset (calculateReward now stake pool)
        else .ok (Begin db)) = .ok tx)
    (hu : findUserAsset tx.cur userID pool.StakeAsset = some ua) :
    Unstake db now now2 txID userID poolID amount =
      (none, unstakeCommitted tx.cur now2 txID userID amount stake pool ua) := by
  rcases Unstake_cases db now now2 txID userID poolID amount with
    ⟨h1, _⟩ | ⟨s, h1, h2, _⟩ | ⟨s, _, _, h1, _⟩ | ⟨s, p, err, h1, _, h2, h4, h3, _⟩ |
    ⟨s, p, t, h1, _, h2, h3, h4, _⟩ | ⟨s, p, t, ua', h1, _, h2, h3, h4, e⟩
  · rw [hs] at h1; cases h1
  · rw [hs] at h1; cases h1; exact absurd h2 hx
  · rw [hp] at h1; cases h1
  · rw [hs] at h1; cases h1; rw [hp] at h2; cases h2
    rw [if_pos h4, h3] at hd; cases hd
  · rw [hs] at h1; cases h1; rw [hp] at h2; cases h2
    rw [hd] at h3; cases h3
    rw [hu] at h4; cases h4
  · rw [hs] at h1; cases h1; rw [hp] at h2; cases h2
    rw [hd] at h3; cases h3
    rw [hu] at h4; cases h4
    exact e

/-! ## The reward calculator -/

/-- `Duration.Hours` is the duration divided by an hour. -/
theorem Hours_eq (d : Int) : Hours d = (d : ℚ) / 3600000000000 := by
  unfold Hours
  have h := Int.tdiv_add_tmod' d Hour
  have hq : ((Int.tdiv d Hour : Int) : ℚ) * (Hour : ℚ) + ((Int.tmod d Hour : Int) : ℚ) = (d : ℚ) := by
    exact_mod_cast h
  have hH : (Hour : ℚ) = 3600000000000 := by norm_num [Hour]
  rw [hH] at hq
  rw [← hq]
  field_simp
  ring

theorem clamp_eq_min (now endTime : Int) : (if endTime < now then endTime else now) = min now endTime := by
  by_cases h : endTime < now
  · rw [if_pos h, min_eq_right (le_of_lt h)]
  · rw [if_neg h, min_eq_left (not_lt.1 h)]

theorem Time.Sub_clamp (t u : Int) :
    Time.Sub t u = max minDuration (min maxDuration (t - u)) := by
  have hmm : minDuration ≤ maxDuration := by decide
  unfold Time.Sub
  by_cases h₁ : t - u < minDuration
  · simp only [h₁, if_true]
    rw [max_eq_left]
    exact le_trans (min_le_right _ _) (le_of_lt h₁)
  · by_cases h₂ : maxDuration < t - u
    · simp only [h₁, h₂, if_true, if_false]
      rw [min_eq_left (le_of_lt h₂), max_eq_right hmm]
    · simp only [h₁, h₂, if_false]
      rw [min_eq_right (not_lt.1 h₂), max_eq_right (not_lt.1 h₁)]

theorem Time.Sub_eq {t u : Int} (h₁ : minDuration ≤ t - u) (h₂ : t - u ≤ maxDuration) :
    Time.Sub t u = t - u := by
  rw [Time.Sub_clamp, min_eq_right h₂, max_eq_right h₁]

theorem Time.Sub_self (t : Int) : Time.Sub t t = 0 := by
  rw [Time.Sub_eq] <;> simp [minDuration, maxDuration]

theorem Time.Sub_mono {t t' : Int} (u : Int) (h : t ≤ t') : Time.Sub t u ≤ Time.Sub t' u := by
  rw [Time.Sub_clamp, Time.Sub_clamp]
  exact max_le_max (le_refl _) (min_le_min (le_refl _) (sub_le_sub_right h u))

theorem Time.Sub_nonpos {t u : Int} (h : t ≤ u) : Time.Sub t u ≤ 0 := by
  have := Time.Sub_mono u h
  rwa [Time.Sub_self] at this

theorem Time.Sub_pos {t u : Int} (h : u < t) : 0 < Time.Sub t u := by
  have h2 : 0 < maxDuration := by decide
  rw [Time.Sub_clamp]
  exact lt_max_of_lt_right (lt_min h2 (sub_pos.2 h))

/-- Inside a span that fits a `Duration`, every forward difference is exact. -/
theorem Time.Sub_eq_of_span {l a b c : Int} (hla : l ≤ a) (hab : a < b) (hbc : b ≤ c)
    (h : c - l ≤ maxDuration) : Time.Sub b a = b - a := by
  have hmin : minDuration < 0 := by decide
  apply Time.Sub_eq
  · have : 0 < b - a := sub_pos.2 hab
    exact le_of_lt (lt_trans hmin this)
  · have : b - a ≤ c - l := sub_le_sub hbc hla
    exact le_trans this h

theorem calculateReward_eq (now : Time) (stake : UserStake) (pool : LaunchPool) :
    calculateReward now stake pool =
      stake.Amount * pool.APY *
        ((Time.Sub (min now pool.EndTime) stake.LastClaimAt : ℚ) / 3600000000000 / 24 / 365) := by
  unfold calculateReward
  simp only [clamp_eq_min, Hours_eq]

/-! ## Operations on a pair without position -/

theorem Unstake_of_no_position {db : DB} (now now2 : Time) (txID : String)
    {userID poolID : Nat} (amount : ℚ) (h : findStake db userID poolID = none) :
    Unstake db now now2 txID userID poolID amount = (some .StakeNotFound, db) := by
  rcases Unstake_cases db now now2 txID userID poolID amount with
    ⟨_, e⟩ | ⟨s, h1, _⟩ | ⟨s, h1, _⟩ | ⟨s, _, _, h1, _⟩ |
    ⟨s, _, _, h1, _⟩ | ⟨s, _, _, _, h1, _⟩
  · exact e
  all_goals (rw [h] at h1; cases h1)

theorem ClaimReward_of_no_position {db : DB} (now now2 : Time) (txID : String)
    {userID poolID : Nat} (h : findStake db userID poolID = none) :
    ClaimReward db now now2 txID userID poolID = (some .StakeNotFound, db) := by
  rcases ClaimReward_cases db now now2 txID userID poolID with
    ⟨_, e⟩ | ⟨s, h1, _⟩ | ⟨s, _, h1, _⟩ | ⟨s, _, _, h1, _⟩ | ⟨s, _, _, h1, _⟩
  · exact e
  all_goals (rw [h] at h1; cases h1)

/-! ## Lookups after a stake and after a claim -/

theorem calculateReward_at_lastClaim (position : UserStake) (pool : LaunchPool)
    (h : position.LastClaimAt ≤ pool.EndTime) :
    calculateReward position.LastClaimAt position pool = 0 := by
  rw [calculateReward_eq, min_eq_left h, Time.Sub_self]
  simp

theorem findPool_stakeCommitted (db : DB) (now : Time) (txID : String) (userID poolID : Nat)
    (amount : ℚ) (pool : LaunchPool) (ua : UserAsset) (q : Nat) :
    findPool (stakeCommitted db now txID userID poolID amount pool ua) q =
      (findPool db q).map (fun r => if r.ID = pool.ID then
        { r with TotalStaked := r.TotalStaked + amount } else r) := by
  unfold findPool stakeCommitted updateWhereID
  apply first_map
  · intro r; by_cases h : r.ID = pool.ID <;> simp [h]
  · intro r; by_cases h : r.ID = pool.ID <;> simp [h]

theorem first_append_of_none {α : Type} (key : α → Nat) (p : α → Bool) (rows : List α) (n : α)
    (h : first key p rows = none) (hn : p n = true) : first key p (rows ++ [n]) = some n := by
  have hf : rows.filter p = [] := by
    rw [List.filter_eq_nil_iff]
    intro x hx
    simp [(first_eq_none key p rows).1 h x hx]
  unfold first
  rw [List.filter_append, hf]
  simp [List.filter_cons, hn, leastByKey]

theorem findStake_stakeCommitted (db : DB) (now : Time) (txID : String) (userID poolID : Nat)
    (amount : ℚ) (pool : LaunchPool) (ua : UserAsset)
    (h : findStake db userID poolID = none) :
    findStake (stakeCommitted db now txID userID poolID amount pool ua) userID poolID =
      some { ID := nextID UserStake.ID db.stakes, UserID := userID, PoolID := poolID,
             Amount := amount, Reward := 0, StakedAt := now, LastClaimAt := now } := by
  unfold findStake stakeCommitted
  exact first_append_of_none UserStake.ID _ db.stakes _ h (by simp)

theorem findUserAsset_claimCommitted (cur : DB) (now2 : Time) (txID : String) (userID : Nat)
    (reward : ℚ) (stake : UserStake) (pool : LaunchPool) (u : Nat) (symbol : String) :
    findUserAsset (claimCommitted cur now2 txID userID reward stake pool) u symbol =
      findUserAsset cur u symbol := rfl

theorem findPool_claimCommitted (cur : DB) (now2 : Time) (txID : String) (userID : Nat)
    (reward : ℚ) (stake : UserStake) (pool : LaunchPool) (q : Nat) :
    findPool (claimCommitted cur now2 txID userID reward stake pool) q = findPool cur q := rfl

theorem findStake_claimCommitted (cur : DB) (now2 : Time) (txID : String) (userID : Nat)
    (reward : ℚ) (stake : UserStake) (pool : LaunchPool) (u q : Nat) :
    findStake (claimCommitted cur now2 txID userID reward stake pool) u q =
      (findStake cur u q).map (fun r => if r.ID = stake.ID then
        { r with Reward := 0, LastClaimAt := now2 } else r) := by
  unfold findStake claimCommitted updateWhereID
  apply first_map
  · intro r; by_cases h : r.ID = stake.ID <;> simp [h]
  · intro r; by_cases h : r.ID = stake.ID <;> simp [h]

/-- After a distribution the user has a row for the asset, holding what was
available before plus the amount. -/
theorem findUserAsset_after_distribute {db : DB} {tx : Tx} {userID : Nat}
    {assetSymbol : String} {amount : ℚ}
    (h : distributeReward (Begin db) userID assetSymbol amount = .ok tx) :
    ∃ row, findUserAsset tx.cur userID assetSymbol = some row ∧
      row.Balance = availableOf db userID assetSymbol + amount := by
  rcases distributeReward_cases (Begin db) userID assetSymbol amount with
    ⟨ua, hu, e⟩ | ⟨asset, hu, ha, e⟩ | ⟨_, _, e⟩
  · rw [e] at h; cases h
    have hu' : findUserAsset db userID assetSymbol = some ua := hu
    refine ⟨{ ua with Balance := ua.Balance + amount }, ?_, ?_⟩
    · simp only [Tx.updateUserAsset, Begin]
      rw [findUserAsset_update db ua.ID (fun r => { r with Balance := r.Balance + amount })
        (fun r => ⟨rfl, rfl, rfl⟩), hu']
      simp
    · simp [availableOf, hu']
  · rw [e] at h; cases h
    have hu' : findUserAsset db userID assetSymbol = none := hu
    have ha' := first_some ha
    refine ⟨{ ID := nextID UserAsset.ID db.userAssets, UserID := userID, AssetID := asset.ID,
              Balance := amount, Locked := 0 }, ?_, ?_⟩
    · simp only [Tx.createUserAsset, Begin]
      unfold findUserAsset assetIDsBySymbol at hu' ⊢
      apply first_append_of_none UserAsset.ID _ db.userAssets _ hu'
      simp only [Bool.and_eq_true, beq_self_eq_true, true_and, List.contains_eq_any_beq,
        List.any_eq_true, List.mem_map, List.mem_filter]
      exact ⟨asset.ID, ⟨asset, ⟨ha'.1, ha'.2⟩, rfl⟩, by simp⟩
    · simp [availableOf, hu']
  · rw [e] at h; cases h

/-- Whether `distributeReward` succeeds does not depend on the amount. -/
theorem distributeReward_ok_any {tx tx' : Tx} {userID : Nat} {assetSymbol : String}
    {amount : ℚ} (h : distributeReward tx userID assetSymbol amount = .ok tx') (other : ℚ) :
    ∃ tx'', distributeReward tx userID assetSymbol other = .ok tx'' := by
  rcases distributeReward_cases tx userID assetSymbol amount with
    ⟨ua, hu, _⟩ | ⟨asset, hu, ha, _⟩ | ⟨_, _, e⟩
  · rcases distributeReward_cases tx userID assetSymbol other with
      ⟨_, _, e'⟩ | ⟨_, hu', _, _⟩ | ⟨hu', _, _⟩
    · exact ⟨_, e'⟩
    · rw [hu] at hu'; cases hu'
    · rw [hu] at hu'; cases hu'
  · rcases distributeReward_cases tx userID assetSymbol other with
      ⟨_, _, e'⟩ | ⟨_, _, _, e'⟩ | ⟨_, ha', _⟩
    · exact ⟨_, e'⟩
    · exact ⟨_, e'⟩
    · rw [ha] at ha'; cases ha'
  · rw [e] at h; cases h

/-- The success branch of `ClaimReward`, from the facts that select it. -/
theorem ClaimReward_success {db : DB} {now : Time} (now2 : Time) (txID : String)
    {userID poolID : Nat} {stake : UserStake} {pool : LaunchPool} {tx : Tx}
    (hs : findStake db userID poolID = some stake) (hp : findPool db poolID = some pool)
    (hr : 0 < calculateReward now stake pool)
    (hd : distributeReward (Begin db) userID pool.RewardAsset (calculateReward now stake pool)
      = .ok tx) :
    ClaimReward db now now2 txID userID poolID =
      (none, claimCommitted tx.cur now2 txID userID (calculateReward now stake pool) stake pool) := by
  rcases ClaimReward_cases db now now2 txID userID poolID with
    ⟨h1, _⟩ | ⟨s, _, h1, _⟩ | ⟨s, p, h1, h2, hr', _⟩ | ⟨s, p, err, h1, h2, _, hd', _⟩ |
    ⟨s, p, t, h1, h2, _, hd', e⟩
  · rw [hs] at h1; cases h1
  · rw [hp] at h1; cases h1
  · rw [hs] at h1; cases h1; rw [hp] at h2; cases h2; exact absurd hr (not_lt.2 hr')
  · rw [hs] at h1; cases h1; rw [hp] at h2; cases h2; rw [hd] at hd'; cases hd'
  · rw [hs] at h1; cases h1; rw [hp] at h2; cases h2; rw [hd] at hd'; cases hd'; exact e

theorem calculateReward_pos (now : Time) (stake : UserStake) (pool : LaunchPool)
    (hsign : 0 < stake.Amount * pool.APY) (h : stake.LastClaimAt < min now pool.EndTime) :
    0 < calculateReward now stake pool := by
  rw [calculateReward_eq]
  apply mul_pos hsign
  have h1 : (0 : ℚ) < (Time.Sub (min now pool.EndTime) stake.LastClaimAt : ℚ) := by
    exact_mod_cast Time.Sub_pos h
  positivity

/-! ## What a distribution changes -/

/-- The two ways `distributeReward` succeeds, with the balance table it leaves. -/
theorem distributeReward_shape {tx tx' : Tx} {userID : Nat} {assetSymbol : String} {amount : ℚ}
    (hnd : (tx.cur.userAssets.map UserAsset.ID).Nodup)
    (h : distributeReward tx userID assetSymbol amount = .ok tx') :
    (∃ ua l₁ l₂, findUserAsset tx.cur userID assetSymbol = some ua ∧
      tx.cur.userAssets = l₁ ++ ua :: l₂ ∧
      tx'.cur.userAssets = l₁ ++ { ua with Balance := ua.Balance + amount } :: l₂) ∨
    (∃ asset, findUserAsset tx.cur userID assetSymbol = none ∧
      findAsset tx.cur assetSymbol = some asset ∧
      tx'.cur.userAssets = tx.cur.userAssets ++
        [{ ID := nextID UserAsset.ID tx.cur.userAssets, UserID := userID, AssetID := asset.ID,
           Balance := amount, Locked := 0 }]) := by
  rcases distributeReward_cases tx userID assetSymbol amount with
    ⟨ua, hu, e⟩ | ⟨asset, hu, ha, e⟩ | ⟨_, _, e⟩
  · left
    rw [e] at h; cases h
    obtain ⟨l₁, l₂, hsplit, h₁, h₂⟩ :=
      split_at_key UserAsset.ID tx.cur.userAssets ua hnd (findUserAsset_some hu)
    refine ⟨ua, l₁, l₂, hu, hsplit, ?_⟩
    simp only [Tx.updateUserAsset]
    rw [hsplit, updateWhereID_split UserAsset.ID _ l₁ l₂ ua h₁ h₂]
  · right
    rw [e] at h; cases h
    exact ⟨asset, hu, ha, rfl⟩
  · rw [e] at h; cases h

/-- A distribution of a non-negative amount lowers no available balance and
touches no locked balance. -/
theorem distributeReward_lowers_nothing {tx tx' : Tx} {userID : Nat} {assetSymbol : String}
    {amount : ℚ} (ha : 0 ≤ amount)
    (h : distributeReward tx userID assetSymbol amount = .ok tx') :
    ∀ r ∈ tx.cur.userAssets, ∃ r' ∈ tx'.cur.userAssets,
      r'.ID = r.ID ∧ r.Balance ≤ r'.Balance ∧ r'.Locked = r.Locked := by
  intro r hr
  rcases distributeReward_cases tx userID assetSymbol amount with
    ⟨ua, _, e⟩ | ⟨asset, _, _, e⟩ | ⟨_, _, e⟩
  · rw [e] at h; cases h
    by_cases hid : r.ID = ua.ID
    · refine ⟨{ r with Balance := r.Balance + amount }, ?_, rfl, ?_, rfl⟩
      · simp only [Tx.updateUserAsset, updateWhereID]
        exact List.mem_map.2 ⟨r, hr, by simp [hid]⟩
      · exact le_add_of_nonneg_right ha
    · refine ⟨r, ?_, rfl, le_refl _, rfl⟩
      simp only [Tx.updateUserAsset, updateWhereID]
      exact List.mem_map.2 ⟨r, hr, by simp [hid]⟩
  · rw [e] at h; cases h
    exact ⟨r, List.mem_append_left _ hr, rfl, le_refl _, rfl⟩
  · rw [e] at h; cases h

/-! ## Locked funds and covered positions -/

/-! ### Sums of amounts over selected positions -/

theorem amountSum_append_single (p : UserStake → Bool) (l : List UserStake) (n : UserStake) :
    (((l ++ [n]).filter p).map UserStake.Amount).sum =
      ((l.filter p).map UserStake.Amount).sum + (if p n = true then n.Amount else 0) := by
  by_cases h : p n = true <;> simp [List.filter_append, List.filter_cons, h]

theorem amountSum_cons (p : UserStake → Bool) (a : UserStake) (l : List UserStake) :
    (((a :: l).filter p).map UserStake.Amount).sum =
      (if p a = true then a.Amount else 0) + ((l.filter p).map UserStake.Amount).sum := by
  by_cases h : p a = true <;> simp [List.filter_cons, h]

theorem amountSum_append (p : UserStake → Bool) (l₁ l₂ : List UserStake) :
    (((l₁ ++ l₂).filter p).map UserStake.Amount).sum =
      ((l₁.filter p).map UserStake.Amount).sum + ((l₂.filter p).map UserStake.Amount).sum := by
  simp [List.filter_append]

theorem amountSum_update_same (p : UserStake → Bool) (k : Nat) (f : UserStake → UserStake)
    (hf : ∀ r, p (f r) = p r ∧ (f r).Amount = r.Amount) (l : List UserStake) :
    (((updateWhereID UserStake.ID k f l).filter p).map UserStake.Amount).sum =
      ((l.filter p).map UserStake.Amount).sum := by
  induction l with
  | nil => rfl
  | cons a as ih =>
    have e : updateWhereID UserStake.ID k f (a :: as) =
        (if a.ID = k then f a else a) :: updateWhereID UserStake.ID k f as := by
      simp [updateWhereID]
    rw [e, amountSum_cons, amountSum_cons, ih]
    by_cases hk : a.ID = k
    · rw [if_pos hk, (hf a).1, (hf a).2]
    · rw [if_neg hk]

theorem amountSum_unstake (p : UserStake → Bool) (stakes : List UserStake) (stake : UserStake)
    (amount : ℚ) (now2 : Time) (hnd : (stakes.map UserStake.ID).Nodup) (hm : stake ∈ stakes)
    (hp : p { stake with Amount := stake.Amount - amount, Reward := 0, LastClaimAt := now2 }
      = p stake) :
    (((if stake.Amount = amount then deleteWhereID UserStake.ID stake.ID stakes
        else updateWhereID UserStake.ID stake.ID
          (fun r => { r with Amount := r.Amount - amount, Reward := 0, LastClaimAt := now2 })
          stakes).filter p).map UserStake.Amount).sum
      = ((stakes.filter p).map UserStake.Amount).sum -
          (if p stake = true then amount else 0) := by
  obtain ⟨l₁, l₂, rfl, h₁, h₂⟩ := split_at_key UserStake.ID stakes stake hnd hm
  by_cases he : stake.Amount = amount
  · rw [if_pos he, deleteWhereID_split UserStake.ID l₁ l₂ stake h₁ h₂]
    rw [amountSum_append, amountSum_append, amountSum_cons, he]
    ring
  · rw [if_neg he, updateWhereID_split UserStake.ID _ l₁ l₂ stake h₁ h₂]
    rw [amountSum_append, amountSum_append, amountSum_cons, amountSum_cons, hp]
    by_cases hps : p stake = true
    · simp only [hps, if_true]; ring
    · have hb : p stake = false := by simpa using hps
      simp only [hb, Bool.false_eq_true, if_false]; ring

/-! ### Looking balances up after an append -/

theorem first_append_none_cases {α : Type} (key : α → Nat) (p : α → Bool) (rows : List α)
    (n : α) (h : first key p rows = none) :
    first key p (rows ++ [n]) = if p n = true then some n else none := by
  by_cases hn : p n = true
  · rw [if_pos hn]; exact first_append_of_none key p rows n h hn
  · rw [if_neg hn]
    rw [first_eq_none]
    intro x hx
    rcases List.mem_append.1 hx with h1 | h1
    · exact (first_eq_none key p rows).1 h x h1
    · simp only [List.mem_singleton] at h1
      subst h1
      simpa using hn

/-- `distributeReward` changes nobody's locked balance of any asset. -/
theorem lockedOf_distributeReward {db : DB} {tx : Tx} {userID : Nat} {assetSymbol : String}
    {amount : ℚ} (hnd : (db.userAssets.map UserAsset.ID).Nodup)
    (h : distributeReward (Begin db) userID assetSymbol amount = .ok tx)
    (u : Nat) (symbol : String) : lockedOf tx.cur u symbol = lockedOf db u symbol := by
  rcases distributeReward_cases (Begin db) userID assetSymbol amount with
    ⟨ua, _, e⟩ | ⟨asset, _, _, e⟩ | ⟨_, _, e⟩
  · rw [e] at h; cases h
    unfold lockedOf
    simp only [Tx.updateUserAsset, Begin]
    rw [findUserAsset_update db ua.ID (fun r => { r with Balance := r.Balance + amount })
      (fun r => ⟨rfl, rfl, rfl⟩)]
    cases findUserAsset db u symbol with
    | none => rfl
    | some x => by_cases hx : x.ID = ua.ID <;> simp [hx]
  · rw [e] at h; cases h
    unfold lockedOf
    simp only [Tx.createUserAsset, Begin]
    cases hf : findUserAsset db u symbol with
    | some x =>
      rw [findUserAsset_create db
        { ID := 0, UserID := userID, AssetID := asset.ID, Balance := amount, Locked := 0 }
        u symbol x hnd hf]
    | none =>
      have hf' := hf
      unfold findUserAsset assetIDsBySymbol at hf' ⊢
      rw [first_append_none_cases UserAsset.ID _ db.userAssets _ hf']
      split <;> simp
  · rw [e] at h; cases h

/-- `distributeReward` keeps the keys of the balance table pairwise distinct. -/
theorem distributeReward_nodup {db : DB} {tx : Tx} {userID : Nat} {assetSymbol : String}
    {amount : ℚ} (hnd : (db.userAssets.map UserAsset.ID).Nodup)
    (h : distributeReward (Begin db) userID assetSymbol amount = .ok tx) :
    (tx.cur.userAssets.map UserAsset.ID).Nodup := by
  rcases distributeReward_cases (Begin db) userID assetSymbol amount with
    ⟨ua, _, e⟩ | ⟨asset, _, _, e⟩ | ⟨_, _, e⟩
  · rw [e] at h; cases h
    simp only [Tx.updateUserAsset, Begin, updateWhereID, List.map_map]
    have : (UserAsset.ID ∘ fun r : UserAsset => if r.ID = ua.ID then
        ({ r with Balance := r.Balance + amount } : UserAsset) else r) = UserAsset.ID := by
      funext r
      simp only [Function.comp]
      split <;> rfl
    rw [this]; exact hnd
  · rw [e] at h; cases h
    simp only [Tx.createUserAsset, Begin, List.map_append, List.map_cons, List.map_nil]
    rw [List.nodup_append]
    refine ⟨hnd, List.nodup_singleton _, ?_⟩
    intro i hi hi'
    simp only [List.mem_singleton] at hi'
    obtain ⟨r, hr, rfl⟩ := List.mem_map.1 hi
    exact absurd hi' (Nat.ne_of_lt (lt_nextID UserAsset.ID db.userAssets r hr))
  · rw [e] at h; cases h

/-- Two lookups that land on rows of one key are lookups of one user and one
asset, when keys and asset keys are pairwise distinct. -/
theorem findUserAsset_inj {db : DB} (hnd : (db.userAssets.map UserAsset.ID).Nodup)
    (hna : (db.assets.map Asset.ID).Nodup) {u₁ u₂ : Nat} {s₁ s₂ : String} {x y : UserAsset}
    (hx : findUserAsset db u₁ s₁ = some x) (hy : findUserAsset db u₂ s₂ = some y)
    (hid : x.ID = y.ID) : u₁ = u₂ ∧ s₁ = s₂ := by
  have hx' := first_some hx
  have hy' := first_some hy
  have hxy : x = y := eq_of_mem_of_ID_eq hnd hx'.1 hy'.1 hid
  subst hxy
  have h1 := hx'.2
  have h2 := hy'.2
  simp only [Bool.and_eq_true, beq_iff_eq, assetIDsBySymbol, List.contains_eq_any_beq,
    List.any_eq_true, List.mem_map, List.mem_filter] at h1 h2
  obtain ⟨hu1, i1, ⟨a1, ⟨ha1, hs1⟩, rfl⟩, hi1⟩ := h1
  obtain ⟨hu2, i2, ⟨a2, ⟨ha2, hs2⟩, rfl⟩, hi2⟩ := h2
  refine ⟨hu1.symm.trans hu2, ?_⟩
  have : a1 = a2 := List.inj_on_of_nodup_map hna ha1 ha2 (hi1.symm.trans hi2)
  subst this
  exact hs1.symm.trans hs2

/-! ### Stake assets, locked balances and covered sums across a commit -/

theorem stakeAssetOf_of_pools {cur db : DB} (h : cur.pools = db.pools) (q : Nat) :
    stakeAssetOf cur q = stakeAssetOf db q := by
  unfold stakeAssetOf findPool; rw [h]

theorem stakeAssetOf_stakeCommitted (db : DB) (now : Time) (txID : String) (userID poolID : Nat)
    (amount : ℚ) (pool : LaunchPool) (ua : UserAsset) (q : Nat) :
    stakeAssetOf (stakeCommitted db now txID userID poolID amount pool ua) q =
      stakeAssetOf db q := by
  unfold stakeAssetOf
  rw [findPool_stakeCommitted]
  cases findPool db q with
  | none => rfl
  | some x => by_cases h : x.ID = pool.ID <;> simp [h]

theorem stakeAssetOf_unstakeCommitted (cur : DB) (now2 : Time) (txID : String) (userID : Nat)
    (amount : ℚ) (stake : UserStake) (pool : LaunchPool) (ua : UserAsset) (q : Nat) :
    stakeAssetOf (unstakeCommitted cur now2 txID userID amount stake pool ua) q =
      stakeAssetOf cur q := by
  unfold stakeAssetOf
  rw [findPool_unstakeCommitted]
  cases findPool cur q with
  | none => rfl
  | some x => by_cases h : x.ID = pool.ID <;> simp [h]

theorem stakedBy_congr {cur db : DB} (hs : cur.stakes = db.stakes)
    (hq : ∀ q, stakeAssetOf cur q = stakeAssetOf db q) (u : Nat) (symbol : String) :
    stakedBy cur u symbol = stakedBy db u symbol := by
  unfold stakedBy
  rw [hs]
  have : (fun s : UserStake => s.UserID == u && stakeAssetOf cur s.PoolID == some symbol) =
      (fun s : UserStake => s.UserID == u && stakeAssetOf db s.PoolID == some symbol) := by
    funext s; rw [hq]
  rw [this]

theorem stakedBy_stakeCommitted (db : DB) (now : Time) (txID : String) (userID poolID : Nat)
    (amount : ℚ) (pool : LaunchPool) (ua : UserAsset) (hp : findPool db poolID = some pool)
    (u : Nat) (symbol : String) :
    stakedBy (stakeCommitted db now txID userID poolID amount pool ua) u symbol =
      stakedBy db u symbol +
        (if userID = u ∧ pool.StakeAsset = symbol then amount else 0) := by
  unfold stakedBy
  have : (fun s : UserStake => s.UserID == u &&
        stakeAssetOf (stakeCommitted db now txID userID poolID amount pool ua) s.PoolID
          == some symbol) =
      (fun s : UserStake => s.UserID == u && stakeAssetOf db s.PoolID == some symbol) := by
    funext s; rw [stakeAssetOf_stakeCommitted]
  rw [this]
  show (((db.stakes ++ [_]).filter _).map UserStake.Amount).sum = _
  rw [amountSum_append_single]
  have hq : stakeAssetOf db poolID = some pool.StakeAsset := by
    unfold stakeAssetOf; rw [hp]; rfl
  congr 1
  by_cases h1 : userID = u <;> by_cases h2 : pool.StakeAsset = symbol <;> simp [h1, h2, hq]

theorem stakedBy_unstakeCommitted (db cur : DB) (now2 : Time) (txID : String)
    (userID poolID : Nat) (amount : ℚ) (stake : UserStake) (pool : LaunchPool) (ua : UserAsset)
    (hnd : (db.stakes.map UserStake.ID).Nodup)
    (hs : findStake db userID poolID = some stake) (hp : findPool db poolID = some pool)
    (hcs : cur.stakes = db.stakes) (hcp : cur.pools = db.pools) (u : Nat) (symbol : String) :
    stakedBy (unstakeCommitted cur now2 txID userID amount stake pool ua) u symbol =
      stakedBy db u symbol -
        (if userID = u ∧ pool.StakeAsset = symbol then amount else 0) := by
  unfold stakedBy
  have : (fun s : UserStake => s.UserID == u &&
        stakeAssetOf (unstakeCommitted cur now2 txID userID amount stake pool ua) s.PoolID
          == some symbol) =
      (fun s : UserStake => s.UserID == u && stakeAssetOf db s.PoolID == some symbol) := by
    funext s; rw [stakeAssetOf_unstakeCommitted, stakeAssetOf_of_pools hcp]
  rw [this]
  have hst := findStake_some hs
  have hq : stakeAssetOf db poolID = some pool.StakeAsset := by
    unfold stakeAssetOf; rw [hp]; rfl
  show (((if stake.Amount = amount then deleteWhereID UserStake.ID stake.ID cur.stakes
      else updateWhereID UserStake.ID stake.ID _ cur.stakes).filter _).map
      UserStake.Amount).sum = _
  rw [hcs, amountSum_unstake
    (fun s : UserStake => s.UserID == u && stakeAssetOf db s.PoolID == some symbol)
    db.stakes stake amount now2 hnd hst.1 rfl]
  congr 1
  rw [hst.2.1, hst.2.2, hq]
  by_cases h1 : userID = u <;> by_cases h2 : pool.StakeAsset = symbol <;> simp [h1, h2]

theorem stakedBy_claimCommitted (db cur : DB) (now2 : Time) (txID : String) (userID : Nat)
    (reward : ℚ) (stake : UserStake) (pool : LaunchPool)
    (hcs : cur.stakes = db.stakes) (hcp : cur.pools = db.pools) (u : Nat) (symbol : String) :
    stakedBy (claimCommitted cur now2 txID userID reward stake pool) u symbol =
      stakedBy db u symbol := by
  unfold stakedBy
  have : (fun s : UserStake => s.UserID == u &&
        stakeAssetOf (claimCommitted cur now2 txID userID reward stake pool) s.PoolID
          == some symbol) =
      (fun s : UserStake => s.UserID == u && stakeAssetOf db s.PoolID == some symbol) := by
    funext s
    rw [show stakeAssetOf (claimCommitted cur now2 txID userID reward stake pool) s.PoolID =
      stakeAssetOf cur s.PoolID from rfl, stakeAssetOf_of_pools hcp]
  rw [this]
  show (((updateWhereID UserStake.ID stake.ID _ cur.stakes).filter _).map
      UserStake.Amount).sum = _
  rw [hcs]
  exact amountSum_update_same
    (fun s : UserStake => s.UserID == u && stakeAssetOf db s.PoolID == some symbol) stake.ID
    (fun r => { r with Reward := 0, LastClaimAt := now2 }) (fun r => ⟨rfl, rfl⟩) db.stakes

theorem findUserAsset_stakeCommitted (db : DB) (now : Time) (txID : String)
    (userID poolID : Nat) (amount : ℚ) (pool : LaunchPool) (ua : UserAsset)
    (u : Nat) (symbol : String) :
    findUserAsset (stakeCommitted db now txID userID poolID amount pool ua) u symbol =
      (findUserAsset db u symbol).map (fun r => if r.ID = ua.ID then
        { r with Balance := r.Balance - amount, Locked := r.Locked + amount } else r) := by
  unfold findUserAsset assetIDsBySymbol stakeCommitted updateWhereID
  apply first_map
  · intro r; by_cases h : r.ID = ua.ID <;> simp [h]
  · intro r; by_cases h : r.ID = ua.ID <;> simp [h]

theorem lockedOf_stakeCommitted_le (db : DB) (now : Time) (txID : String)
    (userID poolID : Nat) (amount : ℚ) (pool : LaunchPool) (ua : UserAsset)
    (hamt : 0 ≤ amount) (u : Nat) (symbol : String) :
    lockedOf db u symbol ≤
      lockedOf (stakeCommitted db now txID userID poolID amount pool ua) u symbol := by
  unfold lockedOf
  rw [findUserAsset_stakeCommitted]
  cases findUserAsset db u symbol with
  | none => exact le_refl _
  | some x => by_cases h : x.ID = ua.ID <;> simp [h, hamt]

theorem lockedOf_stakeCommitted_self (db : DB) (now : Time) (txID : String)
    (userID poolID : Nat) (amount : ℚ) (pool : LaunchPool) (ua : UserAsset)
    (hu : findUserAsset db userID pool.StakeAsset = some ua) :
    lockedOf (stakeCommitted db now txID userID poolID amount pool ua) userID pool.StakeAsset =
      lockedOf db userID pool.StakeAsset + amount := by
  unfold lockedOf
  rw [findUserAsset_stakeCommitted, hu]
  simp

theorem lockedOf_unstakeCommitted (cur : DB) (now2 : Time) (txID : String)
    (userID : Nat) (amount : ℚ) (stake : UserStake) (pool : LaunchPool) (ua : UserAsset)
    (hnd : (cur.userAssets.map UserAsset.ID).Nodup) (hna : (cur.assets.map Asset.ID).Nodup)
    (hu : findUserAsset cur userID pool.StakeAsset = some ua) (u : Nat) (symbol : String) :
    lockedOf (unstakeCommitted cur now2 txID userID amount stake pool ua) u symbol =
      lockedOf cur u symbol -
        (if userID = u ∧ pool.StakeAsset = symbol then amount else 0) := by
  unfold lockedOf
  rw [findUserAsset_unstakeCommitted]
  cases hx : findUserAsset cur u symbol with
  | none =>
    have : ¬(userID = u ∧ pool.StakeAsset = symbol) := by
      rintro ⟨rfl, rfl⟩
      rw [hu] at hx; cases hx
    simp [this]
  | some x =>
    by_cases hc : userID = u ∧ pool.StakeAsset = symbol
    · obtain ⟨rfl, rfl⟩ := hc
      rw [hu] at hx; cases hx
      simp
    · have hid : ¬x.ID = ua.ID := by
        intro hid
        have := findUserAsset_inj hnd hna hx hu hid
        exact hc ⟨this.1.symm, this.2.symm⟩
      simp [hid, hc]

theorem lockedCovers_of_check {db : DB} (h : db.lockedCoversCheck) : db.LockedCovers := by
  intro u A
  by_cases hne : db.stakes.filter
      (fun s => s.UserID == u && stakeAssetOf db s.PoolID == some A) = []
  · have h0 : stakedBy db u A = 0 := by unfold stakedBy; rw [hne]; rfl
    rw [h0]
    unfold lockedOf
    cases hf : findUserAsset db u A with
    | none => exact le_refl _
    | some x => exact h.1 x (findUserAsset_some hf)
  · obtain ⟨s, hs⟩ := List.exists_mem_of_ne_nil _ hne
    have hs' := List.mem_filter.1 hs
    have hp := hs'.2
    simp only [Bool.and_eq_true, beq_iff_eq] at hp
    obtain ⟨hu, hq⟩ := hp
    unfold stakeAssetOf at hq
    cases hfp : findPool db s.PoolID with
    | none => rw [hfp] at hq; cases hq
    | some p =>
      rw [hfp] at hq
      simp only [Option.map_some', Option.some.injEq] at hq
      have := h.2 s hs'.1 p (findPool_some hfp).1
      rw [hu, hq] at this
      exact this

theorem rewardStep_lockedOf {db : DB} {tx : Tx} {userID : Nat} {rewardSymbol : String}
    {reward : ℚ} (hnd : (db.userAssets.map UserAsset.ID).Nodup)
    (h : (if reward > 0 then distributeReward (Begin db) userID rewardSymbol reward
          else .ok (Begin db)) = .ok tx) (u : Nat) (symbol : String) :
    lockedOf tx.cur u symbol = lockedOf db u symbol ∧
      (tx.cur.userAssets.map UserAsset.ID).Nodup := by
  by_cases hr : reward > 0
  · rw [if_pos hr] at h
    exact ⟨lockedOf_distributeReward hnd h u symbol, distributeReward_nodup hnd h⟩
  · rw [if_neg hr] at h; cases h
    exact ⟨rfl, hnd⟩

/-! ## The service with its arithmetic rounded -/

/-! ### With the exact rounding the rounded service is the exact one -/

theorem StakeRounded_id (db : DB) (now : Time) (txID : String) (userID poolID AssetID : Nat)
    (amount : ℚ) :
    StakeRounded id db now txID userID poolID AssetID amount =
      Stake db now txID userID poolID AssetID amount := rfl

theorem calculateRewardRounded_id (now : Time) (stake : UserStake) (pool : LaunchPool) :
    calculateRewardRounded id now stake pool = calculateReward now stake pool := rfl

theorem distributeRewardRounded_id (tx : Tx) (userID : Nat) (assetSymbol : String) (amount : ℚ) :
    distributeRewardRounded id tx userID assetSymbol amount =
      distributeReward tx userID assetSymbol amount := rfl

theorem UnstakeRounded_id (db : DB) (now now2 : Time) (txID : String) (userID poolID : Nat)
    (amount : ℚ) :
    UnstakeRounded id db now now2 txID userID poolID amount =
      Unstake db now now2 txID userID poolID amount := rfl

/-! ### The branches of the rounded operations -/

/-- The balances a successful rounded `Stake` commits. -/
theorem StakeRounded_success (fl : ℚ → ℚ) (db : DB) (now : Time) (txID : String)
    (userID poolID AssetID : Nat) (amount : ℚ)
    (hok : (StakeRounded fl db now txID userID poolID AssetID amount).1 = none) :
    ∃ pool userAsset, findPool db poolID = some pool ∧
      ¬(now < pool.StartTime ∨ pool.EndTime < now) ∧
      findUserAsset db userID pool.StakeAsset = some userAsset ∧ ¬userAsset.Balance < amount ∧
      (StakeRounded fl db now txID userID poolID AssetID amount).2.userAssets =
        updateWhereID UserAsset.ID userAsset.ID
          (fun r => { r with Balance := fl (r.Balance - amount),
                             Locked := fl (r.Locked + amount) }) db.userAssets := by
  unfold StakeRounded at hok ⊢
  simp only [Begin, Tx.Rollback] at hok ⊢
  cases hp : findPool db poolID with
  | none => rw [hp] at hok; simp at hok
  | some pool =>
    rw [hp] at hok
    by_cases hw : now < pool.StartTime ∨ pool.EndTime < now
    · simp [hw] at hok
    · cases hu : findUserAsset db userID pool.StakeAsset with
      | none => simp [hw, hu] at hok
      | some ua =>
        by_cases hb : ua.Balance < amount
        · simp [hw, hu, hb] at hok
        · refine ⟨pool, ua, rfl, hw, hu, hb, ?_⟩
          simp [hw, hu, hb, Tx.Commit, Tx.updateUserAsset, Tx.createStake,
            Tx.updatePool, Tx.createTransaction]

theorem distributeRewardRounded_cases (fl : ℚ → ℚ) (tx : Tx) (userID : Nat)
    (assetSymbol : String) (amount : ℚ) :
    (∃ userAsset, findUserAsset tx.cur userID assetSymbol = some userAsset ∧
      distributeRewardRounded fl tx userID assetSymbol amount =
        .ok (tx.updateUserAsset userAsset.ID
          (fun r => { r with Balance := fl (r.Balance + amount) }))) ∨
    (∃ asset, findUserAsset tx.cur userID assetSymbol = none ∧
      findAsset tx.cur assetSymbol = some asset ∧
      distributeRewardRounded fl tx userID assetSymbol amount =
        .ok (tx.createUserAsset
          { ID := 0, UserID := userID, AssetID := asset.ID, Balance := amount, Locked := 0 })) ∨
    (findUserAsset tx.cur userID assetSymbol = none ∧ findAsset tx.cur assetSymbol = none ∧
      distributeRewardRounded fl tx userID assetSymbol amount = .error .AssetNotFound) := by
  unfold distributeRewardRounded
  cases hu : findUserAsset tx.cur userID assetSymbol with
  | some ua => left; exact ⟨ua, rfl, rfl⟩
  | none =>
    right
    cases ha : findAsset tx.cur assetSymbol with
    | some asset => left; exact ⟨asset, rfl, rfl, rfl⟩
    | none => right; exact ⟨rfl, rfl, rfl⟩

/-! ### Signs and locked balances under a rounding -/

theorem pow2_pos (e : Int) : 0 < pow2 e := by
  unfold pow2
  split <;> positivity

theorem roundHalfEven_nonneg {r : ℚ} (h : 0 ≤ r) : 0 ≤ roundHalfEven r := by
  have hf : 0 ≤ r.floor := by
    show 0 ≤ ⌊r⌋
    exact Int.floor_nonneg.2 h
  unfold roundHalfEven
  simp only
  split_ifs <;> omega

/-- Rounding to binary64 keeps a non-negative value non-negative. -/
theorem float64_nonneg {q : ℚ} (h : 0 ≤ q) : 0 ≤ float64 q := by
  unfold float64
  split
  · exact le_refl _
  · simp only
    apply mul_nonneg
    · exact_mod_cast roundHalfEven_nonneg (div_nonneg h (le_of_lt (pow2_pos _)))
    · exact le_of_lt (pow2_pos _)

/-- A rounded distribution changes nobody's locked balance and no asset. -/
theorem lockedOf_distributeRewardRounded (fl : ℚ → ℚ) {db : DB} {tx : Tx} {userID : Nat}
    {assetSymbol : String} {amount : ℚ} (hnd : (db.userAssets.map UserAsset.ID).Nodup)
    (h : distributeRewardRounded fl (Begin db) userID assetSymbol amount = .ok tx)
    (u : Nat) (symbol : String) : lockedOf tx.cur u symbol = lockedOf db u symbol := by
  unfold distributeRewardRounded at h
  cases hu : findUserAsset (Begin db).cur userID assetSymbol with
  | some ua =>
    rw [hu] at h
    cases h
    unfold lockedOf
    simp only [Tx.updateUserAsset, Begin]
    rw [findUserAsset_update db ua.ID (fun r => { r with Balance := fl (r.Balance + amount) })
      (fun r => ⟨rfl, rfl, rfl⟩)]
    cases findUserAsset db u symbol with
    | none => rfl
    | some x => by_cases hx : x.ID = ua.ID <;> simp [hx]
  | none =>
    rw [hu] at h
    cases ha : findAsset (Begin db).cur assetSymbol with
    | none => rw [ha] at h; cases h
    | some asset =>
      rw [ha] at h
      cases h
      unfold lockedOf
      simp only [Tx.createUserAsset, Begin]
      cases hf : findUserAsset db u symbol with
      | some x =>
        rw [findUserAsset_create db
          { ID := 0, UserID := userID, AssetID := asset.ID, Balance := amount, Locked := 0 }
          u symbol x hnd hf]
      | none =>
        have hf' := hf
        unfold findUserAsset assetIDsBySymbol at hf' ⊢
        rw [first_append_none_cases UserAsset.ID _ db.userAssets _ hf']
        split <;> simp

/-- The locked balance found after one row of the balance table was updated. -/
theorem lockedOf_of_update {cur cur' : DB} {f : UserAsset → UserAsset} {u : Nat} {symbol : String}
    {ua : UserAsset}
    (hf : ∀ r, (f r).ID = r.ID ∧ (f r).UserID = r.UserID ∧ (f r).AssetID = r.AssetID)
    (h1 : cur'.assets = cur.assets)
    (h2 : cur'.userAssets = updateWhereID UserAsset.ID ua.ID f cur.userAssets)
    (hu : findUserAsset cur u symbol = some ua) : lockedOf cur' u symbol = (f ua).Locked := by
  have e : findUserAsset cur' u symbol =
      findUserAsset { cur with userAssets := updateWhereID UserAsset.ID ua.ID f cur.userAssets }
        u symbol := by
    unfold findUserAsset assetIDsBySymbol
    rw [h1, h2]
  unfold lockedOf
  rw [e, findUserAsset_update cur ua.ID f hf, hu]
  simp

/-- The locked balance a successful rounded `Unstake` leaves in the user's row
of the stake asset. -/
theorem lockedOf_UnstakeRounded (fl : ℚ → ℚ) (db : DB)
    (hnd : (db.userAssets.map UserAsset.ID).Nodup) (now now2 : Time) (txID : String)
    (userID poolID : Nat) (amount : ℚ)
    (hok : (UnstakeRounded fl db now now2 txID userID poolID amount).1 = none) :
    ∃ stake pool, findStake db userID poolID = some stake ∧ ¬stake.Amount < amount ∧
      findPool db poolID = some pool ∧
      lockedOf (UnstakeRounded fl db now now2 txID userID poolID amount).2 userID
          pool.StakeAsset = fl (lockedOf db userID pool.StakeAsset - amount) := by
  unfold UnstakeRounded at hok ⊢
  simp only [Tx.Rollback] at hok ⊢
  cases hs : findStake (Begin db).cur userID poolID with
  | none => rw [hs] at hok; simp at hok
  | some stake =>
    rw [hs] at hok
    simp only at hok ⊢
    by_cases hx : stake.Amount < amount
    · simp [hx] at hok
    · rw [if_neg hx] at hok ⊢
      cases hp : findPool (Begin db).cur poolID with
      | none => rw [hp] at hok; simp at hok
      | some pool =>
        rw [hp] at hok
        simp only at hok ⊢
        refine ⟨stake, pool, hs, hx, hp, ?_⟩
        cases hd : (if calculateRewardRounded fl now stake pool > 0 then
            distributeRewardRounded fl (Begin db) userID pool.RewardAsset
              (calculateRewardRounded fl now stake pool)
            else .ok (Begin db)) with
        | error err => rw [hd] at hok; simp at hok
        | ok tx =>
          rw [hd] at hok
          simp only at hok ⊢
          have hl : lockedOf tx.cur userID pool.StakeAsset =
              lockedOf db userID pool.StakeAsset := by
            by_cases hr : calculateRewardRounded fl now stake pool > 0
            · rw [if_pos hr] at hd
              exact lockedOf_distributeRewardRounded fl hnd hd userID pool.StakeAsset
            · rw [if_neg hr] at hd; cases hd; rfl
          cases hu : findUserAsset tx.cur userID pool.StakeAsset with
          | none => rw [hu] at hok; simp at hok
          | some ua =>
            simp only
            rw [← hl]
            have hl' : lockedOf tx.cur userID pool.StakeAsset = ua.Locked := by
              unfold lockedOf; rw [hu]; rfl
            rw [hl']
            exact @lockedOf_of_update tx.cur _
              (fun r => { r with Balance := fl (r.Balance + amount),
                                 Locked := fl (r.Locked - amount) })
              userID pool.StakeAsset ua (fun r => ⟨rfl, rfl, rfl⟩)
              (by by_cases he : stake.Amount = amount <;>
                    simp [he, Tx.Commit, Tx.updateUserAsset, Tx.deleteStake,
                      Tx.updateStake, Tx.updatePool, Tx.createTransaction])
              (by by_cases he : stake.Amount = amount <;>
                    simp [he, Tx.Commit, Tx.updateUserAsset, Tx.deleteStake,
                      Tx.updateStake, Tx.updatePool, Tx.createTransaction])
              hu

/-- A found position is one of the summands of `stakedBy`. -/
theorem le_stakedBy {db : DB} {userID poolID : Nat} {stake : UserStake} {pool : LaunchPool}
    (hpos : ∀ s ∈ db.stakes, 0 ≤ s.Amount)
    (hs : findStake db userID poolID = some stake) (hp : findPool db poolID = some pool) :
    stake.Amount ≤ stakedBy db userID pool.StakeAsset := by
  have hst := findStake_some hs
  have hq : stakeAssetOf db stake.PoolID = some pool.StakeAsset := by
    unfold stakeAssetOf; rw [hst.2.2, hp]; rfl
  have hmem : stake.Amount ∈ (db.stakes.filter (fun s => s.UserID == userID &&
      stakeAssetOf db s.PoolID == some pool.StakeAsset)).map UserStake.Amount := by
    apply List.mem_map_of_mem
    rw [List.mem_filter]
    exact ⟨hst.1, by simp [hst.2.1, hq]⟩
  unfold stakedBy
  apply List.single_le_sum _ _ hmem
  intro x hxm
  obtain ⟨s, hsm, rfl⟩ := List.mem_map.1 hxm
  exact hpos s (List.mem_filter.1 hsm).1

/-! ## The claims -/

/-- C1. Aggregate consistency is an invariant of the ledger: from a database
that satisfies its schema and in which every pool's `totalStaked` is the sum of
the amounts of its positions, the database left by any `Stake`, `Unstake` or
`ClaimReward` call (committed on success, rolled back on error) has the same
property, whatever the arguments. -/
theorem aggregate_consistency_preserved (db : DB)
    (hwf : db.WF) (hc : db.AggregateConsistent)
    (now now2 : Time) (txID : String) (userID poolID AssetID : Nat) (amount : ℚ) :
    (Stake db now txID userID poolID AssetID amount).2.AggregateConsistent ∧
    (Unstake db now now2 txID userID poolID amount).2.AggregateConsistent ∧
    (ClaimReward db now now2 txID userID poolID).2.AggregateConsistent := by
  have hnd : (db.stakes.map UserStake.ID).Nodup := hwf.2.2.2.1.1
  refine ⟨?_, ?_, ?_⟩
  · rcases Stake_cases db now txID userID poolID AssetID amount with
      ⟨_, e⟩ | ⟨_, _, _, e⟩ | ⟨_, _, _, _, e⟩ | ⟨_, _, _, _, _, _, e⟩ | ⟨pool, ua, hp, _, _, _, e⟩
    · rw [e]; exact hc
    · rw [e]; exact hc
    · rw [e]; exact hc
    · rw [e]; exact hc
    · rw [e]; exact consistent_stakeCommitted db now txID userID poolID amount pool ua hc
        (findPool_some hp).2
  · rcases Unstake_cases db now now2 txID userID poolID amount with
      ⟨_, e⟩ | ⟨_, _, _, e⟩ | ⟨_, _, _, _, e⟩ | ⟨_, _, _, _, _, _, _, _, e⟩ |
      ⟨_, _, _, _, _, _, _, _, e⟩ | ⟨stake, pool, tx, ua, hs, _, hp, hd, _, e⟩
    · rw [e]; exact hc
    · rw [e]; exact hc
    · rw [e]; exact hc
    · rw [e]; exact hc
    · rw [e]; exact hc
    · rw [e]
      have hf := rewardStep_frame hd
      exact consistent_unstakeCommitted db tx.cur now2 txID userID poolID amount stake pool ua
        hnd hc (findStake_some hs).1 (findStake_some hs).2.2 (findPool_some hp).2
        hf.2.2.2.1 hf.2.2.1
  · rcases ClaimReward_cases db now now2 txID userID poolID with
      ⟨_, e⟩ | ⟨_, _, _, e⟩ | ⟨_, _, _, _, _, e⟩ | ⟨_, _, _, _, _, _, _, e⟩ |
      ⟨stake, pool, tx, _, _, _, hd, e⟩
    · rw [e]; exact hc
    · rw [e]; exact hc
    · rw [e]; exact hc
    · rw [e]; exact hc
    · rw [e]
      have hf := distributeReward_frame hd
      exact consistent_claimCommitted db tx.cur now2 txID userID _ stake pool hc
        hf.2.2.2.1 hf.2.2.1

theorem aggregate_consistency_preserved_witness :
    scenarioA.WF ∧ scenarioA.AggregateConsistent ∧
      (Unstake scenarioA Year Year "tx_1" 7 1 500).2.AggregateConsistent :=
  ⟨by decide, by decide!,
    (aggregate_consistency_preserved scenarioA (by decide) (by decide!)
      Year Year "tx_1" 7 1 1 500).2.1⟩

/-- C2 (counterexample). On `uncoveredPosition`, where every balance row is
non-negative, `Unstake` of 50 succeeds and leaves the BTC row with `locked = -50`. -/
theorem nonneg_counterexample :
    uncoveredPosition.WF ∧ uncoveredPosition.NonNegative ∧ (0 : ℚ) < 50 ∧
      (Unstake uncoveredPosition 0 0 "tx_1" 7 1 50).1 = none ∧
      findUserAsset (Unstake uncoveredPosition 0 0 "tx_1" 7 1 50).2 7 "BTC" =
        some ⟨1, 7, 1, 50, -50⟩ ∧
      ¬(Unstake uncoveredPosition 0 0 "tx_1" 7 1 50).2.NonNegative := by
  decide!

/-- C2 (amended). Non-negativity is preserved: from a database that satisfies its
schema and in which every balance row has `available >= 0` and `locked >= 0`,
and for `amount > 0`, each of `Stake`, `Unstake` and `ClaimReward` either fails
and leaves the database unchanged, or succeeds and leaves every balance row
non-negative; for `Unstake` this holds when the pool exists and the user's row
for the pool's stake asset has `locked >= amount`. -/
theorem nonneg_preserved (db : DB) (hwf : db.WF) (hnn : db.NonNegative)
    (now now2 : Time) (txID : String) (userID poolID : Nat) (amount : ℚ) (hamt : 0 < amount) :
    (∀ AssetID,
      ((Stake db now txID userID poolID AssetID amount).1 ≠ none ∧
        (Stake db now txID userID poolID AssetID amount).2 = db) ∨
      ((Stake db now txID userID poolID AssetID amount).1 = none ∧
        (Stake db now txID userID poolID AssetID amount).2.NonNegative)) ∧
    ((∃ pool ua, findPool db poolID = some pool ∧
        findUserAsset db userID pool.StakeAsset = some ua ∧ amount ≤ ua.Locked) →
      ((Unstake db now now2 txID userID poolID amount).1 ≠ none ∧
        (Unstake db now now2 txID userID poolID amount).2 = db) ∨
      ((Unstake db now now2 txID userID poolID amount).1 = none ∧
        (Unstake db now now2 txID userID poolID amount).2.NonNegative)) ∧
    (((ClaimReward db now now2 txID userID poolID).1 ≠ none ∧
        (ClaimReward db now now2 txID userID poolID).2 = db) ∨
      ((ClaimReward db now now2 txID userID poolID).1 = none ∧
        (ClaimReward db now now2 txID userID poolID).2.NonNegative)) := by
  have hnd : (db.userAssets.map UserAsset.ID).Nodup := hwf.2.1.1
  refine ⟨?_, ?_, ?_⟩
  · intro AssetID
    rcases Stake_cases db now txID userID poolID AssetID amount with
      ⟨_, e⟩ | ⟨_, _, _, e⟩ | ⟨_, _, _, _, e⟩ | ⟨_, _, _, _, _, _, e⟩ | ⟨pool, ua, _, _, hu, hb, e⟩
    · left; rw [e]; simp
    · left; rw [e]; simp
    · left; rw [e]; simp
    · left; rw [e]; simp
    · right; rw [e]
      refine ⟨rfl, ?_⟩
      simp only [stakeCommitted]
      apply nonneg_update _ _ _ hnn
      intro r hr hid
      have := eq_of_mem_of_ID_eq hnd hr (findUserAsset_some hu) hid
      subst this
      exact ⟨sub_nonneg.2 (not_lt.1 hb), add_nonneg (hnn r hr).2 (le_of_lt hamt)⟩
  · rintro ⟨pool0, ua0, hp0, hu0, hl0⟩
    rcases Unstake_cases db now now2 txID userID poolID amount with
      ⟨_, e⟩ | ⟨_, _, _, e⟩ | ⟨_, _, _, _, e⟩ | ⟨_, _, _, _, _, _, _, _, e⟩ |
      ⟨_, _, _, _, _, _, _, _, e⟩ | ⟨stake, pool, tx, ua, _, _, hp, hd, hu, e⟩
    · left; rw [e]; simp
    · left; rw [e]; simp
    · left; rw [e]; simp
    · left; rw [e]; simp
    · left; rw [e]; simp
    · right; rw [e]
      refine ⟨rfl, ?_⟩
      rw [hp0] at hp; cases hp
      obtain ⟨hnn', ua', hu', hl'⟩ := rewardStep_keeps hnd hnn hu0 hl0 hd
      rw [hu] at hu'; cases hu'
      simp only [unstakeCommitted]
      apply nonneg_update _ _ _ hnn'
      intro r hr hid
      exact ⟨add_nonneg (hnn' r hr).1 (le_of_lt hamt), sub_nonneg.2 (hl' r hr hid)⟩
  · rcases ClaimReward_cases db now now2 txID userID poolID with
      ⟨_, e⟩ | ⟨_, _, _, e⟩ | ⟨_, _, _, _, _, e⟩ | ⟨_, _, _, _, _, _, _, e⟩ |
      ⟨stake, pool, tx, _, _, hr, hd, e⟩
    · left; rw [e]; simp
    · left; rw [e]; simp
    · left; rw [e]; simp
    · left; rw [e]; simp
    · right; rw [e]
      refine ⟨rfl, ?_⟩
      simp only [claimCommitted]
      exact @distributeReward_nonneg (Begin db) _ _ _ _ hnn (le_of_lt (not_le.1 hr)) hd

theorem nonneg_preserved_witness :
    scenarioA.WF ∧ scenarioA.NonNegative ∧
      (Unstake scenarioA Year Year "tx_1" 7 1 500).1 = none ∧
      (Unstake scenarioA Year Year "tx_1" 7 1 500).2.NonNegative :=
  ⟨by decide, by decide!, by decide!,
    ((nonneg_preserved scenarioA (by decide) (by decide!) Year Year "tx_1" 7 1 500
        (by decide!)).2.1
      ⟨poolA, ⟨1, 7, 1, 0, 1000⟩, by decide!, by decide!, by decide!⟩).resolve_left
        (by decide!) |>.2⟩

/-- C3 (counterexample). In binary64, `Stake` of 0.1 on a row with 10 available
and 0.5 locked succeeds and leaves 9.9000000000000003553 available and
0.59999999999999997780 locked: neither change is the amount staked, and the sum
of the two is no longer 10.5. -/
theorem stake_conserves_counterexample :
    halfLockedLedger.WF ∧ float64 10 = 10 ∧ float64 (1 / 2) = 1 / 2 ∧
      float64 (1 / 10) = 3602879701896397 / 36028797018963968 ∧
      (StakeRounded float64 halfLockedLedger 0 "tx_1" 7 1 1 (float64 (1 / 10))).1 = none ∧
      availableOf halfLockedLedger 7 "BTC" = 10 ∧ lockedOf halfLockedLedger 7 "BTC" = 1 / 2 ∧
      availableOf (StakeRounded float64 halfLockedLedger 0 "tx_1" 7 1 1 (float64 (1 / 10))).2
        7 "BTC" = 5573204538870989 / 562949953421312 ∧
      lockedOf (StakeRounded float64 halfLockedLedger 0 "tx_1" 7 1 1 (float64 (1 / 10))).2
        7 "BTC" = 5404319552844595 / 9007199254740992 ∧
      (10 : ℚ) - 5573204538870989 / 562949953421312 ≠ float64 (1 / 10) ∧
      (5404319552844595 / 9007199254740992 : ℚ) - 1 / 2 ≠ float64 (1 / 10) ∧
      (5573204538870989 / 562949953421312 : ℚ) + 5404319552844595 / 9007199254740992 ≠
        10 + 1 / 2 := by
  decide!

/-- C3 (amended). Stake conserves funds up to the rounding of its arithmetic:
when `Stake`, computing with any rounding `fl`, succeeds on a database that
satisfies its schema, the table of balances is the old one with exactly one row
replaced, the user's row for the pool's stake asset, whose `available` becomes
`fl (available - amount)` and whose `locked` becomes `fl (locked + amount)`;
every other row is unchanged; and when neither result is rounded the sum of
`available` and `locked` is unchanged. -/
theorem stake_conserves (fl : ℚ → ℚ) (db : DB) (hwf : db.WF) (now : Time) (txID : String)
    (userID poolID AssetID : Nat) (amount : ℚ)
    (hok : (StakeRounded fl db now txID userID poolID AssetID amount).1 = none) :
    ∃ pool ua l₁ l₂, findPool db poolID = some pool ∧
      findUserAsset db userID pool.StakeAsset = some ua ∧
      db.userAssets = l₁ ++ ua :: l₂ ∧
      (StakeRounded fl db now txID userID poolID AssetID amount).2.userAssets =
        l₁ ++ { ua with Balance := fl (ua.Balance - amount),
                        Locked := fl (ua.Locked + amount) } :: l₂ ∧
      (fl (ua.Balance - amount) = ua.Balance - amount →
        fl (ua.Locked + amount) = ua.Locked + amount →
        fl (ua.Balance - amount) + fl (ua.Locked + amount) = ua.Balance + ua.Locked) := by
  have hnd : (db.userAssets.map UserAsset.ID).Nodup := hwf.2.1.1
  obtain ⟨pool, ua, hp, _, hu, _, e⟩ :=
    StakeRounded_success fl db now txID userID poolID AssetID amount hok
  obtain ⟨l₁, l₂, hsplit, h₁, h₂⟩ :=
    split_at_key UserAsset.ID db.userAssets ua hnd (findUserAsset_some hu)
  refine ⟨pool, ua, l₁, l₂, hp, hu, hsplit, ?_, ?_⟩
  · rw [e, hsplit, updateWhereID_split UserAsset.ID _ l₁ l₂ ua h₁ h₂]
  · intro e₁ e₂
    rw [e₁, e₂]; ring

theorem stake_conserves_witness :
    halfLockedLedger.WF ∧
      (StakeRounded float64 halfLockedLedger 0 "tx_1" 7 1 1 (float64 (1 / 10))).1 = none ∧
      ∃ pool ua l₁ l₂, findPool halfLockedLedger 1 = some pool ∧
        findUserAsset halfLockedLedger 7 pool.StakeAsset = some ua ∧
        halfLockedLedger.userAssets = l₁ ++ ua :: l₂ ∧
        (StakeRounded float64 halfLockedLedger 0 "tx_1" 7 1 1 (float64 (1 / 10))).2.userAssets =
          l₁ ++ { ua with Balance := float64 (ua.Balance - float64 (1 / 10)),
                          Locked := float64 (ua.Locked + float64 (1 / 10)) } :: l₂ ∧
        (float64 (ua.Balance - float64 (1 / 10)) = ua.Balance - float64 (1 / 10) →
          float64 (ua.Locked + float64 (1 / 10)) = ua.Locked + float64 (1 / 10) →
          float64 (ua.Balance - float64 (1 / 10)) + float64 (ua.Locked + float64 (1 / 10)) =
            ua.Balance + ua.Locked) :=
  ⟨by decide, by decide!,
    stake_conserves float64 halfLockedLedger (by decide) 0 "tx_1" 7 1 1 (float64 (1 / 10))
      (by decide!)⟩

/-- C4. Every operation is atomic on failure: whenever `Stake`, `Unstake` or
`ClaimReward` returns an error, the database after the call (balances,
positions, pool totals and trail) is the database before it. In particular an
`Unstake` whose reward has been distributed inside the unit of work and whose
stake-asset balance lookup then fails returns `AssetNotFound` and leaves the
database, the reward-asset balance included, unchanged. -/
theorem failure_is_atomic (db : DB) (now now2 : Time) (txID : String)
    (userID poolID AssetID : Nat) (amount : ℚ) :
    ((Stake db now txID userID poolID AssetID amount).1 ≠ none →
      (Stake db now txID userID poolID AssetID amount).2 = db) ∧
    ((Unstake db now now2 txID userID poolID amount).1 ≠ none →
      (Unstake db now now2 txID userID poolID amount).2 = db) ∧
    ((ClaimReward db now now2 txID userID poolID).1 ≠ none →
      (ClaimReward db now now2 txID userID poolID).2 = db) ∧
    (∀ stake pool tx, findStake db userID poolID = some stake → ¬stake.Amount < amount →
      findPool db poolID = some pool → calculateReward now stake pool > 0 →
      distributeReward (Begin db) userID pool.RewardAsset (calculateReward now stake pool)
        = .ok tx →
      findUserAsset tx.cur userID pool.StakeAsset = none →
      Unstake db now now2 txID userID poolID amount = (some .AssetNotFound, db)) := by
  refine ⟨?_, ?_, ?_, ?_⟩
  · intro h
    rcases Stake_cases db now txID userID poolID AssetID amount with
      ⟨_, e⟩ | ⟨_, _, _, e⟩ | ⟨_, _, _, _, e⟩ | ⟨_, _, _, _, _, _, e⟩ | ⟨_, _, _, _, _, _, e⟩
    · rw [e]
    · rw [e]
    · rw [e]
    · rw [e]
    · rw [e] at h; exact absurd rfl h
  · intro h
    rcases Unstake_cases db now now2 txID userID poolID amount with
      ⟨_, e⟩ | ⟨_, _, _, e⟩ | ⟨_, _, _, _, e⟩ | ⟨_, _, _, _, _, _, _, _, e⟩ |
      ⟨_, _, _, _, _, _, _, _, e⟩ | ⟨_, _, _, _, _, _, _, _, _, e⟩
    · rw [e]
    · rw [e]
    · rw [e]
    · rw [e]
    · rw [e]
    · rw [e] at h; exact absurd rfl h
  · intro h
    rcases ClaimReward_cases db now now2 txID userID poolID with
      ⟨_, e⟩ | ⟨_, _, _, e⟩ | ⟨_, _, _, _, _, e⟩ | ⟨_, _, _, _, _, _, _, e⟩ |
      ⟨_, _, _, _, _, _, _, e⟩
    · rw [e]
    · rw [e]
    · rw [e]
    · rw [e]
    · rw [e] at h; exact absurd rfl h
  · intro stake pool tx hs hx hp hr hd hu
    rcases Unstake_cases db now now2 txID userID poolID amount with
      ⟨h1, _⟩ | ⟨s, h1, h2, _⟩ | ⟨s, _, _, h1, _⟩ | ⟨s, p, err, h1, _, h2, _, h3, _⟩ |
      ⟨s, p, t, h1, _, h2, h3, h4, e⟩ | ⟨s, p, t, ua, h1, _, h2, h3, h4, _⟩
    · rw [hs] at h1; cases h1
    · rw [hs] at h1; cases h1; exact absurd h2 hx
    · rw [hp] at h1; cases h1
    · rw [hs] at h1; cases h1; rw [hp] at h2; cases h2; rw [hd] at h3; cases h3
    · exact e
    · rw [hs] at h1; cases h1; rw [hp] at h2; cases h2
      rw [if_pos hr, hd] at h3; cases h3
      rw [hu] at h4; cases h4

theorem failure_is_atomic_witness :
    distributeReward (Begin noStakeRow) 7 "GOAT" 100 =
        .ok ⟨noStakeRow, { noStakeRow with userAssets := [⟨1, 7, 2, 105, 0⟩] }⟩ ∧
      Unstake noStakeRow Year Year "tx_1" 7 1 500 = (some .AssetNotFound, noStakeRow) :=
  ⟨by with_unfolding_all rfl,
    (failure_is_atomic noStakeRow Year Year "tx_1" 7 1 1 500).2.2.2
      position1000 poolA
      ⟨noStakeRow, { noStakeRow with userAssets := [⟨1, 7, 2, 105, 0⟩] }⟩
      (by decide!) (by decide!) (by decide!) (by decide!) (by with_unfolding_all rfl) (by decide!)⟩

/-- C5. `Stake` succeeds exactly when the pool exists, `startTime <= now <=
endTime`, the user has a balance row for the pool's stake asset and that row has
`available >= amount`. Otherwise it fails, leaving the database unchanged, with
the first of `PoolNotFound`, `PoolNotActive`, `AssetNotFound`,
`InsufficientBalance` whose condition is violated; in particular a stake into a
pool whose `startTime` is in the future fails with `PoolNotActive`. -/
theorem stake_outcome (db : DB) (now : Time) (txID : String) (userID poolID AssetID : Nat)
    (amount : ℚ) :
    ((Stake db now txID userID poolID AssetID amount).1 = none ↔
      ∃ pool ua, findPool db poolID = some pool ∧ pool.StartTime ≤ now ∧ now ≤ pool.EndTime ∧
        findUserAsset db userID pool.StakeAsset = some ua ∧ amount ≤ ua.Balance) ∧
    (findPool db poolID = none →
      Stake db now txID userID poolID AssetID amount = (some .PoolNotFound, db)) ∧
    (∀ pool, findPool db poolID = some pool → (now < pool.StartTime ∨ pool.EndTime < now) →
      Stake db now txID userID poolID AssetID amount = (some .PoolNotActive, db)) ∧
    (∀ pool, findPool db poolID = some pool → pool.StartTime ≤ now → now ≤ pool.EndTime →
      findUserAsset db userID pool.StakeAsset = none →
      Stake db now txID userID poolID AssetID amount = (some .AssetNotFound, db)) ∧
    (∀ pool ua, findPool db poolID = some pool → pool.StartTime ≤ now → now ≤ pool.EndTime →
      findUserAsset db userID pool.StakeAsset = some ua → ua.Balance < amount →
      Stake db now txID userID poolID AssetID amount = (some .InsufficientBalance, db)) := by
  rcases Stake_cases db now txID userID poolID AssetID amount with
    ⟨hp, e⟩ | ⟨pool, hp, hw, e⟩ | ⟨pool, hp, hw, hu, e⟩ | ⟨pool, ua, hp, hw, hu, hb, e⟩ |
    ⟨pool, ua, hp, hw, hu, hb, e⟩
  · refine ⟨?_, fun _ => e, ?_, ?_, ?_⟩
    · rw [e]
      constructor
      · intro h; cases h
      · rintro ⟨p, _, h, _⟩; rw [hp] at h; cases h
    · intro p h; rw [hp] at h; cases h
    · intro p h; rw [hp] at h; cases h
    · intro p _ h; rw [hp] at h; cases h
  · refine ⟨?_, ?_, ?_, ?_, ?_⟩
    · rw [e]
      constructor
      · intro h; cases h
      · rintro ⟨p, _, h, h1, h2, _⟩
        rw [hp] at h; cases h
        rcases hw with hw | hw
        · exact absurd h1 (not_le.2 hw)
        · exact absurd h2 (not_le.2 hw)
    · intro h; rw [hp] at h; cases h
    · intro p h _; rw [hp] at h; cases h; exact e
    · intro p h h1 h2 _; rw [hp] at h; cases h
      rcases hw with hw | hw
      · exact absurd h1 (not_le.2 hw)
      · exact absurd h2 (not_le.2 hw)
    · intro p _ h h1 h2 _; rw [hp] at h; cases h
      rcases hw with hw | hw
      · exact absurd h1 (not_le.2 hw)
      · exact absurd h2 (not_le.2 hw)
  · refine ⟨?_, ?_, ?_, ?_, ?_⟩
    · rw [e]
      constructor
      · intro h; cases h
      · rintro ⟨p, _, h, _, _, h3, _⟩
        rw [hp] at h; cases h; rw [hu] at h3; cases h3
    · intro h; rw [hp] at h; cases h
    · intro p h hw'; rw [hp] at h; cases h; exact absurd hw' hw
    · intro p h _ _ _; rw [hp] at h; cases h; exact e
    · intro p _ h _ _ h3; rw [hp] at h; cases h; rw [hu] at h3; cases h3
  · refine ⟨?_, ?_, ?_, ?_, ?_⟩
    · rw [e]
      constructor
      · intro h; cases h
      · rintro ⟨p, a, h, _, _, h3, h4⟩
        rw [hp] at h; cases h; rw [hu] at h3; cases h3
        exact absurd hb (not_lt.2 h4)
    · intro h; rw [hp] at h; cases h
    · intro p h hw'; rw [hp] at h; cases h; exact absurd hw' hw
    · intro p h _ _ h3; rw [hp] at h; cases h; rw [hu] at h3; cases h3
    · intro p a h _ _ h3 _; rw [hp] at h; cases h; rw [hu] at h3; cases h3; exact e
  · have hw' := not_or.1 hw
    refine ⟨?_, ?_, ?_, ?_, ?_⟩
    · rw [e]
      exact ⟨fun _ => ⟨pool, ua, hp, not_lt.1 hw'.1, not_lt.1 hw'.2, hu, not_lt.1 hb⟩,
        fun _ => rfl⟩
    · intro h; rw [hp] at h; cases h
    · intro p h hw''; rw [hp] at h; cases h; exact absurd hw'' hw
    · intro p h _ _ h3; rw [hp] at h; cases h; rw [hu] at h3; cases h3
    · intro p a h _ _ h3 h4; rw [hp] at h; cases h; rw [hu] at h3; cases h3
      exact absurd h4 hb

theorem stake_outcome_witness :
    Stake scenarioB 0 "tx_1" 7 1 1 1000 = (some .PoolNotActive, scenarioB) :=
  (stake_outcome scenarioB 0 "tx_1" 7 1 1 1000).2.2.1
    poolB (by decide!) (Or.inl (by decide))

/-- C6 (counterexample). In `sameAssetLedger` the pool pays its reward in the
staked asset; unstaking 500 of 1000 after one year computes the reward 100 and
leaves the BTC row with `available = 600`, which is not the former 0 raised by
the reward 100. -/
theorem partial_unstake_counterexample :
    sameAssetLedger.WF ∧
      findStake sameAssetLedger 7 1 = some position1000 ∧
      findPool sameAssetLedger 1 = some poolSameAsset ∧
      findUserAsset sameAssetLedger 7 poolSameAsset.RewardAsset = some ⟨1, 7, 1, 0, 1000⟩ ∧
      findUserAsset sameAssetLedger 7 poolSameAsset.StakeAsset = some ⟨1, 7, 1, 0, 1000⟩ ∧
      calculateReward Year position1000 poolSameAsset = 100 ∧
      (Unstake sameAssetLedger Year Year "tx_1" 7 1 500).1 = none ∧
      findUserAsset (Unstake sameAssetLedger Year Year "tx_1" 7 1 500).2 7
        poolSameAsset.RewardAsset = some ⟨1, 7, 1, 600, 500⟩ ∧
      (600 : ℚ) ≠ 0 + 100 := by
  decide!

/-- C6 (amended). Partial unstake pays the whole position's accrual: with a
position `p` found for (user, pool), the pool, balance rows for the stake and
the reward asset, `0 < amount < p.amount` and `r = reward(p, pool, now) > 0`,
`Unstake` succeeds and leaves: the reward-asset row with `available` raised by
`r`, the stake-asset row with `available` raised by `amount` and `locked`
lowered by `amount` (when both assets are held in one row, that row has
`available` raised by `r + amount` and `locked` lowered by `amount`), the
position with `amount = p.amount - amount`, `reward = 0` and `lastClaimAt` the
instant read for the update, and the pool with `totalStaked` lowered by
`amount`. -/
theorem partial_unstake_pays_whole_accrual (db : DB) (now now2 : Time) (txID : String)
    (userID poolID : Nat) (amount : ℚ) (p : UserStake) (pool : LaunchPool)
    (uaS uaR : UserAsset)
    (hs : findStake db userID poolID = some p) (hp : findPool db poolID = some pool)
    (huS : findUserAsset db userID pool.StakeAsset = some uaS)
    (huR : findUserAsset db userID pool.RewardAsset = some uaR)
    (hamt : 0 < amount) (hlt : amount < p.Amount) (hr : 0 < calculateReward now p pool) :
    (Unstake db now now2 txID userID poolID amount).1 = none ∧
    findUserAsset (Unstake db now now2 txID userID poolID amount).2 userID pool.RewardAsset =
      some (if uaR.ID = uaS.ID then
          { uaR with Balance := uaR.Balance + calculateReward now p pool + amount,
                     Locked := uaR.Locked - amount }
        else { uaR with Balance := uaR.Balance + calculateReward now p pool }) ∧
    findUserAsset (Unstake db now now2 txID userID poolID amount).2 userID pool.StakeAsset =
      some (if uaS.ID = uaR.ID then
          { uaS with Balance := uaS.Balance + calculateReward now p pool + amount,
                     Locked := uaS.Locked - amount }
        else { uaS with Balance := uaS.Balance + amount, Locked := uaS.Locked - amount }) ∧
    findStake (Unstake db now now2 txID userID poolID amount).2 userID poolID =
      some { p with Amount := p.Amount - amount, Reward := 0, LastClaimAt := now2 } ∧
    findPool (Unstake db now now2 txID userID poolID amount).2 poolID =
      some { pool with TotalStaked := pool.TotalStaked - amount } := by
  have hx : ¬p.Amount < amount := not_lt.2 (le_of_lt hlt)
  have hne : ¬p.Amount = amount := ne_of_gt hlt
  -- the reward step credits the reward row
  have hd : (if calculateReward now p pool > 0 then
        distributeReward (Begin db) userID pool.RewardAsset (calculateReward now p pool)
      else .ok (Begin db)) =
      .ok ((Begin db).updateUserAsset uaR.ID
        (fun r => { r with Balance := r.Balance + calculateReward now p pool })) := by
    rw [if_pos hr]
    rcases distributeReward_cases (Begin db) userID pool.RewardAsset (calculateReward now p pool)
      with ⟨ua, h1, e⟩ | ⟨_, h1, _, _⟩ | ⟨h1, _, _⟩
    · rw [show (Begin db).cur = db from rfl, huR] at h1; cases h1; exact e
    · rw [show (Begin db).cur = db from rfl, huR] at h1; cases h1
    · rw [show (Begin db).cur = db from rfl, huR] at h1; cases h1
  -- the stake row is found again after it
  have hfind : ∀ symbol, findUserAsset ((Begin db).updateUserAsset uaR.ID
        (fun r => { r with Balance := r.Balance + calculateReward now p pool })).cur
        userID symbol =
      (findUserAsset db userID symbol).map (fun r => if r.ID = uaR.ID then
        { r with Balance := r.Balance + calculateReward now p pool } else r) := by
    intro symbol
    exact findUserAsset_update db uaR.ID
      (fun r => { r with Balance := r.Balance + calculateReward now p pool })
      (fun r => ⟨rfl, rfl, rfl⟩) userID symbol
  have hu := hfind pool.StakeAsset
  rw [huS, Option.map_some'] at hu
  have e := Unstake_success now2 txID hs hx hp hd hu
  rw [e]
  refine ⟨rfl, ?_, ?_, ?_, ?_⟩
  · show findUserAsset (unstakeCommitted _ now2 txID userID amount p pool _) userID _ = _
    rw [findUserAsset_unstakeCommitted, hfind, huR]
    by_cases h : uaR.ID = uaS.ID
    · simp [h, add_assoc]
    · have h' : ¬uaS.ID = uaR.ID := fun e => h e.symm
      simp [h, h']
  · show findUserAsset (unstakeCommitted _ now2 txID userID amount p pool _) userID _ = _
    rw [findUserAsset_unstakeCommitted, hfind, huS]
    by_cases h : uaS.ID = uaR.ID
    · simp [h, add_assoc]
    · simp [h]
  · show findStake (unstakeCommitted _ now2 txID userID amount p pool _) userID poolID = _
    rw [findStake_unstakeCommitted _ _ _ _ _ _ _ _ _ _ hne]
    show Option.map _ (findStake db userID poolID) = _
    rw [hs]; simp
  · show findPool (unstakeCommitted _ now2 txID userID amount p pool _) poolID = _
    rw [findPool_unstakeCommitted]
    show Option.map _ (findPool db poolID) = _
    rw [hp]; simp

theorem partial_unstake_pays_whole_accrual_witness :
    calculateReward Year position1000 poolA = 100 ∧
      (Unstake scenarioA Year Year "tx_1" 7 1 500).2.stakes = [⟨1, 7, 1, 500, 0, 0, Year⟩] ∧
      ((Unstake scenarioA Year Year "tx_1" 7 1 500).1 = none ∧
      findUserAsset (Unstake scenarioA Year Year "tx_1" 7 1 500).2 7 poolA.RewardAsset =
        some (if (2 : Nat) = 1 then
            ⟨2, 7, 2, 0 + calculateReward Year position1000 poolA + 500, 0 - 500⟩
          else ⟨2, 7, 2, 0 + calculateReward Year position1000 poolA, 0⟩) ∧
      findUserAsset (Unstake scenarioA Year Year "tx_1" 7 1 500).2 7 poolA.StakeAsset =
        some (if (1 : Nat) = 2 then
            ⟨1, 7, 1, 0 + calculateReward Year position1000 poolA + 500, 1000 - 500⟩
          else ⟨1, 7, 1, 0 + 500, 1000 - 500⟩) ∧
      findStake (Unstake scenarioA Year Year "tx_1" 7 1 500).2 7 1 =
        some { position1000 with
          Amount := position1000.Amount - 500, Reward := 0, LastClaimAt := Year } ∧
      findPool (Unstake scenarioA Year Year "tx_1" 7 1 500).2 1 =
        some { poolA with TotalStaked := poolA.TotalStaked - 500 }) :=
  ⟨by decide!, by decide!,
    partial_unstake_pays_whole_accrual scenarioA Year Year "tx_1" 7 1 500
      position1000 poolA ⟨1, 7, 1, 0, 1000⟩ ⟨2, 7, 2, 0, 0⟩
      (by decide!) (by decide!) (by decide!) (by decide!) (by decide!) (by decide!) (by decide!)⟩

/-- C7 (counterexample). Three hundred years after the last claim, inside the
pool's life, the elapsed time no longer fits a `Duration`: `calculateReward`
computes on `maxDuration` (about 292.47 years) while the reference formula gives
the reward of three hundred years, 30000. -/
theorem calculateReward_counterexample :
    calculateReward (300 * Year) position1000 centuryPool =
        1000 * (1 / 10) * ((maxDuration : ℚ) / 3600000000000 / 24 / 365) ∧
      rewardSpec (300 * Year) position1000 centuryPool = 30000 ∧
      calculateReward (300 * Year) position1000 centuryPool ≠
        rewardSpec (300 * Year) position1000 centuryPool := by
  decide!

/-- C7 (amended). The reward calculator equals its reference formula while the
elapsed time fits a `Duration`: when `min(now, endTime) - lastClaimAt` lies
between `minDuration` and `maxDuration`, `calculateReward` is `rewardSpec`, that
is `amount * apy * ((min(now, endTime) - lastClaimAt) in hours / 24 / 365)`; in
every case it is that formula on the saturated difference `Time.Sub`; and its
value at any instant at or after `endTime` is its value at `endTime`. -/
theorem calculateReward_refines_spec (now : Time) (position : UserStake) (pool : LaunchPool) :
    (minDuration ≤ min now pool.EndTime - position.LastClaimAt →
      min now pool.EndTime - position.LastClaimAt ≤ maxDuration →
      calculateReward now position pool = rewardSpec now position pool) ∧
    calculateReward now position pool =
      position.Amount * pool.APY *
        ((Time.Sub (min now pool.EndTime) position.LastClaimAt : ℚ)
          / 3600000000000 / 24 / 365) ∧
    ∀ later : Time, pool.EndTime ≤ later →
      calculateReward later position pool = calculateReward pool.EndTime position pool := by
  refine ⟨?_, calculateReward_eq now position pool, ?_⟩
  · intro h₁ h₂
    rw [calculateReward_eq, Time.Sub_eq h₁ h₂]
    rfl
  · intro later h
    rw [calculateReward_eq, calculateReward_eq, min_eq_right h, min_self]

theorem calculateReward_refines_spec_witness :
    calculateReward Year position1000 poolA = rewardSpec Year position1000 poolA ∧
      calculateReward (3 * Year) position1000 poolA =
        calculateReward poolA.EndTime position1000 poolA :=
  ⟨(calculateReward_refines_spec Year position1000 poolA).1 (by decide) (by decide),
    (calculateReward_refines_spec Year position1000 poolA).2.2 (3 * Year) (by decide)⟩

/-- C8 (counterexample). With an APY of -0.10 the reward of a position of 1000
falls from 0 at its last claim to -100 one year later, inside the pool's life. -/
theorem reward_monotone_counterexample :
    position1000.LastClaimAt ≤ 0 ∧ (0 : Time) ≤ Year ∧ Year ≤ negativeYieldPool.EndTime ∧
      calculateReward 0 position1000 negativeYieldPool = 0 ∧
      calculateReward Year position1000 negativeYieldPool = -100 ∧
      ¬(calculateReward Year position1000 negativeYieldPool ≥
          calculateReward 0 position1000 negativeYieldPool) := by
  decide!

/-- C8 (amended). Reward is monotone in time when `amount * apy >= 0`: for all
instants `lastClaimAt <= t1 <= t2 <= endTime`,
`reward(position, pool, t2) >= reward(position, pool, t1)`. -/
theorem reward_monotone (position : UserStake) (pool : LaunchPool) (t1 t2 : Time)
    (hsign : 0 ≤ position.Amount * pool.APY)
    (h0 : position.LastClaimAt ≤ t1) (h12 : t1 ≤ t2) (hend : t2 ≤ pool.EndTime) :
    calculateReward t2 position pool ≥ calculateReward t1 position pool := by
  rw [calculateReward_eq, calculateReward_eq, ge_iff_le]
  apply mul_le_mul_of_nonneg_left _ hsign
  have hm : min t1 pool.EndTime ≤ min t2 pool.EndTime := min_le_min_right _ h12
  have hq : (Time.Sub (min t1 pool.EndTime) position.LastClaimAt : ℚ) ≤
      (Time.Sub (min t2 pool.EndTime) position.LastClaimAt : ℚ) := by
    exact_mod_cast Time.Sub_mono position.LastClaimAt hm
  have h24 : (0 : ℚ) < 3600000000000 := by norm_num
  gcongr

theorem reward_monotone_witness :
    calculateReward Year position1000 poolA ≥ calculateReward 0 position1000 poolA :=
  reward_monotone position1000 poolA 0 Year
    (by decide!) (by decide) (by decide) (by decide)

/-- C9 (counterexample). After two stakes into the same pool the user holds two
positions there; the full unstake of the one found leaves the other, so a
following `Unstake` and a following `ClaimReward` both succeed. -/
theorem full_unstake_counterexample :
    stakedTwice.WF ∧
      findStake stakedTwice 7 1 = some position1000 ∧
      (Unstake stakedTwice Year Year "tx_3" 7 1 1000).1 = none ∧
      (Unstake (Unstake stakedTwice Year Year "tx_3" 7 1 1000).2 Year Year "tx_4" 7 1 1000).1
        = none ∧
      (ClaimReward (Unstake stakedTwice Year Year "tx_3" 7 1 1000).2 Year Year "tx_4" 7 1).1
        = none := by
  decide!

/-- C9 (amended). Full unstake is a final cleanup when the position is the only
one of (user, pool): if `Unstake` succeeds with `amount` equal to that
position's amount, no position of (user, pool) remains, and every following
`Unstake` or `ClaimReward` for (user, pool) fails with `StakeNotFound`, leaving
the database as it is. -/
theorem full_unstake_cleans_up (db : DB) (now now2 : Time) (txID : String)
    (userID poolID : Nat) (amount : ℚ) (position : UserStake)
    (honly : db.stakes.filter (fun s => s.UserID == userID && s.PoolID == poolID) = [position])
    (hfull : amount = position.Amount)
    (hok : (Unstake db now now2 txID userID poolID amount).1 = none) :
    (Unstake db now now2 txID userID poolID amount).2.stakes.filter
        (fun s => s.UserID == userID && s.PoolID == poolID) = [] ∧
    (∀ (now' now2' : Time) (txID' : String) (amount' : ℚ),
      Unstake (Unstake db now now2 txID userID poolID amount).2 now' now2' txID' userID poolID
          amount'
        = (some .StakeNotFound, (Unstake db now now2 txID userID poolID amount).2)) ∧
    (∀ (now' now2' : Time) (txID' : String),
      ClaimReward (Unstake db now now2 txID userID poolID amount).2 now' now2' txID' userID poolID
        = (some .StakeNotFound, (Unstake db now now2 txID userID poolID amount).2)) := by
  have hfs : findStake db userID poolID = some position := by
    unfold findStake first
    rw [honly]; rfl
  have hgone : (Unstake db now now2 txID userID poolID amount).2.stakes.filter
      (fun s => s.UserID == userID && s.PoolID == poolID) = [] := by
    rcases Unstake_cases db now now2 txID userID poolID amount with
      ⟨_, e⟩ | ⟨_, _, _, e⟩ | ⟨_, _, _, _, e⟩ | ⟨_, _, _, _, _, _, _, _, e⟩ |
      ⟨_, _, _, _, _, _, _, _, e⟩ | ⟨s, pool, tx, ua, h1, _, _, hd, _, e⟩
    · rw [e] at hok; cases hok
    · rw [e] at hok; cases hok
    · rw [e] at hok; cases hok
    · rw [e] at hok; cases hok
    · rw [e] at hok; cases hok
    · rw [hfs] at h1; cases h1
      rw [e]
      have hst : tx.cur.stakes = db.stakes := (rewardStep_frame hd).2.2.2.1
      simp only [unstakeCommitted, if_pos hfull.symm, hst, deleteWhereID]
      rw [List.filter_eq_nil_iff]
      intro a ha hpa
      have hmem := List.mem_filter.1 ha
      have hin : a ∈ db.stakes.filter (fun s => s.UserID == userID && s.PoolID == poolID) :=
        List.mem_filter.2 ⟨hmem.1, hpa⟩
      rw [honly, List.mem_singleton] at hin
      subst hin
      simp at hmem
  have hnone : findStake (Unstake db now now2 txID userID poolID amount).2 userID poolID
      = none := by
    unfold findStake first
    rw [hgone]; rfl
  exact ⟨hgone, fun n n2 t a => Unstake_of_no_position n n2 t a hnone,
    fun n n2 t => ClaimReward_of_no_position n n2 t hnone⟩

theorem full_unstake_cleans_up_witness :
    (Unstake scenarioA Year Year "tx_1" 7 1 1000).1 = none ∧
      (Unstake scenarioA Year Year "tx_1" 7 1 1000).2.stakes.filter
        (fun s => s.UserID == 7 && s.PoolID == 1) = [] :=
  ⟨by decide!,
    (full_unstake_cleans_up scenarioA Year Year "tx_1" 7 1 1000 position1000
      (by decide) (by decide!) (by decide!)).1⟩

/-- C10. Over-withdrawal is rejected: when the position found for (user, pool)
has an amount smaller than `amount`, `Unstake` fails with
`UnstakeExceedsPosition` and the database (balances, positions, pool totals and
trail) is unchanged. -/
theorem over_withdrawal_rejected (db : DB) (now now2 : Time) (txID : String)
    (userID poolID : Nat) (amount : ℚ) (position : UserStake)
    (hs : findStake db userID poolID = some position) (hgt : amount > position.Amount) :
    Unstake db now now2 txID userID poolID amount = (some .UnstakeExceedsPosition, db) := by
  rcases Unstake_cases db now now2 txID userID poolID amount with
    ⟨h1, _⟩ | ⟨s, _, _, e⟩ | ⟨s, h1, h2, _⟩ | ⟨s, _, _, h1, h2, _⟩ |
    ⟨s, _, _, h1, h2, _⟩ | ⟨s, _, _, _, h1, h2, _⟩
  · rw [hs] at h1; cases h1
  · exact e
  · rw [hs] at h1; cases h1; exact absurd hgt h2
  · rw [hs] at h1; cases h1; exact absurd hgt h2
  · rw [hs] at h1; cases h1; exact absurd hgt h2
  · rw [hs] at h1; cases h1; exact absurd hgt h2

theorem over_withdrawal_rejected_witness :
    Unstake scenarioA Year Year "tx_1" 7 1 1500 = (some .UnstakeExceedsPosition, scenarioA) :=
  over_withdrawal_rejected scenarioA Year Year "tx_1" 7 1 1500 position1000
    (by decide!) (by decide!)

/-- C11. `ClaimReward` refuses empty claims: when the position and the pool
exist, it fails with `NoRewardToClaim` exactly when the computed reward is zero
or negative, and then the database is unchanged; in particular a claim at
`now = lastClaimAt` of a position last claimed within the pool's life fails so,
and so does a claim made at the instant of the user's first successful stake
into the pool. -/
theorem claim_refuses_empty (db : DB) (now now2 : Time) (txID : String) (userID poolID : Nat) :
    (∀ position pool, findStake db userID poolID = some position →
      findPool db poolID = some pool →
      ((ClaimReward db now now2 txID userID poolID).1 = some .NoRewardToClaim ↔
          calculateReward now position pool ≤ 0) ∧
      (calculateReward now position pool ≤ 0 →
        ClaimReward db now now2 txID userID poolID = (some .NoRewardToClaim, db)) ∧
      (now = position.LastClaimAt → position.LastClaimAt ≤ pool.EndTime →
        ClaimReward db now now2 txID userID poolID = (some .NoRewardToClaim, db))) ∧
    (∀ (txID0 : String) (AssetID : Nat) (amount : ℚ), findStake db userID poolID = none →
      (Stake db now txID0 userID poolID AssetID amount).1 = none →
      ClaimReward (Stake db now txID0 userID poolID AssetID amount).2 now now2 txID userID poolID
        = (some .NoRewardToClaim, (Stake db now txID0 userID poolID AssetID amount).2)) := by
  have key : ∀ (d : DB) (position : UserStake) (pool : LaunchPool),
      findStake d userID poolID = some position → findPool d poolID = some pool →
      ((ClaimReward d now now2 txID userID poolID).1 = some .NoRewardToClaim ↔
          calculateReward now position pool ≤ 0) ∧
      (calculateReward now position pool ≤ 0 →
        ClaimReward d now now2 txID userID poolID = (some .NoRewardToClaim, d)) := by
    intro d position pool hs hp
    rcases ClaimReward_cases d now now2 txID userID poolID with
      ⟨h1, _⟩ | ⟨s, _, h1, _⟩ | ⟨s, p, h1, h2, hr, e⟩ | ⟨s, p, err, h1, h2, hr, hd, e⟩ |
      ⟨s, p, tx, h1, h2, hr, _, e⟩
    · rw [hs] at h1; cases h1
    · rw [hp] at h1; cases h1
    · rw [hs] at h1; cases h1; rw [hp] at h2; cases h2
      exact ⟨⟨fun _ => hr, fun _ => by rw [e]⟩, fun _ => e⟩
    · rw [hs] at h1; cases h1; rw [hp] at h2; cases h2
      refine ⟨⟨?_, fun h => absurd h hr⟩, fun h => absurd h hr⟩
      intro h
      rw [e] at h
      rcases distributeReward_cases (Begin d) userID pool.RewardAsset
          (calculateReward now position pool) with ⟨_, _, e'⟩ | ⟨_, _, _, e'⟩ | ⟨_, _, e'⟩
      · rw [e'] at hd; cases hd
      · rw [e'] at hd; cases hd
      · rw [e'] at hd; cases hd; cases h
    · rw [hs] at h1; cases h1; rw [hp] at h2; cases h2
      refine ⟨⟨?_, fun h => absurd h hr⟩, fun h => absurd h hr⟩
      intro h; rw [e] at h; cases h
  refine ⟨?_, ?_⟩
  · intro position pool hs hp
    refine ⟨(key db position pool hs hp).1, (key db position pool hs hp).2, ?_⟩
    intro hnow hle
    apply (key db position pool hs hp).2
    rw [hnow, calculateReward_at_lastClaim position pool hle]
  · intro txID0 AssetID amount hnone hok
    rcases Stake_cases db now txID0 userID poolID AssetID amount with
      ⟨_, e⟩ | ⟨_, _, _, e⟩ | ⟨_, _, _, _, e⟩ | ⟨_, _, _, _, _, _, e⟩ | ⟨pool, ua, hp, hw, _, _, e⟩
    · rw [e] at hok; cases hok
    · rw [e] at hok; cases hok
    · rw [e] at hok; cases hok
    · rw [e] at hok; cases hok
    · rw [e]
      have hs' := findStake_stakeCommitted db now txID0 userID poolID amount pool ua hnone
      have hp' := findPool_stakeCommitted db now txID0 userID poolID amount pool ua poolID
      rw [hp, Option.map_some', if_pos rfl] at hp'
      apply (key _ _ _ hs' hp').2
      have hle : now ≤ pool.EndTime := not_lt.1 (not_or.1 hw).2
      exact le_of_eq (calculateReward_at_lastClaim
        { ID := nextID UserStake.ID db.stakes, UserID := userID, PoolID := poolID,
          Amount := amount, Reward := 0, StakedAt := now, LastClaimAt := now }
        { pool with TotalStaked := pool.TotalStaked + amount } hle)

theorem claim_refuses_empty_witness :
    ClaimReward (Stake freshLedger 0 "tx_1" 7 1 1 1000).2 0 0 "tx_2" 7 1 =
      (some .NoRewardToClaim, (Stake freshLedger 0 "tx_1" 7 1 1 1000).2) :=
  (claim_refuses_empty freshLedger 0 0 "tx_2" 7 1).2 "tx_1" 1 1000 (by decide) (by decide!)

/-- C12. `ClaimReward` has a bounded frame: when it succeeds on a database that
satisfies its schema, assets and pools (so every `totalStaked`) are unchanged;
the positions are the old ones with only the claimed position's `reward` and
`lastClaimAt` rewritten (every `amount` is unchanged); the balance table is the
old one with the user's reward-asset row credited in `available`, or with a new
reward-asset row of `locked = 0` appended (every `locked` is unchanged); and one
`reward` record is appended to the trail. -/
theorem claim_frame (db : DB) (hwf : db.WF) (now now2 : Time) (txID : String)
    (userID poolID : Nat) (hok : (ClaimReward db now now2 txID userID poolID).1 = none) :
    ∃ position pool, findStake db userID poolID = some position ∧
      findPool db poolID = some pool ∧
      (ClaimReward db now now2 txID userID poolID).2.assets = db.assets ∧
      (ClaimReward db now now2 txID userID poolID).2.pools = db.pools ∧
      (∃ l₁ l₂, db.stakes = l₁ ++ position :: l₂ ∧
        (ClaimReward db now now2 txID userID poolID).2.stakes =
          l₁ ++ { position with Reward := 0, LastClaimAt := now2 } :: l₂) ∧
      ((∃ ua l₁ l₂, findUserAsset db userID pool.RewardAsset = some ua ∧
          db.userAssets = l₁ ++ ua :: l₂ ∧
          (ClaimReward db now now2 txID userID poolID).2.userAssets =
            l₁ ++ { ua with Balance := ua.Balance + calculateReward now position pool } :: l₂) ∨
        (∃ asset, findUserAsset db userID pool.RewardAsset = none ∧
          findAsset db pool.RewardAsset = some asset ∧
          (ClaimReward db now now2 txID userID poolID).2.userAssets = db.userAssets ++
            [{ ID := nextID UserAsset.ID db.userAssets, UserID := userID, AssetID := asset.ID,
               Balance := calculateReward now position pool, Locked := 0 }])) ∧
      (ClaimReward db now now2 txID userID poolID).2.transactions = db.transactions ++
        [{ ID := nextID AssetTransaction.ID db.transactions, UserID := userID,
           AssetSymbol := pool.RewardAsset, Amount := calculateReward now position pool,
           Kind := "reward", Status := "completed", TxID := txID }] := by
  rcases ClaimReward_cases db now now2 txID userID poolID with
    ⟨_, e⟩ | ⟨_, _, _, e⟩ | ⟨_, _, _, _, _, e⟩ | ⟨_, _, _, _, _, _, _, e⟩ |
    ⟨position, pool, tx, hs, hp, _, hd, e⟩
  · rw [e] at hok; cases hok
  · rw [e] at hok; cases hok
  · rw [e] at hok; cases hok
  · rw [e] at hok; cases hok
  · have hf := distributeReward_frame hd
    have hsh := @distributeReward_shape (Begin db) _ _ _ _ hwf.2.1.1 hd
    obtain ⟨l₁, l₂, hsplit, h₁, h₂⟩ :=
      split_at_key UserStake.ID db.stakes position hwf.2.2.2.1.1 (findStake_some hs).1
    refine ⟨position, pool, hs, hp, ?_, ?_, ⟨l₁, l₂, hsplit, ?_⟩, ?_, ?_⟩
    · rw [e]; exact hf.2.1
    · rw [e]; exact hf.2.2.1
    · rw [e]
      simp only [claimCommitted]
      rw [hf.2.2.2.1]
      show updateWhereID UserStake.ID position.ID _ db.stakes = _
      rw [hsplit, updateWhereID_split UserStake.ID _ l₁ l₂ position h₁ h₂]
    · rw [e]; exact hsh
    · rw [e]
      simp only [claimCommitted]
      rw [hf.2.2.2.2]
      rfl

theorem claim_frame_witness :
    ∃ position pool, findStake scenarioA 7 1 = some position ∧
      findPool scenarioA 1 = some pool ∧
      (ClaimReward scenarioA Year Year "tx_1" 7 1).2.assets = scenarioA.assets ∧
      (ClaimReward scenarioA Year Year "tx_1" 7 1).2.pools = scenarioA.pools ∧
      (∃ l₁ l₂, scenarioA.stakes = l₁ ++ position :: l₂ ∧
        (ClaimReward scenarioA Year Year "tx_1" 7 1).2.stakes =
          l₁ ++ { position with Reward := 0, LastClaimAt := Year } :: l₂) ∧
      ((∃ ua l₁ l₂, findUserAsset scenarioA 7 pool.RewardAsset = some ua ∧
          scenarioA.userAssets = l₁ ++ ua :: l₂ ∧
          (ClaimReward scenarioA Year Year "tx_1" 7 1).2.userAssets =
            l₁ ++ { ua with Balance := ua.Balance + calculateReward Year position pool } :: l₂) ∨
        (∃ asset, findUserAsset scenarioA 7 pool.RewardAsset = none ∧
          findAsset scenarioA pool.RewardAsset = some asset ∧
          (ClaimReward scenarioA Year Year "tx_1" 7 1).2.userAssets = scenarioA.userAssets ++
            [{ ID := nextID UserAsset.ID scenarioA.userAssets, UserID := 7, AssetID := asset.ID,
               Balance := calculateReward Year position pool, Locked := 0 }])) ∧
      (ClaimReward scenarioA Year Year "tx_1" 7 1).2.transactions = scenarioA.transactions ++
        [{ ID := nextID AssetTransaction.ID scenarioA.transactions, UserID := 7,
           AssetSymbol := pool.RewardAsset, Amount := calculateReward Year position pool,
           Kind := "reward", Status := "completed", TxID := "tx_1" }] :=
  claim_frame scenarioA (by decide) Year Year "tx_1" 7 1 (by decide!)

/-- C13 (the code at the failing input). In scenario A, `Unstake` of 500 after
one year succeeds and raises the user's GOAT row from a total of 0 to 100, while
the only record it appends to the trail is the `unstake` record carrying `BTC`. -/
theorem unstake_reward_not_recorded :
    (Unstake scenarioA Year Year "tx_1" 7 1 500).1 = none ∧
      findUserAsset scenarioA 7 "GOAT" = some ⟨2, 7, 2, 0, 0⟩ ∧
      findUserAsset (Unstake scenarioA Year Year "tx_1" 7 1 500).2 7 "GOAT" =
        some ⟨2, 7, 2, 100, 0⟩ ∧
      (Unstake scenarioA Year Year "tx_1" 7 1 500).2.transactions =
        scenarioA.transactions ++ [⟨2, 7, "BTC", 500, "unstake", "completed", "tx_1"⟩] := by
  decide!

/-- C14 (counterexample). On `noStakeRow` the user has a position and a reward
row but no balance row for the stake asset: `Unstake` fails with
`AssetNotFound`. -/
theorem unstake_errors_counterexample :
    noStakeRow.WF ∧
      (Unstake noStakeRow Year Year "tx_1" 7 1 500).1 = some .AssetNotFound := by
  decide!

/-- C14 (amended). `Unstake`'s error set is closed: it either succeeds or fails
with one of `StakeNotFound`, `PoolNotFound`, `UnstakeExceedsPosition` or
`AssetNotFound`, and with no other error. -/
theorem unstake_errors_closed (db : DB) (now now2 : Time) (txID : String)
    (userID poolID : Nat) (amount : ℚ) :
    (Unstake db now now2 txID userID poolID amount).1 = none ∨
    (Unstake db now now2 txID userID poolID amount).1 = some .StakeNotFound ∨
    (Unstake db now now2 txID userID poolID amount).1 = some .PoolNotFound ∨
    (Unstake db now now2 txID userID poolID amount).1 = some .UnstakeExceedsPosition ∨
    (Unstake db now now2 txID userID poolID amount).1 = some .AssetNotFound := by
  rcases Unstake_cases db now now2 txID userID poolID amount with
    ⟨_, e⟩ | ⟨_, _, _, e⟩ | ⟨_, _, _, _, e⟩ | ⟨s, p, err, _, _, _, _, hd, e⟩ |
    ⟨_, _, _, _, _, _, _, _, e⟩ | ⟨_, _, _, _, _, _, _, _, _, e⟩
  · rw [e]; simp
  · rw [e]; simp
  · rw [e]; simp
  · rw [e]
    rcases distributeReward_cases (Begin db) userID p.RewardAsset (calculateReward now s p)
      with ⟨_, _, e'⟩ | ⟨_, _, _, e'⟩ | ⟨_, _, e'⟩
    · rw [e'] at hd; cases hd
    · rw [e'] at hd; cases hd
    · rw [e'] at hd; cases hd; simp
  · rw [e]; simp
  · rw [e]; simp

/-- C15 (counterexample). In binary64, `distributeReward` of 0.2 on a row with
0.1 available stores 0.3000000000000000444, which exceeds the old balance by
more than the amount distributed. -/
theorem distribute_credits_or_creates_counterexample :
    tenthLedger.WF ∧ float64 (1 / 10) = 3602879701896397 / 36028797018963968 ∧
      float64 (2 / 10) = 3602879701896397 / 18014398509481984 ∧
      findUserAsset (Begin tenthLedger).cur 7 "GOAT" =
        some ⟨1, 7, 2, 3602879701896397 / 36028797018963968, 0⟩ ∧
      (∃ tx, distributeRewardRounded float64 (Begin tenthLedger) 7 "GOAT" (float64 (2 / 10)) =
          .ok tx ∧
        findUserAsset tx.cur 7 "GOAT" =
          some ⟨1, 7, 2, 1351079888211149 / 4503599627370496, 0⟩) ∧
      (1351079888211149 / 4503599627370496 : ℚ) - 3602879701896397 / 36028797018963968 ≠
        3602879701896397 / 18014398509481984 := by
  have hu : findUserAsset (Begin tenthLedger).cur 7 "GOAT" =
      some ⟨1, 7, 2, 3602879701896397 / 36028797018963968, 0⟩ := by decide!
  refine ⟨by decide, by decide!, by decide!, hu,
    ⟨(Begin tenthLedger).updateUserAsset 1
      (fun r => { r with Balance := float64 (r.Balance + float64 (2 / 10)) }), ?_, ?_⟩,
    by decide!⟩
  · unfold distributeRewardRounded
    rw [hu]
  · decide!

/-- C15 (amended). Distribute credits or creates, up to the rounding of its
arithmetic: on a database that satisfies its schema, if the user has a balance
row for the asset, `distributeReward`, computing with any rounding `fl`,
replaces that row, and no other, by the row whose `available` is
`fl (available + amount)` and whose `locked` is unchanged; if the user has none
and an asset with that symbol exists, it appends a new row with
`available = amount` and `locked = 0`; if no asset has that symbol it fails with
`AssetNotFound`. Every other table, the trail included, is left as it is. -/
theorem distribute_credits_or_creates (fl : ℚ → ℚ) (tx : Tx) (hwf : tx.cur.WF) (userID : Nat)
    (assetSymbol : String) (amount : ℚ) :
    (∀ ua, findUserAsset tx.cur userID assetSymbol = some ua →
      ∃ l₁ l₂, tx.cur.userAssets = l₁ ++ ua :: l₂ ∧
        distributeRewardRounded fl tx userID assetSymbol amount =
          .ok { tx with cur := { tx.cur with
            userAssets := l₁ ++ { ua with Balance := fl (ua.Balance + amount) } :: l₂ } }) ∧
    (findUserAsset tx.cur userID assetSymbol = none →
      (∃ a ∈ tx.cur.assets, a.Symbol = assetSymbol) →
      ∃ asset, asset ∈ tx.cur.assets ∧ asset.Symbol = assetSymbol ∧
        distributeRewardRounded fl tx userID assetSymbol amount =
          .ok { tx with cur := { tx.cur with
            userAssets := tx.cur.userAssets ++
              [{ ID := nextID UserAsset.ID tx.cur.userAssets, UserID := userID,
                 AssetID := asset.ID, Balance := amount, Locked := 0 }] } }) ∧
    ((∀ a ∈ tx.cur.assets, a.Symbol ≠ assetSymbol) →
      distributeRewardRounded fl tx userID assetSymbol amount = .error .AssetNotFound) := by
  have hnd : (tx.cur.userAssets.map UserAsset.ID).Nodup := hwf.2.1.1
  refine ⟨?_, ?_, ?_⟩
  · intro ua hu
    obtain ⟨l₁, l₂, hsplit, h₁, h₂⟩ :=
      split_at_key UserAsset.ID tx.cur.userAssets ua hnd (findUserAsset_some hu)
    refine ⟨l₁, l₂, hsplit, ?_⟩
    rcases distributeRewardRounded_cases fl tx userID assetSymbol amount with
      ⟨ua', hu', e⟩ | ⟨_, hu', _, _⟩ | ⟨hu', _, _⟩
    · rw [hu] at hu'; cases hu'
      rw [e]
      simp only [Tx.updateUserAsset]
      rw [hsplit, updateWhereID_split UserAsset.ID _ l₁ l₂ ua h₁ h₂]
    · rw [hu] at hu'; cases hu'
    · rw [hu] at hu'; cases hu'
  · rintro hu ⟨a, ha, hsym⟩
    rcases distributeRewardRounded_cases fl tx userID assetSymbol amount with
      ⟨_, hu', _⟩ | ⟨asset, _, hf, e⟩ | ⟨_, hf, _⟩
    · rw [hu] at hu'; cases hu'
    · have := first_some hf
      exact ⟨asset, this.1, by simpa using this.2, e⟩
    · have := (first_eq_none Asset.ID _ tx.cur.assets).1 hf a ha
      simp [hsym] at this
  · intro hno
    have hids : assetIDsBySymbol tx.cur assetSymbol = [] := by
      unfold assetIDsBySymbol
      rw [List.map_eq_nil_iff, List.filter_eq_nil_iff]
      intro a ha
      simp [hno a ha]
    rcases distributeRewardRounded_cases fl tx userID assetSymbol amount with
      ⟨ua, hu, _⟩ | ⟨asset, _, hf, _⟩ | ⟨_, _, e⟩
    · have := (first_some hu).2
      simp [hids] at this
    · have := first_some hf
      exact absurd (by simpa using this.2) (hno asset this.1)
    · exact e

theorem distribute_credits_or_creates_witness :
    ∃ l₁ l₂, (Begin tenthLedger).cur.userAssets =
        l₁ ++ (⟨1, 7, 2, 3602879701896397 / 36028797018963968, 0⟩ : UserAsset) :: l₂ ∧
      distributeRewardRounded float64 (Begin tenthLedger) 7 "GOAT" (float64 (2 / 10)) =
        .ok { Begin tenthLedger with cur := { (Begin tenthLedger).cur with
          userAssets := l₁ ++
            { (⟨1, 7, 2, 3602879701896397 / 36028797018963968, 0⟩ : UserAsset) with
              Balance := float64
                ((⟨1, 7, 2, 3602879701896397 / 36028797018963968, 0⟩ : UserAsset).Balance +
                  float64 (2 / 10)) } :: l₂ } } :=
  (distribute_credits_or_creates float64 (Begin tenthLedger) (by decide) 7 "GOAT"
    (float64 (2 / 10))).1 ⟨1, 7, 2, 3602879701896397 / 36028797018963968, 0⟩ (by decide!)

/-- C16. A negative reward is never distributed. `Unstake` with a computed reward
`<= 0` continues on the unchanged tables (nothing is distributed), and when it
succeeds the tables it commits come either from no distribution or from
`distributeReward` called with the computed, strictly positive reward;
`ClaimReward` with a computed reward `<= 0` fails with `NoRewardToClaim`, and
when it succeeds the reward distributed is strictly positive and no balance row
has its `available` lowered or its `locked` changed; a distribution of a
positive amount never lowers an `available`; and the computed reward is `<= 0`
whenever `amount * apy >= 0` and `lastClaimAt >=` the clamped instant. -/
theorem reward_distribution_is_positive (db : DB) (now now2 : Time) (txID : String)
    (userID poolID : Nat) (amount : ℚ) :
    (∀ stake pool, findStake db userID poolID = some stake → ¬stake.Amount < amount →
      findPool db poolID = some pool → calculateReward now stake pool ≤ 0 →
      (findUserAsset db userID pool.StakeAsset = none →
        Unstake db now now2 txID userID poolID amount = (some .AssetNotFound, db)) ∧
      (∀ ua, findUserAsset db userID pool.StakeAsset = some ua →
        Unstake db now now2 txID userID poolID amount =
          (none, unstakeCommitted db now2 txID userID amount stake pool ua))) ∧
    ((Unstake db now now2 txID userID poolID amount).1 = none →
      ∃ stake pool tx ua, findStake db userID poolID = some stake ∧
        findPool db poolID = some pool ∧
        ((calculateReward now stake pool ≤ 0 ∧ tx = Begin db) ∨
          (0 < calculateReward now stake pool ∧
            distributeReward (Begin db) userID pool.RewardAsset
              (calculateReward now stake pool) = .ok tx)) ∧
        (Unstake db now now2 txID userID poolID amount).2 =
          unstakeCommitted tx.cur now2 txID userID amount stake pool ua) ∧
    (∀ stake pool, findStake db userID poolID = some stake → findPool db poolID = some pool →
      calculateReward now stake pool ≤ 0 →
      ClaimReward db now now2 txID userID poolID = (some .NoRewardToClaim, db)) ∧
    ((ClaimReward db now now2 txID userID poolID).1 = none →
      ∃ stake pool tx, findStake db userID poolID = some stake ∧
        findPool db poolID = some pool ∧ 0 < calculateReward now stake pool ∧
        distributeReward (Begin db) userID pool.RewardAsset (calculateReward now stake pool)
          = .ok tx ∧
        (ClaimReward db now now2 txID userID poolID).2 =
          claimCommitted tx.cur now2 txID userID (calculateReward now stake pool) stake pool ∧
        ∀ r ∈ db.userAssets, ∃ r' ∈ (ClaimReward db now now2 txID userID poolID).2.userAssets,
          r'.ID = r.ID ∧ r.Balance ≤ r'.Balance ∧ r'.Locked = r.Locked) ∧
    (∀ (tx tx' : Tx) (u : Nat) (symbol : String) (reward : ℚ), 0 < reward →
      distributeReward tx u symbol reward = .ok tx' →
      ∀ r ∈ tx.cur.userAssets, ∃ r' ∈ tx'.cur.userAssets,
        r'.ID = r.ID ∧ r.Balance ≤ r'.Balance ∧ r'.Locked = r.Locked) ∧
    (∀ (stake : UserStake) (pool : LaunchPool), 0 ≤ stake.Amount * pool.APY →
      min now pool.EndTime ≤ stake.LastClaimAt → calculateReward now stake pool ≤ 0) := by
  refine ⟨?_, ?_, ?_, ?_, ?_, ?_⟩
  · intro stake pool hs hx hp hr
    have hd : (if calculateReward now stake pool > 0 then
          distributeReward (Begin db) userID pool.RewardAsset (calculateReward now stake pool)
        else .ok (Begin db)) = .ok (Begin db) := if_neg (not_lt.2 hr)
    refine ⟨?_, ?_⟩
    · intro hu
      rcases Unstake_cases db now now2 txID userID poolID amount with
        ⟨h1, _⟩ | ⟨s, h1, h2, _⟩ | ⟨s, _, _, h1, _⟩ | ⟨s, p, err, h1, _, h2, h4, _, _⟩ |
        ⟨s, p, t, h1, _, h2, h3, h4, e⟩ | ⟨s, p, t, ua', h1, _, h2, h3, h4, _⟩
      · rw [hs] at h1; cases h1
      · rw [hs] at h1; cases h1; exact absurd h2 hx
      · rw [hp] at h1; cases h1
      · rw [hs] at h1; cases h1; rw [hp] at h2; cases h2; exact absurd h4 (not_lt.2 hr)
      · exact e
      · rw [hs] at h1; cases h1; rw [hp] at h2; cases h2
        rw [hd] at h3; cases h3
        rw [show (Begin db).cur = db from rfl, hu] at h4; cases h4
    · intro ua hu
      exact Unstake_success now2 txID hs hx hp hd hu
  · intro hok
    rcases Unstake_cases db now now2 txID userID poolID amount with
      ⟨_, e⟩ | ⟨_, _, _, e⟩ | ⟨_, _, _, _, e⟩ | ⟨_, _, _, _, _, _, _, _, e⟩ |
      ⟨_, _, _, _, _, _, _, _, e⟩ | ⟨stake, pool, tx, ua, hs, _, hp, hd, _, e⟩
    · rw [e] at hok; cases hok
    · rw [e] at hok; cases hok
    · rw [e] at hok; cases hok
    · rw [e] at hok; cases hok
    · rw [e] at hok; cases hok
    · refine ⟨stake, pool, tx, ua, hs, hp, ?_, by rw [e]⟩
      by_cases hr : calculateReward now stake pool > 0
      · rw [if_pos hr] at hd; exact Or.inr ⟨hr, hd⟩
      · rw [if_neg hr] at hd; cases hd; exact Or.inl ⟨not_lt.1 hr, rfl⟩
  · intro stake pool hs hp hr
    rcases ClaimReward_cases db now now2 txID userID poolID with
      ⟨h1, _⟩ | ⟨s, _, h1, _⟩ | ⟨s, p, _, _, _, e⟩ | ⟨s, p, err, h1, h2, hr', _, _⟩ |
      ⟨s, p, tx, h1, h2, hr', _, _⟩
    · rw [hs] at h1; cases h1
    · rw [hp] at h1; cases h1
    · exact e
    · rw [hs] at h1; cases h1; rw [hp] at h2; cases h2; exact absurd hr hr'
    · rw [hs] at h1; cases h1; rw [hp] at h2; cases h2; exact absurd hr hr'
  · intro hok
    rcases ClaimReward_cases db now now2 txID userID poolID with
      ⟨_, e⟩ | ⟨_, _, _, e⟩ | ⟨_, _, _, _, _, e⟩ | ⟨_, _, _, _, _, _, _, e⟩ |
      ⟨stake, pool, tx, hs, hp, hr, hd, e⟩
    · rw [e] at hok; cases hok
    · rw [e] at hok; cases hok
    · rw [e] at hok; cases hok
    · rw [e] at hok; cases hok
    · refine ⟨stake, pool, tx, hs, hp, not_le.1 hr, hd, by rw [e], ?_⟩
      rw [e]
      exact distributeReward_lowers_nothing (le_of_lt (not_le.1 hr)) hd
  · intro tx tx' u symbol reward hpos h
    exact distributeReward_lowers_nothing (le_of_lt hpos) h
  · intro stake pool hsign hle
    rw [calculateReward_eq]
    have h1 : (Time.Sub (min now pool.EndTime) stake.LastClaimAt : ℚ) ≤ 0 := by
      exact_mod_cast Time.Sub_nonpos hle
    have h2 : (Time.Sub (min now pool.EndTime) stake.LastClaimAt : ℚ) / 3600000000000 / 24 / 365
        ≤ 0 := by
      apply div_nonpos_of_nonpos_of_nonneg _ (by norm_num)
      apply div_nonpos_of_nonpos_of_nonneg _ (by norm_num)
      exact div_nonpos_of_nonpos_of_nonneg h1 (by norm_num)
    exact mul_nonpos_of_nonneg_of_nonpos hsign h2

theorem reward_distribution_is_positive_witness :
    ClaimReward scenarioA 0 0 "tx_1" 7 1 = (some .NoRewardToClaim, scenarioA) ∧
      Unstake scenarioA 0 0 "tx_1" 7 1 500 =
        (none, unstakeCommitted scenarioA 0 "tx_1" 7 500 position1000 poolA ⟨1, 7, 1, 0, 1000⟩) :=
  ⟨(reward_distribution_is_positive scenarioA 0 0 "tx_1" 7 1 500).2.2.1 position1000 poolA
      (by decide!) (by decide!) (by decide!),
    ((reward_distribution_is_positive scenarioA 0 0 "tx_1" 7 1 500).1 position1000 poolA
      (by decide!) (by decide!) (by decide!) (by decide!)).2 ⟨1, 7, 1, 0, 1000⟩ (by decide!)⟩

/-- C17 (counterexample). The service accepts non-positive amounts: `Stake` of
-500 succeeds and moves 500 from locked to available, and `Unstake` of -500
succeeds and raises the position to 1500. -/
theorem nonpositive_amount_counterexample :
    (Stake freshLedger 0 "tx_1" 7 1 1 (-500)).1 = none ∧
      (Stake freshLedger 0 "tx_1" 7 1 1 (-500)).2.userAssets = [⟨1, 7, 1, 2500, -500⟩] ∧
      (Unstake scenarioA Year Year "tx_1" 7 1 (-500)).1 = none ∧
      (Unstake scenarioA Year Year "tx_1" 7 1 (-500)).2.stakes =
        [⟨1, 7, 1, 1500, 0, 0, Year⟩] := by
  decide!

/-- C17 (amended). Amounts must be positive at the controller: a stake or an
unstake request whose amount is `<= 0` does not bind (`gt=0`), is answered 400
without the service being called, and leaves the database unchanged. -/
theorem nonpositive_amount_rejected (db : DB) (now now2 : Time) (txID : String)
    (stakeReq : StakeRequest) (unstakeReq : UnstakeRequest) :
    (stakeReq.Amount ≤ 0 → PoolController.Stake db now txID stakeReq = (.BadRequest, db)) ∧
    (unstakeReq.Amount ≤ 0 →
      PoolController.Unstake db now now2 txID unstakeReq = (.BadRequest, db)) := by
  constructor
  · intro h
    have : stakeReq.binds = false := by
      simp [StakeRequest.binds, not_lt.2 h]
    simp [PoolController.Stake, this]
  · intro h
    have : unstakeReq.binds = false := by
      simp [UnstakeRequest.binds, not_lt.2 h]
    simp [PoolController.Unstake, this]

theorem nonpositive_amount_rejected_witness :
    PoolController.Stake freshLedger 0 "tx_1" ⟨7, 1, 1, -500⟩ = (.BadRequest, freshLedger) :=
  (nonpositive_amount_rejected freshLedger 0 0 "tx_1" ⟨7, 1, 1, -500⟩ ⟨7, 1, -500⟩).1
    (by decide!)

/-- C18 (counterexample). Two ways the claim fails. With exact amounts,
`offsettingPositions` satisfies the cover (positions of 100 and -100 sum to the 0
that is locked), yet `Unstake` of 50 succeeds and leaves the user's locked BTC at
-50. In binary64, from `freshLedger`, which satisfies the cover, a stake of 0.3
keeps the cover, a further stake of 0.4 succeeds and breaks it (0.3 + 0.4 is
stored as 0.69999999999999995559, below the sum of the two positions), and
unstaking 0.3 and then 0.4, each call succeeding with a positive amount, leaves
the user's locked BTC at -2 ^ -54. -/
theorem locked_covers_counterexample :
    (offsettingPositions.WF ∧ offsettingPositions.LockedCovers ∧ (0 : ℚ) < 50 ∧
      (Unstake offsettingPositions 0 0 "tx_1" 7 1 50).1 = none ∧
      lockedOf (Unstake offsettingPositions 0 0 "tx_1" 7 1 50).2 7 "BTC" = -50) ∧
    (freshLedger.WF ∧ freshLedger.LockedCovers ∧
      0 < float64 (3 / 10) ∧ 0 < float64 (4 / 10) ∧
      (StakeRounded float64 freshLedger 0 "tx_1" 7 1 1 (float64 (3 / 10))).1 = none ∧
      roundedFirstStake.LockedCovers ∧
      (StakeRounded float64 roundedFirstStake 0 "tx_2" 7 1 1 (float64 (4 / 10))).1 = none ∧
      ¬roundedStakes.LockedCovers ∧
      (∀ s ∈ roundedStakes.stakes, 0 ≤ s.Amount) ∧
      (UnstakeRounded float64 roundedStakes 0 0 "tx_3" 7 1 (float64 (3 / 10))).1 = none ∧
      (UnstakeRounded float64 roundedFirstUnstake 0 0 "tx_4" 7 1 (float64 (4 / 10))).1 = none ∧
      lockedOf roundedSecondUnstake 7 "BTC" = -1 / 18014398509481984) :=
  ⟨⟨by decide, lockedCovers_of_check (by decide!), by decide!, by decide!, by decide!⟩,
    by decide, lockedCovers_of_check (by decide!), by decide!, by decide!, by decide!,
    lockedCovers_of_check (by decide!), by decide!,
    fun h => absurd (h 7 "BTC") (by decide!), by decide!, by decide!, by decide!, by decide!⟩

/-- C18 (amended). Locked funds cover live positions, over exact arithmetic:
from a database that satisfies its schema and in which, for each user and asset
symbol, the user's locked balance is at least the sum of the amounts of the
user's positions in pools staking that asset, every `Stake`, `Unstake` or
`ClaimReward` call with `amount > 0`, computing exactly, leaves a database with
the same property; hence, when in addition no position has a negative amount, a
successful `Unstake` leaves the user's locked balance of the stake asset
non-negative, and this last step also holds when `Unstake` computes with a
rounding `fl` that sends non-negative numbers to non-negative numbers. -/
theorem locked_covers_preserved (db : DB) (hwf : db.WF) (hcov : db.LockedCovers)
    (now now2 : Time) (txID : String) (userID poolID AssetID : Nat) (amount : ℚ)
    (hamt : 0 < amount) :
    (Stake db now txID userID poolID AssetID amount).2.LockedCovers ∧
    (Unstake db now now2 txID userID poolID amount).2.LockedCovers ∧
    (ClaimReward db now now2 txID userID poolID).2.LockedCovers ∧
    ((∀ s ∈ db.stakes, 0 ≤ s.Amount) →
      (Unstake db now now2 txID userID poolID amount).1 = none →
      ∀ pool, findPool db poolID = some pool →
        0 ≤ lockedOf (Unstake db now now2 txID userID poolID amount).2 userID pool.StakeAsset) ∧
    (∀ fl : ℚ → ℚ, (∀ x, 0 ≤ x → 0 ≤ fl x) → (∀ s ∈ db.stakes, 0 ≤ s.Amount) →
      (UnstakeRounded fl db now now2 txID userID poolID amount).1 = none →
      ∀ pool, findPool db poolID = some pool →
        0 ≤ lockedOf (UnstakeRounded fl db now now2 txID userID poolID amount).2 userID
          pool.StakeAsset) := by
  have hndU : (db.userAssets.map UserAsset.ID).Nodup := hwf.2.1.1
  have hndA : (db.assets.map Asset.ID).Nodup := hwf.1.1
  have hndS : (db.stakes.map UserStake.ID).Nodup := hwf.2.2.2.1.1
  refine ⟨?_, ?_, ?_, ?_, ?_⟩
  · rcases Stake_cases db now txID userID poolID AssetID amount with
      ⟨_, e⟩ | ⟨_, _, _, e⟩ | ⟨_, _, _, _, e⟩ | ⟨_, _, _, _, _, _, e⟩ | ⟨pool, ua, hp, _, hu, _, e⟩
    · rw [e]; exact hcov
    · rw [e]; exact hcov
    · rw [e]; exact hcov
    · rw [e]; exact hcov
    · rw [e]
      intro u A
      rw [stakedBy_stakeCommitted db now txID userID poolID amount pool ua hp]
      by_cases hc : userID = u ∧ pool.StakeAsset = A
      · obtain ⟨rfl, rfl⟩ := hc
        rw [lockedOf_stakeCommitted_self db now txID userID poolID amount pool ua hu]
        simp only [and_self, if_true]
        linarith [hcov userID pool.StakeAsset]
      · rw [if_neg hc]
        have := lockedOf_stakeCommitted_le db now txID userID poolID amount pool ua
          (le_of_lt hamt) u A
        linarith [hcov u A]
  · rcases Unstake_cases db now now2 txID userID poolID amount with
      ⟨_, e⟩ | ⟨_, _, _, e⟩ | ⟨_, _, _, _, e⟩ | ⟨_, _, _, _, _, _, _, _, e⟩ |
      ⟨_, _, _, _, _, _, _, _, e⟩ | ⟨stake, pool, tx, ua, hs, _, hp, hd, hu, e⟩
    · rw [e]; exact hcov
    · rw [e]; exact hcov
    · rw [e]; exact hcov
    · rw [e]; exact hcov
    · rw [e]; exact hcov
    · rw [e]
      have hf := rewardStep_frame hd
      have hna : (tx.cur.assets.map Asset.ID).Nodup := by
        rw [hf.2.1]; exact hndA
      intro u A
      rw [stakedBy_unstakeCommitted db tx.cur now2 txID userID poolID amount stake pool ua hndS
        hs hp hf.2.2.2.1 hf.2.2.1,
        lockedOf_unstakeCommitted tx.cur now2 txID userID amount stake pool ua
          (rewardStep_lockedOf hndU hd u A).2 hna hu,
        (rewardStep_lockedOf hndU hd u A).1]
      linarith [hcov u A]
  · rcases ClaimReward_cases db now now2 txID userID poolID with
      ⟨_, e⟩ | ⟨_, _, _, e⟩ | ⟨_, _, _, _, _, e⟩ | ⟨_, _, _, _, _, _, _, e⟩ |
      ⟨stake, pool, tx, _, _, hr, hd, e⟩
    · rw [e]; exact hcov
    · rw [e]; exact hcov
    · rw [e]; exact hcov
    · rw [e]; exact hcov
    · rw [e]
      have hf := distributeReward_frame hd
      intro u A
      rw [stakedBy_claimCommitted db tx.cur now2 txID userID _ stake pool hf.2.2.2.1 hf.2.2.1]
      show _ ≤ lockedOf tx.cur u A
      rw [lockedOf_distributeReward hndU hd]
      exact hcov u A
  · intro hpos hok pool0 hp0
    rcases Unstake_cases db now now2 txID userID poolID amount with
      ⟨_, e⟩ | ⟨_, _, _, e⟩ | ⟨_, _, _, _, e⟩ | ⟨_, _, _, _, _, _, _, _, e⟩ |
      ⟨_, _, _, _, _, _, _, _, e⟩ | ⟨stake, pool, tx, ua, hs, hx, hp, hd, hu, e⟩
    · rw [e] at hok; cases hok
    · rw [e] at hok; cases hok
    · rw [e] at hok; cases hok
    · rw [e] at hok; cases hok
    · rw [e] at hok; cases hok
    · rw [hp0] at hp; cases hp
      rw [e]
      have hf := rewardStep_frame hd
      have hna : (tx.cur.assets.map Asset.ID).Nodup := by
        rw [hf.2.1]; exact hndA
      rw [lockedOf_unstakeCommitted tx.cur now2 txID userID amount stake pool0 ua
          (rewardStep_lockedOf hndU hd userID pool0.StakeAsset).2 hna hu,
        (rewardStep_lockedOf hndU hd userID pool0.StakeAsset).1]
      simp only [and_self, if_true]
      have hst := findStake_some hs
      have hq : stakeAssetOf db stake.PoolID = some pool0.StakeAsset := by
        unfold stakeAssetOf; rw [hst.2.2, hp0]; rfl
      have hmem : stake.Amount ∈ (db.stakes.filter (fun s => s.UserID == userID &&
          stakeAssetOf db s.PoolID == some pool0.StakeAsset)).map UserStake.Amount := by
        apply List.mem_map_of_mem
        rw [List.mem_filter]
        exact ⟨hst.1, by simp [hst.2.1, hq]⟩
      have hle : stake.Amount ≤ stakedBy db userID pool0.StakeAsset := by
        unfold stakedBy
        apply List.single_le_sum _ _ hmem
        intro x hxm
        obtain ⟨s, hsm, rfl⟩ := List.mem_map.1 hxm
        exact hpos s (List.mem_filter.1 hsm).1
      linarith [hcov userID pool0.StakeAsset, not_lt.1 hx]
  · intro fl hfl hpos hok pool0 hp0
    obtain ⟨stake, pool, hs, hx, hp, e⟩ :=
      lockedOf_UnstakeRounded fl db hndU now now2 txID userID poolID amount hok
    rw [hp0] at hp; cases hp
    rw [e]
    apply hfl
    linarith [hcov userID pool0.StakeAsset, not_lt.1 hx, le_stakedBy hpos hs hp0]

theorem locked_covers_preserved_witness :
    (scenarioA.WF ∧ scenarioA.LockedCovers ∧
      (Unstake scenarioA Year Year "tx_1" 7 1 500).2.LockedCovers ∧
      0 ≤ lockedOf (Unstake scenarioA Year Year "tx_1" 7 1 500).2 7 poolA.StakeAsset) ∧
    (roundedFirstStake.WF ∧ roundedFirstStake.LockedCovers ∧ 0 < float64 (3 / 10) ∧
      (UnstakeRounded float64 roundedFirstStake 0 0 "tx_2" 7 1 (float64 (3 / 10))).1 = none ∧
      0 ≤ lockedOf (UnstakeRounded float64 roundedFirstStake 0 0 "tx_2" 7 1
        (float64 (3 / 10))).2 7 "BTC") :=
  ⟨⟨by decide, lockedCovers_of_check (by decide!),
    (locked_covers_preserved scenarioA (by decide) (lockedCovers_of_check (by decide!))
      Year Year "tx_1" 7 1 1 500 (by decide!)).2.1,
    (locked_covers_preserved scenarioA (by decide) (lockedCovers_of_check (by decide!))
      Year Year "tx_1" 7 1 1 500 (by decide!)).2.2.2.1 (by decide!) (by decide!) poolA
      (by decide!)⟩,
    by decide!, lockedCovers_of_check (by decide!), by decide!, by decide!,
    (locked_covers_preserved roundedFirstStake (by decide!) (lockedCovers_of_check (by decide!))
      0 0 "tx_2" 7 1 1 (float64 (3 / 10)) (by decide!)).2.2.2.2 float64
      (fun x hx => float64_nonneg hx) (by decide!) (by decide!)
      ⟨1, "BTC", "GOAT", 0, 2 * Year, 1 / 10, float64 (3 / 10)⟩ (by decide!)⟩

/-- C19 (counterexample). In `centuryLedger` a claim at 300 years is paid on the
saturated `maxDuration` and a second claim at 301 years adds one more year, 100;
a single claim at 301 years is paid on `maxDuration` alone. -/
theorem instalments_counterexample :
    (0 : ℚ) < 1000 * (1 / 10) ∧ (0 : Time) < 300 * Year ∧ 300 * Year < 301 * Year ∧
      301 * Year ≤ centuryPool.EndTime ∧
      (ClaimReward centuryLedger (300 * Year) (300 * Year) "tx_1" 7 1).1 = none ∧
      (ClaimReward (ClaimReward centuryLedger (300 * Year) (300 * Year) "tx_1" 7 1).2
        (301 * Year) (301 * Year) "tx_2" 7 1).1 = none ∧
      (ClaimReward centuryLedger (301 * Year) (301 * Year) "tx_2" 7 1).1 = none ∧
      availableOf (ClaimReward (ClaimReward centuryLedger (300 * Year) (300 * Year) "tx_1" 7
          1).2 (301 * Year) (301 * Year) "tx_2" 7 1).2 7 "GOAT" =
        availableOf (ClaimReward centuryLedger (301 * Year) (301 * Year) "tx_2" 7 1).2 7 "GOAT"
          + 100 := by
  decide!

/-- C19 (amended). Claiming in instalments pays the same total while the elapsed
time fits a `Duration`: for a position and pool with `amount * apy > 0` and
instants `lastClaimAt < t1 < t2 <= endTime` with `t2 - lastClaimAt <=
maxDuration`, after a successful `ClaimReward` at `t1` a `ClaimReward` at `t2`
succeeds, a single `ClaimReward` at `t2` succeeds too, and both leave the user's
reward-asset `available` raised by `amount * apy * (t2 - lastClaimAt)` in
years. -/
theorem instalments_pay_same_total (db : DB) (t1 t2 : Time) (txID1 txID2 : String)
    (userID poolID : Nat) (position : UserStake) (pool : LaunchPool)
    (hs : findStake db userID poolID = some position) (hp : findPool db poolID = some pool)
    (hsign : 0 < position.Amount * pool.APY)
    (h1 : position.LastClaimAt < t1) (h12 : t1 < t2) (h2 : t2 ≤ pool.EndTime)
    (hrange : t2 - position.LastClaimAt ≤ maxDuration)
    (hok : (ClaimReward db t1 t1 txID1 userID poolID).1 = none) :
    (ClaimReward (ClaimReward db t1 t1 txID1 userID poolID).2 t2 t2 txID2 userID poolID).1 = none ∧
    (ClaimReward db t2 t2 txID2 userID poolID).1 = none ∧
    availableOf (ClaimReward (ClaimReward db t1 t1 txID1 userID poolID).2 t2 t2 txID2 userID
        poolID).2 userID pool.RewardAsset =
      availableOf db userID pool.RewardAsset +
        position.Amount * pool.APY *
          (((t2 - position.LastClaimAt : Int) : ℚ) / 3600000000000 / 24 / 365) ∧
    availableOf (ClaimReward db t2 t2 txID2 userID poolID).2 userID pool.RewardAsset =
      availableOf db userID pool.RewardAsset +
        position.Amount * pool.APY *
          (((t2 - position.LastClaimAt : Int) : ℚ) / 3600000000000 / 24 / 365) := by
  have ht1 : t1 ≤ pool.EndTime := le_trans (le_of_lt h12) h2
  have hsub1 : Time.Sub t1 position.LastClaimAt = t1 - position.LastClaimAt :=
    Time.Sub_eq_of_span (le_refl _) h1 (le_of_lt h12) hrange
  have hsub2 : Time.Sub t2 position.LastClaimAt = t2 - position.LastClaimAt :=
    Time.Sub_eq_of_span (le_refl _) (lt_trans h1 h12) (le_refl _) hrange
  have hsub12 : Time.Sub t2 t1 = t2 - t1 :=
    Time.Sub_eq_of_span (le_of_lt h1) h12 (le_refl _) hrange
  have hr1 : 0 < calculateReward t1 position pool :=
    calculateReward_pos t1 position pool hsign (by rw [min_eq_left ht1]; exact h1)
  have hr2 : 0 < calculateReward t2 position pool :=
    calculateReward_pos t2 position pool hsign
      (by rw [min_eq_left h2]; exact lt_trans h1 h12)
  -- the first claim
  obtain ⟨tx1, hd1⟩ : ∃ tx, distributeReward (Begin db) userID pool.RewardAsset
      (calculateReward t1 position pool) = .ok tx := by
    rcases ClaimReward_cases db t1 t1 txID1 userID poolID with
      ⟨_, e⟩ | ⟨_, _, _, e⟩ | ⟨_, _, _, _, _, e⟩ | ⟨_, _, _, _, _, _, _, e⟩ |
      ⟨s, p, tx, hs', hp', _, hd, _⟩
    · rw [e] at hok; cases hok
    · rw [e] at hok; cases hok
    · rw [e] at hok; cases hok
    · rw [e] at hok; cases hok
    · rw [hs] at hs'; cases hs'; rw [hp] at hp'; cases hp'; exact ⟨tx, hd⟩
  have e1 := ClaimReward_success t1 txID1 hs hp hr1 hd1
  have hf1 := distributeReward_frame hd1
  obtain ⟨row1, hrow1, hbal1⟩ := findUserAsset_after_distribute hd1
  -- the single claim at t2
  obtain ⟨txs, hds⟩ := distributeReward_ok_any hd1 (calculateReward t2 position pool)
  have es := ClaimReward_success t2 txID2 hs hp hr2 hds
  obtain ⟨rows, hrows, hbals⟩ := findUserAsset_after_distribute hds
  -- the second claim, on the ledger the first one left
  have hs1 : findStake (ClaimReward db t1 t1 txID1 userID poolID).2 userID poolID =
      some { position with Reward := 0, LastClaimAt := t1 } := by
    rw [e1]
    show findStake (claimCommitted tx1.cur t1 txID1 userID _ position pool) userID poolID = _
    rw [findStake_claimCommitted]
    have : findStake tx1.cur userID poolID = findStake db userID poolID := by
      unfold findStake; rw [hf1.2.2.2.1]; rfl
    rw [this, hs]; simp
  have hp1 : findPool (ClaimReward db t1 t1 txID1 userID poolID).2 poolID = some pool := by
    rw [e1]
    show findPool (claimCommitted tx1.cur t1 txID1 userID _ position pool) poolID = _
    rw [findPool_claimCommitted]
    have : findPool tx1.cur poolID = findPool db poolID := by
      unfold findPool; rw [hf1.2.2.1]; rfl
    rw [this, hp]
  have hu1 : findUserAsset (ClaimReward db t1 t1 txID1 userID poolID).2 userID pool.RewardAsset
      = some row1 := by
    rw [e1]; exact hrow1
  have hr12 : 0 < calculateReward t2 { position with Reward := 0, LastClaimAt := t1 } pool :=
    calculateReward_pos t2 _ pool hsign (by rw [min_eq_left h2]; exact h12)
  obtain ⟨tx2, hd2⟩ : ∃ tx, distributeReward (Begin (ClaimReward db t1 t1 txID1 userID poolID).2)
      userID pool.RewardAsset
      (calculateReward t2 { position with Reward := 0, LastClaimAt := t1 } pool) = .ok tx := by
    rcases distributeReward_cases (Begin (ClaimReward db t1 t1 txID1 userID poolID).2) userID
      pool.RewardAsset (calculateReward t2 { position with Reward := 0, LastClaimAt := t1 } pool)
      with ⟨_, _, e⟩ | ⟨_, hu, _, _⟩ | ⟨hu, _, _⟩
    · exact ⟨_, e⟩
    · rw [show (Begin (ClaimReward db t1 t1 txID1 userID poolID).2).cur =
        (ClaimReward db t1 t1 txID1 userID poolID).2 from rfl, hu1] at hu; cases hu
    · rw [show (Begin (ClaimReward db t1 t1 txID1 userID poolID).2).cur =
        (ClaimReward db t1 t1 txID1 userID poolID).2 from rfl, hu1] at hu; cases hu
  have e2 := ClaimReward_success t2 txID2 hs1 hp1 hr12 hd2
  obtain ⟨row2, hrow2, hbal2⟩ := findUserAsset_after_distribute hd2
  have hav1 : availableOf (ClaimReward db t1 t1 txID1 userID poolID).2 userID pool.RewardAsset
      = row1.Balance := by
    simp [availableOf, hu1]
  refine ⟨by rw [e2], by rw [es], ?_, ?_⟩
  · rw [e2]
    show availableOf (claimCommitted tx2.cur t2 txID2 userID _ _ pool) userID pool.RewardAsset = _
    unfold availableOf
    rw [findUserAsset_claimCommitted, hrow2]
    simp only [Option.map_some', Option.getD_some]
    rw [hbal2, hav1, hbal1, calculateReward_eq, calculateReward_eq, min_eq_left ht1,
      min_eq_left h2, hsub1]
    show _ + _ * (((Time.Sub t2 t1 : Int) : ℚ) / 3600000000000 / 24 / 365) = _
    rw [hsub12]
    unfold availableOf
    push_cast
    ring
  · rw [es]
    show availableOf (claimCommitted txs.cur t2 txID2 userID _ _ pool) userID pool.RewardAsset = _
    unfold availableOf
    rw [findUserAsset_claimCommitted, hrows]
    simp only [Option.map_some', Option.getD_some]
    rw [hbals, calculateReward_eq, min_eq_left h2, hsub2]
    unfold availableOf
    rfl

theorem instalments_pay_same_total_witness :
    (ClaimReward (ClaimReward scenarioA Year Year "tx_1" 7 1).2 (2 * Year) (2 * Year) "tx_2" 7
        1).1 = none ∧
    (ClaimReward scenarioA (2 * Year) (2 * Year) "tx_2" 7 1).1 = none ∧
    availableOf (ClaimReward (ClaimReward scenarioA Year Year "tx_1" 7 1).2 (2 * Year) (2 * Year)
        "tx_2" 7 1).2 7 poolA.RewardAsset =
      availableOf scenarioA 7 poolA.RewardAsset +
        position1000.Amount * poolA.APY *
          (((2 * Year - position1000.LastClaimAt : Int) : ℚ) / 3600000000000 / 24 / 365) ∧
    availableOf (ClaimReward scenarioA (2 * Year) (2 * Year) "tx_2" 7 1).2 7 poolA.RewardAsset =
      availableOf scenarioA 7 poolA.RewardAsset +
        position1000.Amount * poolA.APY *
          (((2 * Year - position1000.LastClaimAt : Int) : ℚ) / 3600000000000 / 24 / 365) :=
  instalments_pay_same_total scenarioA Year (2 * Year) "tx_1" "tx_2" 7 1 position1000 poolA
    (by decide!) (by decide!) (by decide!) (by decide) (by decide) (by decide) (by decide)
    (by decide!)

/-- C20. The asset identifier passed to `Stake` has no effect: for any two
identifiers the call returns the same error and leaves the same database, and on
success the row debited is the user's row for the pool's stake-asset symbol.
Through the controller the same holds for any two identifiers that bind (are
not zero). -/
theorem stake_ignores_asset_id (db : DB) (now : Time) (txID : String) (userID poolID : Nat)
    (amount : ℚ) (a1 a2 : Nat) :
    Stake db now txID userID poolID a1 amount = Stake db now txID userID poolID a2 amount ∧
    ((Stake db now txID userID poolID a1 amount).1 = none →
      ∃ pool ua, findPool db poolID = some pool ∧
        findUserAsset db userID pool.StakeAsset = some ua ∧
        (Stake db now txID userID poolID a1 amount).2.userAssets =
          updateWhereID UserAsset.ID ua.ID
            (fun r => { r with Balance := r.Balance - amount, Locked := r.Locked + amount })
            db.userAssets) ∧
    (a1 ≠ 0 → a2 ≠ 0 →
      PoolController.Stake db now txID ⟨userID, poolID, a1, amount⟩ =
        PoolController.Stake db now txID ⟨userID, poolID, a2, amount⟩) := by
  refine ⟨rfl, ?_, ?_⟩
  · intro hok
    rcases Stake_cases db now txID userID poolID a1 amount with
      ⟨_, e⟩ | ⟨_, _, _, e⟩ | ⟨_, _, _, _, e⟩ | ⟨_, _, _, _, _, _, e⟩ | ⟨pool, ua, hp, _, hu, _, e⟩
    · rw [e] at hok; cases hok
    · rw [e] at hok; cases hok
    · rw [e] at hok; cases hok
    · rw [e] at hok; cases hok
    · exact ⟨pool, ua, hp, hu, by rw [e]; rfl⟩
  · intro h1 h2
    have hb : (⟨userID, poolID, a1, amount⟩ : StakeRequest).binds =
        (⟨userID, poolID, a2, amount⟩ : StakeRequest).binds := by
      have e1 : (a1 != 0) = true := by simpa using h1
      have e2 : (a2 != 0) = true := by simpa using h2
      simp only [StakeRequest.binds, e1, e2]
    unfold PoolController.Stake
    rw [hb]
    rfl

theorem stake_ignores_asset_id_witness :
    Stake freshLedger 0 "tx_1" 7 1 1 1000 = Stake freshLedger 0 "tx_1" 7 1 2 1000 ∧
      (∃ pool ua, findPool freshLedger 1 = some pool ∧
        findUserAsset freshLedger 7 pool.StakeAsset = some ua ∧
        (Stake freshLedger 0 "tx_1" 7 1 1 1000).2.userAssets =
          updateWhereID UserAsset.ID ua.ID
            (fun r => { r with Balance := r.Balance - 1000, Locked := r.Locked + 1000 })
            freshLedger.userAssets) ∧
      PoolController.Stake freshLedger 0 "tx_1" ⟨7, 1, 1, 1000⟩ =
        PoolController.Stake freshLedger 0 "tx_1" ⟨7, 1, 2, 1000⟩ :=
  ⟨(stake_ignores_asset_id freshLedger 0 "tx_1" 7 1 1000 1 2).1,
    (stake_ignores_asset_id freshLedger 0 "tx_1" 7 1 1000 1 2).2.1 (by decide!),
    (stake_ignores_asset_id freshLedger 0 "tx_1" 7 1 1000 1 2).2.2 (by decide) (by decide)⟩

end DlData
